import Mathlib

/-!
# EcoTank firmware (ATmega2560): framed channel, orchestrator, refill control

A shallow embedding of `boundary/RPiIF`, `boundary/RangingModuleIF`,
`control/DataManager`, `control/BrugVarmtVand` and `domain/SystemData`.  Machine integers are natural numbers with the
reduction modulo `2^w` written out where the C arithmetic can wrap.
-/

namespace EcoTank

/-! ## `boundary/RPiIF` : receive ring buffer and frame extraction -/

/-- Size of the ring buffer (`RPiIF::kBufferSize`). -/
def kBufferSize : Nat := 256

/-- Payload size of a frame, start and stop bytes excluded (`RPiIF::kFrameSize`). -/
def kFrameSize : Nat := 7

/-- Start marker (`RPiIF::START_ID_BYTE`). -/
def START_ID_BYTE : Nat := 0x7E

/-- Stop marker (`RPiIF::STOP_ID_BYTE`). -/
def STOP_ID_BYTE : Nat := 0x7D

/-- Setpoint marker (`RPiIF::SETPOINT_ID_BYTE`). -/
def SETPOINT_ID_BYTE : Nat := 0x5C

/-- System-power marker (`RPiIF::SYSTEM_POWER_ID_BYTE`). -/
def SYSTEM_POWER_ID_BYTE : Nat := 0x88

/-- Temperature marker (`RPiIF::TEMPERATURE_ID_BYTE`). -/
def TEMPERATURE_ID_BYTE : Nat := 0x3A

/-- Water-level marker (`RPiIF::WATER_LEVEL_ID_BYTE`). -/
def WATER_LEVEL_ID_BYTE : Nat := 0x2F

/-- Data members of `class RPiIF`.  `rxBuffer` is the array `rxBuffer_[256]`
seen as a map from index to byte; `framesInBuffer` is a `uint8_t`. -/
structure RPiIF where
  rxBuffer : Nat → Nat
  bufferHead : Nat
  bufferTail : Nat
  framesInBuffer : Nat

/-- State after the constructor: `bufferHead_(0), bufferTail_(0)`, the static
instance being zero-initialised otherwise. -/
def RPiIF.init : RPiIF :=
  { rxBuffer := fun _ => 0, bufferHead := 0, bufferTail := 0, framesInBuffer := 0 }

/-- The function `RPiIF::isFull`. -/
def RPiIF.isFull (s : RPiIF) : Bool :=
  (s.bufferHead + 1) % kBufferSize == s.bufferTail

/-- The function `RPiIF::isEmpty`. -/
def RPiIF.isEmpty (s : RPiIF) : Bool :=
  s.bufferHead == s.bufferTail

/-- The function `RPiIF::frameCount`. -/
def RPiIF.frameCount (s : RPiIF) : Nat :=
  s.framesInBuffer

/-- The function `RPiIF::writeToRxBuffer`; `byte` is a `uint8_t`. -/
def RPiIF.writeToRxBuffer (s : RPiIF) (byte : Nat) : RPiIF :=
  if !s.isFull then
    let s1 : RPiIF :=
      { s with
        rxBuffer := Function.update s.rxBuffer s.bufferHead byte
        bufferHead := (s.bufferHead + 1) % kBufferSize }
    if byte == STOP_ID_BYTE then
      { s1 with framesInBuffer := (s1.framesInBuffer + 1) % 256 }
    else s1
  else s

/-- Successive calls of `writeToRxBuffer`, one per received byte. -/
def RPiIF.writeAll (s : RPiIF) (bytes : List Nat) : RPiIF :=
  bytes.foldl RPiIF.writeToRxBuffer s

/-- What a call of `getDataFrame` leaves behind: the returned count, the
object and the caller's `outBuffer`. -/
structure FrameResult where
  byteCount : Nat
  rpi : RPiIF
  outBuffer : List Nat

/-- The `while (!isEmpty())` loop of `RPiIF::getDataFrame`, with the locals
`startByteFound` and `byteCount` as arguments.  The first argument bounds the
number of iterations; `none` means the bound was reached. -/
def getDataFrameLoop : Nat → RPiIF → List Nat → Bool → Nat → Option FrameResult
  | 0, s, outBuffer, _, _ =>
    if s.isEmpty then some ⟨0, s, outBuffer⟩ else none
  | fuel + 1, s, outBuffer, startByteFound, byteCount =>
    if s.isEmpty then some ⟨0, s, outBuffer⟩
    else
      let byte := s.rxBuffer s.bufferTail
      let s1 : RPiIF := { s with bufferTail := (s.bufferTail + 1) % kBufferSize }
      if startByteFound then
        if byte == STOP_ID_BYTE && byteCount == kFrameSize then
          some ⟨byteCount, { s1 with framesInBuffer := (s1.framesInBuffer + 255) % 256 }, outBuffer⟩
        else if byteCount < kFrameSize then
          getDataFrameLoop fuel s1 (outBuffer.set byteCount byte) startByteFound (byteCount + 1)
        else
          getDataFrameLoop fuel s1 outBuffer false 0
      else if byte == START_ID_BYTE then
        getDataFrameLoop fuel s1 outBuffer true 0
      else
        getDataFrameLoop fuel s1 outBuffer startByteFound byteCount

/-- The function `RPiIF::getDataFrame`.  A buffer whose indices are below
`kBufferSize` holds at most 255 bytes, so 256 iterations exhaust it. -/
def RPiIF.getDataFrame (s : RPiIF) (outBuffer : List Nat) : Option FrameResult :=
  getDataFrameLoop kBufferSize s outBuffer false 0

/-- Both indices are below `kBufferSize`, as after every `% kBufferSize`, and
the frame counter is a `uint8_t` value. -/
def RPiIF.WF (s : RPiIF) : Prop :=
  s.bufferHead < kBufferSize ∧ s.bufferTail < kBufferSize ∧ s.framesInBuffer < 256

/-- Number of bytes stored between tail and head. -/
def RPiIF.used (s : RPiIF) : Nat :=
  (s.bufferHead + kBufferSize - s.bufferTail) % kBufferSize

/-- The bytes stored between tail and head, oldest first. -/
def RPiIF.contents (s : RPiIF) : List Nat :=
  (List.range s.used).map fun i => s.rxBuffer ((s.bufferTail + i) % kBufferSize)

/-- The scan of `getDataFrameLoop` read off a list of buffered bytes: returned
count, bytes left unread, and `outBuffer`. -/
def scanFrame : List Nat → List Nat → Bool → Nat → Nat × List Nat × List Nat
  | [], outBuffer, _, _ => (0, [], outBuffer)
  | byte :: rest, outBuffer, startByteFound, byteCount =>
    if startByteFound then
      if byte == STOP_ID_BYTE && byteCount == kFrameSize then
        (byteCount, rest, outBuffer)
      else if byteCount < kFrameSize then
        scanFrame rest (outBuffer.set byteCount byte) startByteFound (byteCount + 1)
      else
        scanFrame rest outBuffer false 0
    else if byte == START_ID_BYTE then
      scanFrame rest outBuffer true 0
    else
      scanFrame rest outBuffer startByteFound byteCount

/-! ## `domain/SystemData` -/

/-- The four raw bytes of a `float`, in memory order. -/
structure RawFloat where
  b0 : Nat
  b1 : Nat
  b2 : Nat
  b3 : Nat
  deriving DecidableEq

/-- The constant `0.0f`. -/
def RawFloat.zero : RawFloat := ⟨0, 0, 0, 0⟩

/-- The constant `91.0f`, bits `0x42B60000`, least significant byte first as
the ATmega2560 stores it. -/
def RawFloat.ninetyOne : RawFloat := ⟨0x00, 0x00, 0xB6, 0x42⟩

/-- Data members of `class SystemData`; distances are `uint16_t`. -/
structure SystemData where
  systemPower : Bool
  setPoint : RawFloat
  range : Nat
  lastRange : Nat
  waterTemp : RawFloat
  maxDistance : Nat
  minDistance : Nat
  deriving DecidableEq

/-- The constructor `SystemData(maxDistance, minDistance)`. -/
def SystemData.init (maxDistance minDistance : Nat) : SystemData :=
  { systemPower := false, setPoint := RawFloat.zero, range := 0, lastRange := 0,
    waterTemp := RawFloat.zero, maxDistance := maxDistance, minDistance := minDistance }

/-- The function `SystemData::setSystemPower`. -/
def SystemData.setSystemPower (d : SystemData) (systemPower : Bool) : SystemData :=
  { d with systemPower := systemPower }

/-- The function `SystemData::setSetPoint`. -/
def SystemData.setSetPoint (d : SystemData) (setPoint : RawFloat) : SystemData :=
  { d with setPoint := setPoint }

/-- The function `SystemData::setTemp`. -/
def SystemData.setTemp (d : SystemData) (temp : RawFloat) : SystemData :=
  { d with waterTemp := temp }

/-- The function `SystemData::setCurrentRange`. -/
def SystemData.setCurrentRange (d : SystemData) (range : Nat) : SystemData :=
  { d with range := range }

/-- The function `SystemData::setLastRange`. -/
def SystemData.setLastRange (d : SystemData) (range : Nat) : SystemData :=
  { d with lastRange := range }

/-! ## `boundary/RangingModuleIF` : trigger gate, echo capture, moving average -/

/-- The constant `kSMAWindowSize` of `updateMovingAverage`. -/
def kSMAWindowSize : Nat := 5

/-- Data members of `class RangingModuleIF` with the static `readingAllowed`;
the two bits of timer 5 that `sendTriggerPulse` writes, the counting register
`TCNT5` and the overflow-interrupt enable `TOIE5`; and the function-local
statics: `overflows` of `ISR(TIMER5_OVF_vect)` (`uint8_t`), `isRisingEdge` of
`ISRHandler`, and `smaBuffer` (`uint16_t[5]`), `smaTotal` (`uint32_t`),
`smaIndex`, `callCounter` (`uint8_t`) of `updateMovingAverage`. -/
structure RangingModuleIF where
  currentDistance : Nat
  lastDistance : Nat
  startTime : Nat
  endTime : Nat
  unreadDistance : Bool
  readingAllowed : Bool
  tcnt5 : Nat
  overflowIntEnabled : Bool
  overflows : Nat
  isRisingEdge : Bool
  smaBuffer : List Nat
  smaTotal : Nat
  smaIndex : Nat
  callCounter : Nat
  deriving DecidableEq

/-- State after the default constructor, `readingAllowed = true`, the statics
at their initial values and the overflow interrupt of timer 5 not enabled. -/
def RangingModuleIF.init : RangingModuleIF :=
  { currentDistance := 0, lastDistance := 0, startTime := 0, endTime := 0,
    unreadDistance := false, readingAllowed := true, tcnt5 := 0,
    overflowIntEnabled := false, overflows := 0, isRisingEdge := true,
    smaBuffer := List.replicate kSMAWindowSize 0, smaTotal := 0, smaIndex := 0,
    callCounter := 0 }

/-- The function `RangingModuleIF::sendTriggerPulse`; the 10 µs pulse on
`PORTL` leaves no trace in the state. -/
def RangingModuleIF.sendTriggerPulse (m : RangingModuleIF) : Bool × RangingModuleIF :=
  let wasReadingAllowed := m.readingAllowed
  let m1 : RangingModuleIF := { m with readingAllowed := false }
  if wasReadingAllowed then
    (true, { m1 with tcnt5 := 0, overflowIntEnabled := true })
  else (false, m1)

/-- The function `RangingModuleIF::hasUnreadDistance`. -/
def RangingModuleIF.hasUnreadDistance (m : RangingModuleIF) : Bool :=
  m.unreadDistance

/-- The function `RangingModuleIF::getCurrentDistance`: clears the unread flag. -/
def RangingModuleIF.getCurrentDistance (m : RangingModuleIF) : Nat × RangingModuleIF :=
  (m.currentDistance, { m with unreadDistance := false })

/-- The function `RangingModuleIF::getLastDistance`. -/
def RangingModuleIF.getLastDistance (m : RangingModuleIF) : Nat :=
  m.lastDistance

/-- The handler `ISR(TIMER5_OVF_vect)`; the debug toggling of `PORTB` is left
out. -/
def RangingModuleIF.timer5Overflow (m : RangingModuleIF) : RangingModuleIF :=
  if m.overflows ≥ 2 then
    { m with overflowIntEnabled := false, readingAllowed := true, overflows := 0 }
  else { m with overflows := (m.overflows + 1) % 256 }

/-- The local `elapsed` of `calcDistance`, each operation in the 16-bit
`unsigned int` of the target. -/
def elapsedTicks (startTime endTime : Nat) : Nat :=
  if endTime ≥ startTime then (endTime + 65536 - startTime % 65536) % 65536
  else (((65535 + 65536 - startTime % 65536) % 65536 + endTime) % 65536 + 1) % 65536

/-- The local `distance` of `calcDistance`: `(elapsed * 5) / 58` with the
product in the 16-bit `unsigned int` of the target. -/
def rawDistance (elapsed : Nat) : Nat :=
  (elapsed * 5) % 65536 / 58

/-- The function `RangingModuleIF::updateMovingAverage`.  The product
`distance * kSMAWindowSize` is a 16-bit `unsigned int`, `smaTotal` a
`uint32_t`, `currentDistance_` a `uint16_t`. -/
def RangingModuleIF.updateMovingAverage (m : RangingModuleIF) (distance : Nat) :
    RangingModuleIF :=
  let first := m.smaTotal == 0 && m.smaIndex == 0
  let smaBuffer0 :=
    if first then
      (List.range kSMAWindowSize).foldl (fun buf i => buf.set i distance) m.smaBuffer
    else m.smaBuffer
  let smaTotal0 := if first then (distance * kSMAWindowSize) % 65536 else m.smaTotal
  let smaTotal1 := (smaTotal0 + 4294967296 - smaBuffer0.getD m.smaIndex 0) % 4294967296
  let smaBuffer1 := smaBuffer0.set m.smaIndex distance
  let smaTotal2 := (smaTotal1 + distance) % 4294967296
  let smaIndex1 := (m.smaIndex + 1) % kSMAWindowSize
  let currentDistance := (smaTotal2 / kSMAWindowSize) % 65536
  let m1 : RangingModuleIF :=
    { m with
      smaBuffer := smaBuffer1, smaTotal := smaTotal2, smaIndex := smaIndex1,
      currentDistance := currentDistance }
  if m.callCounter ≥ 25 then { m1 with lastDistance := currentDistance, callCounter := 0 }
  else { m1 with callCounter := (m.callCounter + 1) % 256 }

/-- Successive calls of `updateMovingAverage`, one per sample. -/
def RangingModuleIF.updateAll (m : RangingModuleIF) (samples : List Nat) : RangingModuleIF :=
  samples.foldl RangingModuleIF.updateMovingAverage m

/-- The function `RangingModuleIF::calcDistance`. -/
def RangingModuleIF.calcDistance (m : RangingModuleIF) : RangingModuleIF :=
  let elapsed := elapsedTicks m.startTime m.endTime
  let distance := rawDistance elapsed
  { m.updateMovingAverage distance with unreadDistance := true }

/-- The function `RangingModuleIF::ISRHandler`; `icr5` is the value of the
capture register `ICR5` at the edge.  The capture polarity bit `ICES5` follows
`isRisingEdge` and has no field of its own. -/
def RangingModuleIF.ISRHandler (m : RangingModuleIF) (icr5 : Nat) : RangingModuleIF :=
  if m.isRisingEdge then { m with startTime := icr5, isRisingEdge := false }
  else ({ m with endTime := icr5, isRisingEdge := true } : RangingModuleIF).calcDistance

/-- What can happen to the trigger gate: a call of `sendTriggerPulse` from the
main loop, or an overflow of timer 5. -/
inductive GateEvent where
  | trigger
  | overflow
  deriving DecidableEq

/-- One event on the trigger gate.  The overflow handler runs only while the
overflow interrupt is enabled; otherwise the overflow passes unnoticed. -/
def RangingModuleIF.deliver (m : RangingModuleIF) : GateEvent → RangingModuleIF
  | GateEvent.trigger => m.sendTriggerPulse.2
  | GateEvent.overflow => if m.overflowIntEnabled then m.timer5Overflow else m

/-- An interleaving of calls and overflows, in order. -/
def RangingModuleIF.run (m : RangingModuleIF) (events : List GateEvent) : RangingModuleIF :=
  events.foldl RangingModuleIF.deliver m

/-- The number of overflow interrupts that are handled in an interleaving. -/
def RangingModuleIF.handledOverflows : RangingModuleIF → List GateEvent → Nat
  | _, [] => 0
  | m, e :: rest =>
    (if e = GateEvent.overflow ∧ m.overflowIntEnabled = true then 1 else 0) +
      RangingModuleIF.handledOverflows (m.deliver e) rest

/-- While the gate is open the overflow counter is 0 and the overflow
interrupt is off. -/
def RangingModuleIF.GateInv (m : RangingModuleIF) : Prop :=
  m.readingAllowed = true → m.overflows = 0 ∧ m.overflowIntEnabled = false

/-- The filter holds the window `w`, oldest sample first: the five slots of
`smaBuffer`, read from `smaIndex` on, are the five samples of `w`, and
`smaTotal` is their sum. -/
def RangingModuleIF.HoldsWindow (m : RangingModuleIF) (w : List Nat) : Prop :=
  w.length = 5 ∧ m.smaBuffer.length = 5 ∧ m.smaIndex < 5 ∧ (∀ x ∈ w, x < 65536) ∧
    m.smaTotal = w.sum ∧
    ∀ i, i < 5 → m.smaBuffer.getD ((m.smaIndex + i) % 5) 0 = w.getD i 0

/-- The window after the samples `first :: rest`: the last five samples, with
the first sample standing in for the ones that have not come yet. -/
def smaWindow (first : Nat) (rest : List Nat) : List Nat :=
  (List.replicate 4 first ++ first :: rest).drop rest.length

/-! ## `control/DataManager` -/

/-- The object `DataManager` with the objects it refers to and the two static
locals of `updateSystemData`. -/
structure DataManager where
  rpiInterface : RPiIF
  rangeInterface : RangingModuleIF
  systemData : SystemData
  simulateExtremeTemp : Bool
  noDataCounter : Nat

/-- State at start-up, as `main` builds it. -/
def DataManager.init (maxDistance minDistance : Nat) : DataManager :=
  { rpiInterface := RPiIF.init, rangeInterface := RangingModuleIF.init,
    systemData := SystemData.init maxDistance minDistance,
    simulateExtremeTemp := false, noDataCounter := 0 }

/-- The inner `for` of `updateSystemData` over the payload: the index after
the last power marker and after the last setpoint marker, or the incoming
value where the marker does not occur.  `i < frameSize = 7`, so `i + 1` fits
the `uint8_t`. -/
def findMarkers (frameBuffer : List Nat) (frameSize : Nat) (indices : Nat × Nat) : Nat × Nat :=
  (List.range frameSize).foldl
    (fun (acc : Nat × Nat) i =>
      if frameBuffer.getD i 0 == SYSTEM_POWER_ID_BYTE then (i + 1, acc.2)
      else if frameBuffer.getD i 0 == SETPOINT_ID_BYTE then (acc.1, i + 1)
      else acc)
    indices

/-- The `memcpy(&setPoint, &frameBuffer[setPointIndex], sizeof(float))`: four
bytes from the index on; `none` when one of them lies outside the array. -/
def readFloat (frameBuffer : List Nat) (index : Nat) : Option RawFloat := do
  let b0 ← frameBuffer[index]?
  let b1 ← frameBuffer[index + 1]?
  let b2 ← frameBuffer[index + 2]?
  let b3 ← frameBuffer[index + 3]?
  some ⟨b0, b1, b2, b3⟩

/-- Locals of `updateSystemData` that live across the frames of one cycle,
with the objects the decoding writes. -/
structure DecodeState where
  rpi : RPiIF
  sys : SystemData
  frameBuffer : List Nat
  systemPowerIndex : Nat
  setPointIndex : Nat
  isNewDataAvailable : Bool

/-- The `for (i < framesReceived)` loop of `updateSystemData`.  The result is
`none` when `getDataFrame` does not return or a read leaves `frameBuffer`. -/
def processFrames : Nat → DecodeState → Option DecodeState
  | 0, d => some d
  | n + 1, d => do
    let r ← d.rpi.getDataFrame d.frameBuffer
    let frameSize := r.byteCount % 256
    if frameSize == kFrameSize then
      let idx := findMarkers r.outBuffer frameSize (d.systemPowerIndex, d.setPointIndex)
      let power ← r.outBuffer[idx.1]?
      let setPoint ← readFloat r.outBuffer idx.2
      processFrames n
        { rpi := r.rpi
          sys := (d.sys.setSystemPower (power != 0)).setSetPoint setPoint
          frameBuffer := r.outBuffer
          systemPowerIndex := idx.1
          setPointIndex := idx.2
          isNewDataAvailable := true }
    else
      processFrames n { d with rpi := r.rpi, frameBuffer := r.outBuffer }

/-- Rounding of the quotient `n / d` of two naturals to the nearest natural,
a tie going to the even one: the rounding of the single-precision operations
of the target. -/
def roundHalfEven (n d : Nat) : Nat :=
  if 2 * (n % d) < d then n / d
  else if d < 2 * (n % d) then n / d + 1
  else if (n / d) % 2 = 0 then n / d
  else n / d + 1

/-- Doubling of the numerator `p` until `p / q` is at least `2^23`; the second
component is the factor `p` has been multiplied with.  The first argument
bounds the number of steps. -/
def scaleUp : Nat → Nat → Nat → Nat → Nat × Nat
  | 0, p, _, w => (p, w)
  | fuel + 1, p, q, w =>
    if p < 8388608 * q then scaleUp fuel (2 * p) q (2 * w) else (p, w)

/-- Doubling of the denominator `q` until `p / q` is below `2^24`; the second
component is the factor `q` has been multiplied with.  The first argument
bounds the number of steps. -/
def scaleDown : Nat → Nat → Nat → Nat → Nat × Nat
  | 0, _, q, w => (q, w)
  | fuel + 1, p, q, w =>
    if 16777216 * q ≤ p then scaleDown fuel p (2 * q) (2 * w) else (q, w)

/-- The `float` (IEEE 754 binary32) nearest to the positive quotient `p / q`,
as a fraction: the quotient is scaled by a power of two into the range
`2^23 .. 2^24` of the 24-bit significand, rounded to nearest with ties to
even, and scaled back.  This is the result of a single-precision division or
multiplication whose exact value is `p / q`.  The exponent range of the type
is left out: the operands of `updateSystemData` come from 16-bit integers, and
the values lie between `2^-16` and `2^23`. -/
def f32Round (p q : Nat) : Nat × Nat :=
  if p = 0 then (0, 1)
  else
    let up := scaleUp (q + 24) p q 1
    let down := scaleDown up.1 up.1 q 1
    (roundHalfEven up.1 down.1 * down.2, up.2)

/-- The value `round((((float)max - cur) / ((float)max - min)) * 100)` of
`updateSystemData`, computed as the target does: the two differences are exact
in `float`, the division and the multiplication by 100 each round to the
nearest `float`, and `round` takes the nearest integer with halves away from
zero.  The arguments are the `uint16_t` values of the snapshot.  A zero
denominator, where the quotient is infinite or not a number, gives `none`. -/
def waterLevelFloat (maxDistance minDistance currentDistance : Nat) : Option Int :=
  let num : Int := (maxDistance : Int) - (currentDistance : Int)
  let den : Int := (maxDistance : Int) - (minDistance : Int)
  if den = 0 then none
  else
    let quotient := f32Round num.natAbs den.natAbs
    let product := f32Round (quotient.1 * 100) quotient.2
    let rounded : Int := ((2 * product.1 + product.2) / (2 * product.2) : Nat)
    some (if decide (num < 0) != decide (den < 0) then -rounded else rounded)

/-- The conversion `(uint8_t)` of that value: `none` where C leaves the
conversion undefined, that is where the value is not in `0 .. 255`, or is
infinite or not a number. -/
def waterLevelByte (maxDistance minDistance currentDistance : Nat) : Option Nat :=
  (waterLevelFloat maxDistance minDistance currentDistance).bind fun v =>
    if 0 ≤ v ∧ v ≤ 255 then some v.toNat else none

/-- The byte `waterLevelPercentage` placed in the telemetry frame: the value
of `waterLevelByte` where the conversion is defined.  Where it is not, the
source determines no value, and 0 stands in its place. -/
def waterLevelPercentage (maxDistance minDistance currentDistance : Nat) : Nat :=
  (waterLevelByte maxDistance minDistance currentDistance).getD 0

/-- The formula of the specification for the percentage, not the code:
`round(100 * (max - cur) / (max - min))` with the quotient taken exactly and
halves rounded away from zero; a zero denominator gives 0.  The code computes
in single precision (`waterLevelFloat`) and is compared with this. -/
def waterLevelExact (maxDistance minDistance currentDistance : Nat) : Int :=
  let num : Int := ((maxDistance : Int) - (currentDistance : Int)) * 100
  let den : Int := (maxDistance : Int) - (minDistance : Int)
  let q : Int := ((2 * num.natAbs + den.natAbs) / (2 * den.natAbs) : Nat)
  if decide (num < 0) != decide (den < 0) then -q else q

/-- The nine bytes `byteSequence` sent to the host. -/
def telemetryFrame (sys : SystemData) (currentTemp : RawFloat) : List Nat :=
  [START_ID_BYTE, WATER_LEVEL_ID_BYTE,
    waterLevelPercentage sys.maxDistance sys.minDistance sys.range,
    TEMPERATURE_ID_BYTE, currentTemp.b0, currentTemp.b1, currentTemp.b2, currentTemp.b3,
    STOP_ID_BYTE]

/-- What one call of `updateSystemData` leaves behind: the objects, the bytes
passed to `send`, and the local `isNewDataAvailable`. -/
structure CycleResult where
  dm : DataManager
  sent : List Nat
  decoded : Bool

/-- The function `DataManager::updateSystemData`.  `switch7` is the value of
`switchOn(7)` and `temp` the value of `tempInterface_.getTemp()` in this call;
the debug toggling of `PORTB` is left out. -/
def DataManager.updateSystemData (dm : DataManager) (switch7 : Bool) (temp : RawFloat) :
    Option CycleResult :=
  let range1 := dm.rangeInterface.sendTriggerPulse.2
  let simulateExtremeTemp :=
    if switch7 then !dm.simulateExtremeTemp else dm.simulateExtremeTemp
  let currentTemp := if simulateExtremeTemp then RawFloat.ninetyOne else temp
  let sys1 := dm.systemData.setTemp currentTemp
  let framesReceived := dm.rpiInterface.frameCount
  let d0 : DecodeState :=
    { rpi := dm.rpiInterface, sys := sys1, frameBuffer := List.replicate kFrameSize 0,
      systemPowerIndex := 0, setPointIndex := 0, isNewDataAvailable := false }
  let frames : Option DecodeState :=
    if framesReceived != 0 then processFrames framesReceived d0 else some d0
  frames.map fun d =>
    let range2 := if range1.hasUnreadDistance then range1.getCurrentDistance.2 else range1
    let sys2 :=
      if range1.hasUnreadDistance then
        (d.sys.setCurrentRange range1.getCurrentDistance.1).setLastRange
          range1.getCurrentDistance.2.getLastDistance
      else d.sys
    let noDataCounter :=
      if d.isNewDataAvailable then 0
      else if dm.noDataCounter < 255 then dm.noDataCounter + 1 else 20
    let sent := if d.isNewDataAvailable then telemetryFrame sys2 currentTemp else []
    let sys3 := if noDataCounter ≥ 20 then sys2.setSystemPower false else sys2
    { dm :=
        { rpiInterface := d.rpi, rangeInterface := range2, systemData := sys3,
          simulateExtremeTemp := simulateExtremeTemp, noDataCounter := noDataCounter }
      sent := sent
      decoded := d.isNewDataAvailable }

/-- What the interrupt handlers and the outside world hand to one cycle: the
channel and the ranging module as the interrupts have left them when the
cycle starts, the switch and the temperature probe. -/
structure CycleInput where
  rpi : RPiIF
  range : RangingModuleIF
  switch7 : Bool
  temp : RawFloat

/-- One pass of the main loop through `updateSystemData`. -/
def runCycle (dm : DataManager) (i : CycleInput) : Option CycleResult :=
  ({ dm with rpiInterface := i.rpi, rangeInterface := i.range } : DataManager).updateSystemData
    i.switch7 i.temp

/-- Consecutive cycles; the list tells for each cycle whether a frame was
decoded in it. -/
def runCycles : List CycleInput → DataManager → Option (DataManager × List Bool)
  | [], dm => some (dm, [])
  | i :: rest, dm => do
    let r ← runCycle dm i
    let t ← runCycles rest r.dm
    some (t.1, r.decoded :: t.2)

/-- A cycle in which the host has sent nothing and no echo has come in. -/
def CycleInput.idle : CycleInput :=
  { rpi := RPiIF.init, range := RangingModuleIF.init, switch7 := false, temp := RawFloat.zero }

/-- The orchestrator after the host has switched the system on, with the
bounds `kMaxDistance = 133` and `kMinDistance = 33` of `main`. -/
def DataManager.running : DataManager :=
  { DataManager.init 133 33 with
    systemData := (SystemData.init 133 33).setSystemPower true }

/-- A cycle that finds one host frame in the channel: power marker, 1,
setpoint marker and four bytes. -/
def CycleInput.hostFrame : CycleInput :=
  { CycleInput.idle with
    rpi := RPiIF.init.writeAll
      [START_ID_BYTE, SYSTEM_POWER_ID_BYTE, 1, SETPOINT_ID_BYTE, 0, 0, 0x70, 0x42,
        STOP_ID_BYTE] }

/-- A cycle that finds in the channel the bytes the host has sent since
start-up, with nothing else going on. -/
def CycleInput.host (bytes : List Nat) : CycleInput :=
  { CycleInput.idle with rpi := RPiIF.init.writeAll bytes }

/-- The body of the `for (i < framesReceived)` loop of `updateSystemData` once
`getDataFrame` has returned `r`: the decoding of one frame. -/
def decodeFrame (d : DecodeState) (r : FrameResult) : Option DecodeState :=
  if r.byteCount % 256 == kFrameSize then
    (r.outBuffer[(findMarkers r.outBuffer (r.byteCount % 256)
        (d.systemPowerIndex, d.setPointIndex)).1]?).bind fun power =>
      (readFloat r.outBuffer (findMarkers r.outBuffer (r.byteCount % 256)
          (d.systemPowerIndex, d.setPointIndex)).2).map fun setPoint =>
        { rpi := r.rpi
          sys := (d.sys.setSystemPower (power != 0)).setSetPoint setPoint
          frameBuffer := r.outBuffer
          systemPowerIndex := (findMarkers r.outBuffer (r.byteCount % 256)
            (d.systemPowerIndex, d.setPointIndex)).1
          setPointIndex := (findMarkers r.outBuffer (r.byteCount % 256)
            (d.systemPowerIndex, d.setPointIndex)).2
          isNewDataAvailable := true }
  else some { d with rpi := r.rpi, frameBuffer := r.outBuffer }

/-- What can happen to the channel: the receive interrupt stores a byte, or
the main loop calls `getDataFrame` with some `outBuffer`. -/
inductive ChannelEvent where
  | write (byte : Nat)
  | extract (outBuffer : List Nat)

/-- One event on the channel; `none` when `getDataFrame` does not return. -/
def RPiIF.apply (s : RPiIF) : ChannelEvent → Option RPiIF
  | ChannelEvent.write byte => some (s.writeToRxBuffer byte)
  | ChannelEvent.extract outBuffer => (s.getDataFrame outBuffer).map FrameResult.rpi

/-- A sequence of events on the channel, in order. -/
def RPiIF.runEvents : RPiIF → List ChannelEvent → Option RPiIF
  | s, [] => some s
  | s, e :: rest => (s.apply e).bind fun s1 => RPiIF.runEvents s1 rest

/-- No write in the sequence takes the frame counter from 255 back to 0: a
stop byte is stored only while the counter is below 255. -/
def RPiIF.noWrap : RPiIF → List ChannelEvent → Bool
  | _, [] => true
  | s, e :: rest =>
    (match e with
      | ChannelEvent.write byte =>
        !(byte == STOP_ID_BYTE && !s.isFull) || decide (s.framesInBuffer < 255)
      | ChannelEvent.extract _ => true) &&
    (match s.apply e with
      | some s1 => RPiIF.noWrap s1 rest
      | none => true)

/-- Every call of `getDataFrame` in the sequence is handed a buffer of
`kFrameSize` bytes, as the caller in `updateSystemData` does. -/
def outBuffersFit (events : List ChannelEvent) : Bool :=
  events.all fun e =>
    match e with
    | ChannelEvent.write _ => true
    | ChannelEvent.extract outBuffer => outBuffer.length == kFrameSize

/-! ## `control/BrugVarmtVand` : refill control -/

/-- The enumeration `BrugVarmtVand::State`. -/
inductive State where
  | CheckDistance
  | ForceRefill
  | TimerRunning
  deriving DecidableEq

/-- Data members of `class BrugVarmtVand` with the static `overflowCount`
(`uint8_t`) and the hardware it drives: the overflow-interrupt enable `TOIE4`
and counting register `TCNT4` of timer 4, and the pump pin `PB6`. -/
structure BrugVarmtVand where
  currentState : State
  maxDistance : Nat
  minDistance : Nat
  overflowCount : Nat
  timerIntEnabled : Bool
  tcnt4 : Nat
  pumpOn : Bool
  deriving DecidableEq

/-- The constructor `BrugVarmtVand(sysData)`, pump pin low as `main` sets it. -/
def BrugVarmtVand.init (sysData : SystemData) : BrugVarmtVand :=
  { currentState := State.CheckDistance, maxDistance := sysData.maxDistance,
    minDistance := sysData.minDistance, overflowCount := 0, timerIntEnabled := false,
    tcnt4 := 0, pumpOn := false }

/-- The constant `stabilityThreshold_`. -/
def stabilityThreshold : Nat := 2

/-- The debounce threshold tested in state `TimerRunning` (`overflows >= 3`). -/
def debounceThreshold : Nat := 3

/-- The function `BrugVarmtVand::startTimer`. -/
def BrugVarmtVand.startTimer (b : BrugVarmtVand) : BrugVarmtVand :=
  { b with timerIntEnabled := true, tcnt4 := 0 }

/-- The function `BrugVarmtVand::stopTimer`. -/
def BrugVarmtVand.stopTimer (b : BrugVarmtVand) : BrugVarmtVand :=
  { b with timerIntEnabled := false, overflowCount := 0 }

/-- The function `PumpIF::start`. -/
def BrugVarmtVand.pumpStart (b : BrugVarmtVand) : BrugVarmtVand :=
  { b with pumpOn := true }

/-- The function `PumpIF::stop`. -/
def BrugVarmtVand.pumpStop (b : BrugVarmtVand) : BrugVarmtVand :=
  { b with pumpOn := false }

/-- The handler `ISR(TIMER4_OVF_vect)`. -/
def BrugVarmtVand.timer4Overflow (b : BrugVarmtVand) : BrugVarmtVand :=
  { b with overflowCount := (b.overflowCount + 1) % 256 }

/-- The function `BrugVarmtVand::isLevelMin`. -/
def BrugVarmtVand.isLevelMin (b : BrugVarmtVand) (currentDistance : Nat) : Bool :=
  decide (currentDistance ≥ b.maxDistance)

/-- The function `BrugVarmtVand::isLevelMax`. -/
def BrugVarmtVand.isLevelMax (b : BrugVarmtVand) (currentDistance : Nat) : Bool :=
  decide (currentDistance ≤ b.minDistance)

/-- The function `BrugVarmtVand::isWithinLimits`. -/
def BrugVarmtVand.isWithinLimits (b : BrugVarmtVand) (currentDistance : Nat) : Bool :=
  decide (currentDistance < b.maxDistance) && decide (currentDistance > b.minDistance)

/-- The difference `currentDistance - lastDistance` of two `uint16_t`, taken
in the 16-bit `unsigned int` of the target. -/
def sub16 (a b : Nat) : Nat :=
  (a % 65536 + 65536 - b % 65536) % 65536

/-- The conversion of a 16-bit pattern to `int16_t` (`int` on the target). -/
def toInt16 (x : Nat) : Int :=
  if x % 65536 < 32768 then (x % 65536 : Nat) else ((x % 65536 : Nat) : Int) - 65536

/-- The function `BrugVarmtVand::isDistanceDecreasing`. -/
def isDistanceDecreasing (currentDistance lastDistance : Nat) : Bool :=
  decide (toInt16 (sub16 currentDistance lastDistance) > (stabilityThreshold : Int))

/-- The function `BrugVarmtVand::isDistanceStable`.  `abs` is the absolute
value of the `int` the difference converts to; for `INT16_MIN`, where C leaves
`abs` undefined, it is the mathematical one. -/
def isDistanceStable (currentDistance lastDistance : Nat) : Bool :=
  decide ((toInt16 (sub16 currentDistance lastDistance)).natAbs < stabilityThreshold)

/-- The function `BrugVarmtVand::checkDistance`; `sysData` is the object behind
the reference `sysData_`. -/
def BrugVarmtVand.checkDistance (b : BrugVarmtVand) (sysData : SystemData) : BrugVarmtVand :=
  let currentDistance := sysData.range
  let lastDistance := sysData.lastRange
  match b.currentState with
  | State.CheckDistance =>
    let b1 := b.stopTimer
    if b1.isLevelMax currentDistance then b1
    else if b1.isLevelMin currentDistance then { b1 with currentState := State.ForceRefill }
    else if isDistanceDecreasing currentDistance lastDistance then b1.pumpStop
    else if isDistanceStable currentDistance lastDistance then
      { b1.startTimer with currentState := State.TimerRunning }
    else b1
  | State.TimerRunning =>
    let overflows := b.overflowCount
    let b1 :=
      if decide (overflows ≥ debounceThreshold) && isDistanceStable currentDistance lastDistance
      then { b with currentState := State.ForceRefill } else b
    if isDistanceDecreasing currentDistance lastDistance then
      { b1 with currentState := State.CheckDistance }
    else b1
  | State.ForceRefill =>
    let b1 := b.stopTimer
    if b1.isWithinLimits currentDistance || b1.isLevelMin currentDistance then b1.pumpStart
    else if b1.isLevelMax currentDistance then
      { b1.pumpStop with currentState := State.CheckDistance }
    else b1

/-- The snapshot of `main` with the system on and the two distances given. -/
def SystemData.atLevel (range lastRange : Nat) : SystemData :=
  { SystemData.init 133 33 with systemPower := true, range := range, lastRange := lastRange }

/-- The refill control of `main` put in a given state, with a given debounce
overflow count and pump pin. -/
def BrugVarmtVand.inState (st : State) (overflowCount : Nat) (pumpOn : Bool) :
    BrugVarmtVand :=
  { BrugVarmtVand.init (SystemData.init 133 33) with
    currentState := st, overflowCount := overflowCount, pumpOn := pumpOn,
    timerIntEnabled := decide (st = State.TimerRunning) }

/-- What can happen to the refill control between two looks at it: the main
loop calls `checkDistance` on a snapshot, the timer interrupt having brought
the overflow count to `overflows` before; or the main loop, with the system
power off, calls `PumpIF::stop`. -/
inductive RefillEvent where
  | check (sysData : SystemData) (overflows : Nat)
  | externalStop

/-- One event on the refill control. -/
def BrugVarmtVand.apply (b : BrugVarmtVand) : RefillEvent → BrugVarmtVand
  | RefillEvent.check sysData overflows =>
    ({ b with overflowCount := overflows } : BrugVarmtVand).checkDistance sysData
  | RefillEvent.externalStop => b.pumpStop

/-- A sequence of events on the refill control, in order. -/
def BrugVarmtVand.runEvents (b : BrugVarmtVand) (events : List RefillEvent) : BrugVarmtVand :=
  events.foldl BrugVarmtVand.apply b

/-- The `TimerRunning` case of `checkDistance` with its two tests in the
opposite order: first the rising test, then the debounce test.  This is not
the code; it is the variant the code is compared with, to show that the order
of the two tests does not matter. -/
def BrugVarmtVand.timerRunningSwapped (b : BrugVarmtVand) (sysData : SystemData) :
    BrugVarmtVand :=
  let currentDistance := sysData.range
  let lastDistance := sysData.lastRange
  let overflows := b.overflowCount
  let b1 :=
    if isDistanceDecreasing currentDistance lastDistance then
      { b with currentState := State.CheckDistance }
    else b
  if decide (overflows ≥ debounceThreshold) && isDistanceStable currentDistance lastDistance
  then { b1 with currentState := State.ForceRefill } else b1

/-! ## Ring-buffer lemmas -/

theorem RPiIF.contents_length (s : RPiIF) : s.contents.length = s.used := by
  simp [RPiIF.contents]

theorem RPiIF.used_lt (s : RPiIF) : s.used < 256 := by
  unfold RPiIF.used kBufferSize
  omega

theorem RPiIF.isEmpty_iff_used (s : RPiIF) (h : s.WF) :
    s.isEmpty = true ↔ s.used = 0 := by
  unfold RPiIF.WF kBufferSize at h
  unfold RPiIF.isEmpty RPiIF.used kBufferSize
  simp only [beq_iff_eq]
  omega

/-- Dropping the byte at the tail: the first stored byte leaves the contents. -/
theorem RPiIF.contents_advance (s : RPiIF) (h : s.WF) (hne : s.isEmpty = false) :
    s.contents = s.rxBuffer s.bufferTail ::
      ({ s with bufferTail := (s.bufferTail + 1) % kBufferSize } : RPiIF).contents := by
  have hu : s.used ≠ 0 := by
    intro h0
    have := (RPiIF.isEmpty_iff_used s h).2 h0
    simp [this] at hne
  unfold RPiIF.WF kBufferSize at h
  have hused : s.used =
      ({ s with bufferTail := (s.bufferTail + 1) % kBufferSize } : RPiIF).used + 1 := by
    unfold RPiIF.used kBufferSize at hu ⊢
    simp only
    omega
  unfold RPiIF.contents
  rw [hused, List.range_succ_eq_map]
  simp only [List.map_cons, List.map_map, kBufferSize]
  congr 1
  · congr 1
    omega
  · apply List.map_congr_left
    intro i _
    simp only [Function.comp]
    congr 1
    omega

theorem RPiIF.advance_WF (s : RPiIF) (h : s.WF) :
    ({ s with bufferTail := (s.bufferTail + 1) % kBufferSize } : RPiIF).WF := by
  unfold RPiIF.WF kBufferSize at h ⊢
  simp only
  omega

theorem RPiIF.writeToRxBuffer_full (s : RPiIF) (b : Nat) (h : s.isFull = true) :
    s.writeToRxBuffer b = s := by
  simp [RPiIF.writeToRxBuffer, h]

theorem RPiIF.writeToRxBuffer_fields (s : RPiIF) (b : Nat) (hnf : s.isFull = false) :
    (s.writeToRxBuffer b).rxBuffer = Function.update s.rxBuffer s.bufferHead b ∧
    (s.writeToRxBuffer b).bufferHead = (s.bufferHead + 1) % kBufferSize ∧
    (s.writeToRxBuffer b).bufferTail = s.bufferTail ∧
    (s.writeToRxBuffer b).framesInBuffer =
      if b = STOP_ID_BYTE then (s.framesInBuffer + 1) % 256 else s.framesInBuffer := by
  unfold RPiIF.writeToRxBuffer
  by_cases hb : b = STOP_ID_BYTE <;> simp [hnf, hb]

/-- A write into a buffer that is not full appends the byte to the contents. -/
theorem RPiIF.contents_write (s : RPiIF) (b : Nat) (h : s.WF) (hnf : s.isFull = false) :
    (s.writeToRxBuffer b).contents = s.contents ++ [b] ∧ (s.writeToRxBuffer b).WF := by
  obtain ⟨hrx, hhd, htl, hfr⟩ := RPiIF.writeToRxBuffer_fields s b hnf
  have hnf2 : (s.bufferHead + 1) % 256 ≠ s.bufferTail := by
    simpa [RPiIF.isFull, kBufferSize] using hnf
  unfold RPiIF.WF kBufferSize at h
  have hused : (s.writeToRxBuffer b).used = s.used + 1 := by
    unfold RPiIF.used
    rw [hhd, htl]
    unfold kBufferSize
    omega
  refine ⟨?_, ?_⟩
  · unfold RPiIF.contents
    rw [hused, List.range_succ, List.map_append, hrx, htl]
    congr 1
    · apply List.map_congr_left
      intro i hi
      have hi2 : i < s.used := List.mem_range.1 hi
      have hne : (s.bufferTail + i) % kBufferSize ≠ s.bufferHead := by
        unfold RPiIF.used at hi2
        unfold kBufferSize at hi2 ⊢
        omega
      simp [Function.update, hne]
    · have heq : (s.bufferTail + s.used) % kBufferSize = s.bufferHead := by
        unfold RPiIF.used kBufferSize
        omega
      show [Function.update s.rxBuffer s.bufferHead b
        ((s.bufferTail + s.used) % kBufferSize)] = [b]
      rw [heq, Function.update_same]
  · unfold RPiIF.WF
    rw [hhd, htl, hfr]
    unfold kBufferSize
    split <;> omega

/-- On a buffer with indices in range the loop of `getDataFrame` ends within
`used` iterations and does what `scanFrame` does on the stored bytes. -/
theorem getDataFrameLoop_scan (fuel : Nat) :
    ∀ (s : RPiIF) (out : List Nat) (st : Bool) (bc : Nat), s.WF → s.used ≤ fuel →
      ∃ r, getDataFrameLoop fuel s out st bc = some r ∧
        r.byteCount = (scanFrame s.contents out st bc).1 ∧
        r.rpi.contents = (scanFrame s.contents out st bc).2.1 ∧
        r.outBuffer = (scanFrame s.contents out st bc).2.2 ∧
        r.rpi.WF ∧ r.rpi.bufferHead = s.bufferHead ∧ r.rpi.rxBuffer = s.rxBuffer ∧
        r.rpi.framesInBuffer =
          (if r.byteCount = 0 then s.framesInBuffer else (s.framesInBuffer + 255) % 256) := by
  induction fuel with
  | zero =>
    intro s out st bc hwf hu
    have h0 : s.used = 0 := by omega
    have he : s.isEmpty = true := (RPiIF.isEmpty_iff_used s hwf).2 h0
    have hc : s.contents = [] := by simp [RPiIF.contents, h0]
    exact ⟨⟨0, s, out⟩, by simp [getDataFrameLoop, he], by simp [hc, scanFrame],
      by simp [hc, scanFrame], by simp [hc, scanFrame], hwf, rfl, rfl, by simp⟩
  | succ fuel ih =>
    intro s out st bc hwf hu
    by_cases he : s.isEmpty = true
    · have h0 : s.used = 0 := (RPiIF.isEmpty_iff_used s hwf).1 he
      have hc : s.contents = [] := by simp [RPiIF.contents, h0]
      exact ⟨⟨0, s, out⟩, by simp [getDataFrameLoop, he], by simp [hc, scanFrame],
        by simp [hc, scanFrame], by simp [hc, scanFrame], hwf, rfl, rfl, by simp⟩
    · have he2 : s.isEmpty = false := by simpa using he
      have hc := RPiIF.contents_advance s hwf he2
      have hwf1 := RPiIF.advance_WF s hwf
      have hu1 : ({ s with bufferTail := (s.bufferTail + 1) % kBufferSize } : RPiIF).used
          ≤ fuel := by
        have hl := congrArg List.length hc
        simp only [RPiIF.contents_length, List.length_cons] at hl
        omega
      rw [hc]
      simp only [getDataFrameLoop, he2, scanFrame, Bool.false_eq_true, if_false]
      by_cases hst : st = true
      · simp only [hst, if_true]
        by_cases hstop : (s.rxBuffer s.bufferTail == STOP_ID_BYTE && bc == kFrameSize) = true
        · simp only [hstop, if_true]
          have hbc : bc = kFrameSize := by
            simp only [Bool.and_eq_true, beq_iff_eq] at hstop
            exact hstop.2
          refine ⟨_, rfl, rfl, rfl, rfl, ⟨hwf1.1, hwf1.2.1, Nat.mod_lt _ (by decide)⟩,
            rfl, rfl, ?_⟩
          simp [hbc, kFrameSize]
        · simp only [hstop, Bool.false_eq_true, if_false]
          by_cases hlt : bc < kFrameSize
          · simp only [hlt, if_true]
            exact ih _ _ _ _ hwf1 hu1
          · simp only [hlt, if_false]
            exact ih _ _ _ _ hwf1 hu1
      · have hst2 : st = false := by simpa using hst
        simp only [hst2, Bool.false_eq_true, if_false]
        by_cases hstart : (s.rxBuffer s.bufferTail == START_ID_BYTE) = true
        · simp only [hstart, if_true]
          exact ih _ _ _ _ hwf1 hu1
        · simp only [hstart, Bool.false_eq_true, if_false]
          exact ih _ _ _ _ hwf1 hu1

/-- The call `getDataFrame` returns on every buffer with indices in range, and
its result is the scan of the stored bytes. -/
theorem RPiIF.getDataFrame_scan (s : RPiIF) (out : List Nat) (hwf : s.WF) :
    ∃ r, s.getDataFrame out = some r ∧
      r.byteCount = (scanFrame s.contents out false 0).1 ∧
      r.rpi.contents = (scanFrame s.contents out false 0).2.1 ∧
      r.outBuffer = (scanFrame s.contents out false 0).2.2 ∧
      r.rpi.WF ∧ r.rpi.bufferHead = s.bufferHead ∧ r.rpi.rxBuffer = s.rxBuffer ∧
      r.rpi.framesInBuffer =
        (if r.byteCount = 0 then s.framesInBuffer else (s.framesInBuffer + 255) % 256) :=
  getDataFrameLoop_scan kBufferSize s out false 0 hwf (le_of_lt (RPiIF.used_lt s))

theorem RPiIF.isFull_iff_used (s : RPiIF) (h : s.WF) :
    s.isFull = true ↔ s.used = 255 := by
  unfold RPiIF.WF kBufferSize at h
  unfold RPiIF.isFull RPiIF.used kBufferSize
  simp only [beq_iff_eq]
  omega

theorem RPiIF.used_write (s : RPiIF) (b : Nat) (h : s.WF) (hnf : s.isFull = false) :
    (s.writeToRxBuffer b).used = s.used + 1 := by
  have hc := congrArg List.length (RPiIF.contents_write s b h hnf).1
  simpa [RPiIF.contents_length] using hc

/-- A run of writes appends as many bytes as fit below 255 stored bytes and
counts the stop-valued ones among them; the tail does not move. -/
theorem RPiIF.writeAll_spec (bs : List Nat) :
    ∀ s : RPiIF, s.WF →
      (s.writeAll bs).contents = s.contents ++ bs.take (255 - s.used) ∧
      (s.writeAll bs).WF ∧
      (s.writeAll bs).bufferTail = s.bufferTail ∧
      (s.writeAll bs).framesInBuffer =
        (s.framesInBuffer + (bs.take (255 - s.used)).count STOP_ID_BYTE) % 256 := by
  induction bs with
  | nil =>
    intro s h
    have h3 : s.framesInBuffer < 256 := h.2.2
    simp [RPiIF.writeAll, h, Nat.mod_eq_of_lt h3]
  | cons b bs ih =>
    intro s h
    have h3 : s.framesInBuffer < 256 := h.2.2
    have hstep : s.writeAll (b :: bs) = (s.writeToRxBuffer b).writeAll bs := rfl
    by_cases hf : s.isFull = true
    · have hu : s.used = 255 := (RPiIF.isFull_iff_used s h).1 hf
      rw [hstep, RPiIF.writeToRxBuffer_full s b hf]
      have := ih s h
      simpa [hu] using this
    · have hnf : s.isFull = false := by simpa using hf
      have hu : s.used ≠ 255 := fun hu => hf ((RPiIF.isFull_iff_used s h).2 hu)
      have hlt := RPiIF.used_lt s
      obtain ⟨hc, hwf⟩ := RPiIF.contents_write s b h hnf
      have hu1 := RPiIF.used_write s b h hnf
      obtain ⟨-, -, htl, hfr⟩ := RPiIF.writeToRxBuffer_fields s b hnf
      obtain ⟨ic, iwf, itl, ifr⟩ := ih _ hwf
      have hk : 255 - s.used = (255 - (s.writeToRxBuffer b).used) + 1 := by omega
      rw [hstep, hk, List.take_succ_cons]
      refine ⟨?_, iwf, ?_, ?_⟩
      · rw [ic, hc]
        simp
      · rw [itl, htl]
      · rw [ifr, hfr, List.count_cons]
        by_cases hb : b = STOP_ID_BYTE
        · simp only [hb, if_true, beq_self_eq_true]
          omega
        · have hb2 : (b == STOP_ID_BYTE) = false := by simpa using hb
          simp only [hb, if_false, hb2, Bool.false_eq_true]
          omega

/-- From an empty buffer, a run of at most 255 writes stores exactly the bytes
written. -/
theorem RPiIF.writeAll_empty (s : RPiIF) (bs : List Nat) (h : s.WF)
    (he : s.isEmpty = true) (hlen : bs.length ≤ 255) :
    (s.writeAll bs).contents = bs ∧ (s.writeAll bs).WF ∧
      (s.writeAll bs).framesInBuffer =
        (s.framesInBuffer + bs.count STOP_ID_BYTE) % 256 := by
  have h0 : s.used = 0 := (RPiIF.isEmpty_iff_used s h).1 he
  have hc : s.contents = [] := by simp [RPiIF.contents, h0]
  obtain ⟨a, b, -, d⟩ := RPiIF.writeAll_spec bs s h
  rw [h0, Nat.sub_zero, List.take_of_length_le hlen] at a d
  exact ⟨by simpa [hc] using a, b, d⟩

/-! ## Lemmas on the scan of the stored bytes -/

/-- Bytes other than the start marker are skipped while no frame is open. -/
theorem scanFrame_skip (g : List Nat) (hg : ∀ b ∈ g, b ≠ START_ID_BYTE) :
    ∀ (l out : List Nat) (bc : Nat),
      scanFrame (g ++ l) out false bc = scanFrame l out false bc := by
  induction g with
  | nil => intro l out bc; rfl
  | cons b g ih =>
    intro l out bc
    have hb : (b == START_ID_BYTE) = false := by
      simpa using hg b (List.mem_cons_self _ _)
    have hg2 : ∀ x ∈ g, x ≠ START_ID_BYTE := fun x hx => hg x (List.mem_cons_of_mem _ hx)
    simp only [List.cons_append, scanFrame, Bool.false_eq_true, if_false, hb]
    exact ih hg2 l out bc

/-- Seven bytes after the start marker are stored as they come, whatever
their values. -/
theorem scanFrame_payload (p out l : List Nat) (hp : p.length = 7) (hout : out.length = 7) :
    scanFrame (p ++ l) out true 0 = scanFrame l p true 7 := by
  rcases p with _ | ⟨p0, _ | ⟨p1, _ | ⟨p2, _ | ⟨p3, _ | ⟨p4, _ | ⟨p5, _ | ⟨p6, _ | ⟨p7, p⟩⟩⟩⟩⟩⟩⟩⟩ <;>
    simp at hp
  rcases out with _ | ⟨o0, _ | ⟨o1, _ | ⟨o2, _ | ⟨o3, _ | ⟨o4, _ | ⟨o5, _ | ⟨o6, _ | ⟨o7, o⟩⟩⟩⟩⟩⟩⟩⟩ <;>
    simp at hout
  simp [scanFrame, kFrameSize]

/-- Too few bytes to hold the rest of a frame: the scan returns 0 and leaves
nothing unread. -/
theorem scanFrame_short (l : List Nat) :
    ∀ (out : List Nat) (st : Bool) (bc : Nat),
      (st = false → l.length < 9) → (st = true → l.length + bc < 8) →
      (scanFrame l out st bc).1 = 0 ∧ (scanFrame l out st bc).2.1 = [] := by
  induction l with
  | nil => intro out st bc _ _; simp [scanFrame]
  | cons b l ih =>
    intro out st bc h1 h2
    cases st with
    | true =>
      have h := h2 rfl
      simp only [List.length_cons] at h
      have hbc : (bc == kFrameSize) = false := by
        simp only [kFrameSize, beq_eq_false_iff_ne]
        omega
      have hlt : bc < kFrameSize := by
        simp only [kFrameSize]
        omega
      simp only [scanFrame, if_true, hbc, Bool.and_false, Bool.false_eq_true, if_false, hlt]
      exact ih _ _ _ (by simp) (fun _ => by omega)
    | false =>
      have h := h1 rfl
      simp only [List.length_cons] at h
      simp only [scanFrame, Bool.false_eq_true, if_false]
      split
      · exact ih _ _ _ (by simp) (fun _ => by omega)
      · exact ih _ _ _ (fun _ => by omega) (by simp)

/-- A call that returns 0 has drained the buffer and touched nothing else. -/
theorem getDataFrameLoop_zero (fuel : Nat) :
    ∀ (s : RPiIF) (out : List Nat) (st : Bool) (bc : Nat) (r : FrameResult),
      getDataFrameLoop fuel s out st bc = some r → r.byteCount = 0 →
      r.rpi.bufferTail = s.bufferHead ∧ r.rpi.framesInBuffer = s.framesInBuffer ∧
        r.rpi.bufferHead = s.bufferHead ∧ r.rpi.rxBuffer = s.rxBuffer := by
  induction fuel with
  | zero =>
    intro s out st bc r h h0
    by_cases he : s.isEmpty = true
    · simp only [getDataFrameLoop, he, if_true, Option.some.injEq] at h
      subst h
      have : s.bufferHead = s.bufferTail := by simpa [RPiIF.isEmpty] using he
      exact ⟨this.symm, rfl, rfl, rfl⟩
    · simp [getDataFrameLoop, he] at h
  | succ fuel ih =>
    intro s out st bc r h h0
    by_cases he : s.isEmpty = true
    · simp only [getDataFrameLoop, he, if_true, Option.some.injEq] at h
      subst h
      have : s.bufferHead = s.bufferTail := by simpa [RPiIF.isEmpty] using he
      exact ⟨this.symm, rfl, rfl, rfl⟩
    · have he2 : s.isEmpty = false := by simpa using he
      simp only [getDataFrameLoop, he2, Bool.false_eq_true, if_false] at h
      split at h
      · split at h
        · rename_i hstop
          simp only [Option.some.injEq] at h
          subst h
          simp only [Bool.and_eq_true, beq_iff_eq] at hstop
          simp only [kFrameSize] at hstop
          simp only at h0
          omega
        · split at h
          · have hi := ih _ _ _ _ r h h0
            exact hi
          · have hi := ih _ _ _ _ r h h0
            exact hi
      · split at h
        · have hi := ih _ _ _ _ r h h0
          exact hi
        · have hi := ih _ _ _ _ r h h0
          exact hi

/-- The scan of stray bytes without START, then START, seven bytes and STOP:
the seven bytes come back and nothing is left unread. -/
theorem scanFrame_frame (g p out : List Nat) (hg : ∀ b ∈ g, b ≠ START_ID_BYTE)
    (hp : p.length = 7) (hout : out.length = 7) :
    scanFrame (g ++ (START_ID_BYTE :: (p ++ [STOP_ID_BYTE]))) out false 0 = (7, [], p) := by
  rw [scanFrame_skip g hg]
  have h1 : scanFrame (START_ID_BYTE :: (p ++ [STOP_ID_BYTE])) out false 0
      = scanFrame (p ++ [STOP_ID_BYTE]) out true 0 := by
    simp [scanFrame]
  rw [h1, scanFrame_payload p out _ hp hout]
  simp [scanFrame, kFrameSize]

/-! ## Claims on the framed channel -/

/-- C1: from an empty ring buffer, after `writeToRxBuffer` on bytes `g` none of
which is START, then START, then any seven payload bytes `p` (START and STOP
values allowed), then STOP, with `g.length + 9 ≤ 255`, one call of
`getDataFrame` returns 7 and leaves `outBuffer = p`. -/
theorem C1_round_trip (s : RPiIF) (g p out : List Nat) (hwf : s.WF)
    (he : s.isEmpty = true) (hg : ∀ b ∈ g, b ≠ START_ID_BYTE) (hp : p.length = 7)
    (hlen : g.length + 9 ≤ 255) (hout : out.length = kFrameSize) :
    ∃ r, (s.writeAll (g ++ (START_ID_BYTE :: (p ++ [STOP_ID_BYTE])))).getDataFrame out
        = some r ∧ r.byteCount = 7 ∧ r.outBuffer = p := by
  have hl : (g ++ (START_ID_BYTE :: (p ++ [STOP_ID_BYTE]))).length ≤ 255 := by
    simp only [List.length_append, List.length_cons, List.length_nil, hp]
    omega
  obtain ⟨hc, hwf2, -⟩ := RPiIF.writeAll_empty s _ hwf he hl
  obtain ⟨r, hr, h1, -, h3, -⟩ := RPiIF.getDataFrame_scan _ out hwf2
  rw [hc, scanFrame_frame g p out hg hp hout] at h1 h3
  exact ⟨r, hr, h1, h3⟩

/-- C1 at a concrete stream: two stray bytes, then a frame whose payload opens
with a START and a STOP value. -/
theorem C1_round_trip_witness :
    ∃ r, (RPiIF.init.writeAll ([0x7D, 5] ++ (START_ID_BYTE ::
        ([0x7E, 0x7D, 3, 4, 5, 6, 7] ++ [STOP_ID_BYTE])))).getDataFrame [0, 0, 0, 0, 0, 0, 0]
        = some r ∧ r.byteCount = 7 ∧ r.outBuffer = [0x7E, 0x7D, 3, 4, 5, 6, 7] :=
  C1_round_trip RPiIF.init [0x7D, 5] [0x7E, 0x7D, 3, 4, 5, 6, 7] [0, 0, 0, 0, 0, 0, 0]
    (by unfold RPiIF.WF; decide) (by decide) (by decide) (by decide) (by decide) (by decide)

/-- C2, as stated, fails: after the truncated frame START, 1, 2, 3 and the
well-formed frame START, 11..17, STOP the call returns, and it returns 0, not
7 with the frame 11..17. -/
theorem C2_counterexample :
    ((RPiIF.init.writeAll
        [0x7E, 1, 2, 3, 0x7E, 11, 12, 13, 14, 15, 16, 17, 0x7D]).getDataFrame
          [0, 0, 0, 0, 0, 0, 0]).map FrameResult.byteCount = some 0 ∧
    ¬ ∃ r, (RPiIF.init.writeAll
        [0x7E, 1, 2, 3, 0x7E, 11, 12, 13, 14, 15, 16, 17, 0x7D]).getDataFrame
          [0, 0, 0, 0, 0, 0, 0] = some r ∧
        r.byteCount = 7 ∧ r.outBuffer = [11, 12, 13, 14, 15, 16, 17] := by
  have h : ((RPiIF.init.writeAll
      [0x7E, 1, 2, 3, 0x7E, 11, 12, 13, 14, 15, 16, 17, 0x7D]).getDataFrame
        [0, 0, 0, 0, 0, 0, 0]).map FrameResult.byteCount = some 0 := by decide
  refine ⟨h, ?_⟩
  rintro ⟨r, hr, h7, -⟩
  rw [hr] at h
  simp only [Option.map_some', Option.some.injEq] at h
  omega

/-- Splitting the well-formed frame at the byte that meets the full payload. -/
theorem split_absorbed (t c : List Nat) (ht : t.length < 7) (hc : c.length = 7) :
    t ++ (START_ID_BYTE :: (c ++ [STOP_ID_BYTE])) =
      (t ++ (START_ID_BYTE :: c.take (6 - t.length))) ++
        (c.getD (6 - t.length) 0 :: (c.drop (7 - t.length) ++ [STOP_ID_BYTE])) := by
  rcases c with _ | ⟨c0, _ | ⟨c1, _ | ⟨c2, _ | ⟨c3, _ | ⟨c4, _ | ⟨c5, _ | ⟨c6, _ | ⟨c7, c⟩⟩⟩⟩⟩⟩⟩⟩ <;>
    simp at hc
  obtain ⟨k, hk⟩ : ∃ k, t.length = k := ⟨_, rfl⟩
  rw [hk] at ht ⊢
  interval_cases k <;> simp

/-- C2, amended: from an empty buffer, after a truncated frame START, `t`
(fewer than 7 bytes) and a well-formed frame START, `c`, STOP, the scan does
not restart on the second START: it stores `t`, START and the first bytes of
`c` as the payload.  If the byte of `c` that follows the seventh stored byte
is STOP the call returns 7 with that payload; otherwise it returns 0 and the
buffer is drained. -/
theorem C2_truncated_absorbs_next (s : RPiIF) (t c out : List Nat) (hwf : s.WF)
    (he : s.isEmpty = true) (ht : t.length < 7) (hc : c.length = 7)
    (hout : out.length = kFrameSize) :
    ∃ r, (s.writeAll (START_ID_BYTE :: (t ++ (START_ID_BYTE ::
        (c ++ [STOP_ID_BYTE]))))).getDataFrame out = some r ∧
      (if c.getD (6 - t.length) 0 = STOP_ID_BYTE then
        r.byteCount = 7 ∧ r.outBuffer = t ++ (START_ID_BYTE :: c.take (6 - t.length))
      else r.byteCount = 0 ∧ r.rpi.isEmpty = true) := by
  have hl : (START_ID_BYTE :: (t ++ (START_ID_BYTE ::
      (c ++ [STOP_ID_BYTE])))).length ≤ 255 := by
    simp only [List.length_append, List.length_cons, List.length_nil, hc]
    omega
  obtain ⟨hcont, hwf2, -⟩ := RPiIF.writeAll_empty s _ hwf he hl
  obtain ⟨r, hr, h1, h2, h3, hwf3, -⟩ := RPiIF.getDataFrame_scan _ out hwf2
  refine ⟨r, hr, ?_⟩
  rw [hcont] at h1 h2 h3
  have hq : (t ++ (START_ID_BYTE :: c.take (6 - t.length))).length = 7 := by
    simp only [List.length_append, List.length_cons, List.length_take, hc]
    omega
  have hstart : ∀ l : List Nat, scanFrame (START_ID_BYTE :: l) out false 0
      = scanFrame l out true 0 := by
    intro l
    simp [scanFrame]
  rw [hstart, split_absorbed t c ht hc, scanFrame_payload _ out _ hq hout] at h1 h2 h3
  by_cases hx : c.getD (6 - t.length) 0 = STOP_ID_BYTE
  · rw [if_pos hx]
    simp only [scanFrame, hx, kFrameSize, beq_self_eq_true, Bool.and_self, if_true] at h1 h3
    exact ⟨h1, h3⟩
  · rw [if_neg hx]
    have hx2 : (c.getD (6 - t.length) 0 == STOP_ID_BYTE) = false := by simpa using hx
    simp only [scanFrame, hx2, kFrameSize, Bool.false_and, Bool.false_eq_true, if_false,
      if_true, lt_irrefl] at h1 h2
    have hshort := scanFrame_short (c.drop (7 - t.length) ++ [STOP_ID_BYTE])
      (t ++ (START_ID_BYTE :: c.take (6 - t.length))) false 0
      (fun _ => by
        simp only [List.length_append, List.length_drop, List.length_cons, List.length_nil, hc]
        omega)
      (by simp)
    rw [hshort.1] at h1
    rw [hshort.2] at h2
    refine ⟨h1, (RPiIF.isEmpty_iff_used _ hwf3).2 ?_⟩
    rw [← RPiIF.contents_length, h2]
    rfl

/-- C2 amended, at the stream of the counterexample: the call returns 0 and
the well-formed frame is gone. -/
theorem C2_truncated_absorbs_next_witness :
    ∃ r, (RPiIF.init.writeAll (START_ID_BYTE :: ([1, 2, 3] ++ (START_ID_BYTE ::
        ([11, 12, 13, 14, 15, 16, 17] ++ [STOP_ID_BYTE]))))).getDataFrame
          [0, 0, 0, 0, 0, 0, 0] = some r ∧
      (if [11, 12, 13, 14, 15, 16, 17].getD (6 - [1, 2, 3].length) 0 = STOP_ID_BYTE then
        r.byteCount = 7 ∧
          r.outBuffer = [1, 2, 3] ++ (START_ID_BYTE ::
            [11, 12, 13, 14, 15, 16, 17].take (6 - [1, 2, 3].length))
      else r.byteCount = 0 ∧ r.rpi.isEmpty = true) :=
  C2_truncated_absorbs_next RPiIF.init [1, 2, 3] [11, 12, 13, 14, 15, 16, 17]
    [0, 0, 0, 0, 0, 0, 0] (by unfold RPiIF.WF; decide) (by decide) (by decide) (by decide)
    (by decide)

/-- C3: what the code does on the buffered stream START, `b`, START, `c`, STOP
with seven bytes in `b` and in `c`: the START that overflows the first frame
is consumed by the discard, the eight bytes left cannot hold a frame, and the
call returns 0 with the buffer drained. -/
theorem C3_oversized_swallows_start (s : RPiIF) (b c out : List Nat) (hwf : s.WF)
    (he : s.isEmpty = true) (hb : b.length = 7) (hc : c.length = 7)
    (hout : out.length = kFrameSize) :
    ∃ r, (s.writeAll (START_ID_BYTE :: (b ++ (START_ID_BYTE ::
        (c ++ [STOP_ID_BYTE]))))).getDataFrame out = some r ∧
      r.byteCount = 0 ∧ r.rpi.isEmpty = true := by
  have hl : (START_ID_BYTE :: (b ++ (START_ID_BYTE ::
      (c ++ [STOP_ID_BYTE])))).length ≤ 255 := by
    simp only [List.length_append, List.length_cons, List.length_nil, hc, hb]
    omega
  obtain ⟨hcont, hwf2, -⟩ := RPiIF.writeAll_empty s _ hwf he hl
  obtain ⟨r, hr, h1, h2, -, hwf3, -⟩ := RPiIF.getDataFrame_scan _ out hwf2
  refine ⟨r, hr, ?_⟩
  rw [hcont] at h1 h2
  have hstart : ∀ l : List Nat, scanFrame (START_ID_BYTE :: l) out false 0
      = scanFrame l out true 0 := by
    intro l
    simp [scanFrame]
  have hdiscard : ∀ l : List Nat, scanFrame (START_ID_BYTE :: l) b true 7
      = scanFrame l b false 0 := by
    intro l
    simp [scanFrame, kFrameSize, START_ID_BYTE, STOP_ID_BYTE]
  rw [hstart, scanFrame_payload b out _ hb hout, hdiscard] at h1 h2
  have hshort := scanFrame_short (c ++ [STOP_ID_BYTE]) b false 0
    (fun _ => by
      simp only [List.length_append, List.length_cons, List.length_nil, hc]
      omega)
    (by simp)
  rw [hshort.1] at h1
  rw [hshort.2] at h2
  refine ⟨h1, (RPiIF.isEmpty_iff_used _ hwf3).2 ?_⟩
  rw [← RPiIF.contents_length, h2]
  rfl

/-- C3 at the failing input START, 1..7, START, 11..17, STOP. -/
theorem C3_oversized_swallows_start_witness :
    ∃ r, (RPiIF.init.writeAll (START_ID_BYTE :: ([1, 2, 3, 4, 5, 6, 7] ++ (START_ID_BYTE ::
        ([11, 12, 13, 14, 15, 16, 17] ++ [STOP_ID_BYTE]))))).getDataFrame
          [0, 0, 0, 0, 0, 0, 0] = some r ∧
      r.byteCount = 0 ∧ r.rpi.isEmpty = true :=
  C3_oversized_swallows_start RPiIF.init [1, 2, 3, 4, 5, 6, 7] [11, 12, 13, 14, 15, 16, 17]
    [0, 0, 0, 0, 0, 0, 0] (by unfold RPiIF.WF; decide) (by decide) (by decide) (by decide)
    (by decide)

/-- C4: from an empty ring buffer, after `writeToRxBuffer` on `bs` with no
extraction in between, the bytes stored between tail and head are the first
`min bs.length 255` bytes of `bs` in receipt order (the tail has not moved);
and a write made while `(head + 1) mod 256 == tail` changes nothing: buffer
contents, head, tail and frame counter are as before. -/
theorem C4_overflow_drops_newest (s : RPiIF) (bs : List Nat) (hwf : s.WF)
    (he : s.isEmpty = true) :
    (s.writeAll bs).contents = bs.take (min bs.length 255) ∧
      (s.writeAll bs).bufferTail = s.bufferTail ∧
      ∀ (f : RPiIF) (b : Nat), (f.bufferHead + 1) % 256 = f.bufferTail →
        f.writeToRxBuffer b = f := by
  have h0 : s.used = 0 := (RPiIF.isEmpty_iff_used s hwf).1 he
  have hc : s.contents = [] := by simp [RPiIF.contents, h0]
  obtain ⟨a, -, c, -⟩ := RPiIF.writeAll_spec bs s hwf
  rw [h0, Nat.sub_zero, hc, List.nil_append] at a
  refine ⟨?_, c, ?_⟩
  · rw [a]
    rcases Nat.le_total bs.length 255 with h | h
    · rw [Nat.min_eq_left h, List.take_of_length_le h, List.take_of_length_le (le_refl _)]
    · rw [Nat.min_eq_right h]
  · intro f b hf
    apply RPiIF.writeToRxBuffer_full
    simpa [RPiIF.isFull, kBufferSize] using hf

/-- C4 on 300 received bytes, and on a write into a full buffer whose head
stands at 4 and whose tail stands at 5. -/
theorem C4_overflow_drops_newest_witness :
    (RPiIF.init.writeAll ((List.range 300).map (fun i => i % 256))).contents =
        ((List.range 300).map (fun i => i % 256)).take
          (min ((List.range 300).map (fun i => i % 256)).length 255) ∧
      ({ RPiIF.init with bufferHead := 4, bufferTail := 5 } : RPiIF).writeToRxBuffer 9 =
        { RPiIF.init with bufferHead := 4, bufferTail := 5 } :=
  ⟨(C4_overflow_drops_newest RPiIF.init ((List.range 300).map (fun i => i % 256))
      (by unfold RPiIF.WF; decide) (by decide)).1,
    (C4_overflow_drops_newest RPiIF.init [] (by unfold RPiIF.WF; decide) (by decide)).2.2
      { RPiIF.init with bufferHead := 4, bufferTail := 5 } 9 (by decide)⟩

/-- C5: `getDataFrame` returns on every buffer state with indices in range,
and whenever it returns 0 the ring buffer is empty afterwards (tail == head),
the frame counter, the head and the stored bytes are as before the call; the
tail stands at the head, so the bytes consumed of an incomplete frame are not
put back. -/
theorem C5_exhaustion (s : RPiIF) (out : List Nat) :
    (s.WF → ∃ r, s.getDataFrame out = some r) ∧
      ∀ r, s.getDataFrame out = some r → r.byteCount = 0 →
        r.rpi.bufferTail = r.rpi.bufferHead ∧ r.rpi.isEmpty = true ∧
          r.rpi.framesInBuffer = s.framesInBuffer ∧ r.rpi.bufferHead = s.bufferHead ∧
          r.rpi.rxBuffer = s.rxBuffer ∧ r.rpi.bufferTail = s.bufferHead := by
  refine ⟨fun hwf => ?_, fun r hr h0 => ?_⟩
  · obtain ⟨r, hr, -⟩ := RPiIF.getDataFrame_scan s out hwf
    exact ⟨r, hr⟩
  · obtain ⟨a, b, c, d⟩ := getDataFrameLoop_zero kBufferSize s out false 0 r hr h0
    refine ⟨by rw [a, c], ?_, b, c, d, a⟩
    simp [RPiIF.isEmpty, a, c]

/-- C5 on a buffer that holds START and three payload bytes only. -/
theorem C5_exhaustion_witness :
    ∃ r, (RPiIF.init.writeAll [0x7E, 1, 2, 3]).getDataFrame [0, 0, 0, 0, 0, 0, 0] = some r ∧
      r.byteCount = 0 ∧ r.rpi.bufferTail = r.rpi.bufferHead ∧ r.rpi.framesInBuffer = 0 ∧
      r.rpi.bufferHead = 4 ∧ r.rpi.bufferTail = 4 := by
  have hwf : (RPiIF.init.writeAll [0x7E, 1, 2, 3]).WF := by
    unfold RPiIF.WF
    decide
  obtain ⟨r, hr⟩ := (C5_exhaustion (RPiIF.init.writeAll [0x7E, 1, 2, 3])
    [0, 0, 0, 0, 0, 0, 0]).1 hwf
  have h : ((RPiIF.init.writeAll [0x7E, 1, 2, 3]).getDataFrame
      [0, 0, 0, 0, 0, 0, 0]).map FrameResult.byteCount = some 0 := by decide
  rw [hr] at h
  have h0 : r.byteCount = 0 := by simpa using h
  obtain ⟨a, -, c, d, -, f⟩ := (C5_exhaustion (RPiIF.init.writeAll [0x7E, 1, 2, 3])
    [0, 0, 0, 0, 0, 0, 0]).2 r hr h0
  exact ⟨r, hr, h0, a, c, d, f⟩

/-- C6: from an empty buffer with frame counter 0, writing START, `p`, STOP
with seven payload bytes of which `m` equal STOP makes `frameCount()` equal
`m + 1`; the `getDataFrame` call then returns this frame (7, `outBuffer = p`)
and leaves `frameCount()` equal to `m`. -/
theorem C6_frame_counter (s : RPiIF) (p out : List Nat) (hwf : s.WF)
    (he : s.isEmpty = true) (h0 : s.framesInBuffer = 0) (hp : p.length = 7)
    (hout : out.length = kFrameSize) :
    (s.writeAll (START_ID_BYTE :: (p ++ [STOP_ID_BYTE]))).frameCount
        = p.count STOP_ID_BYTE + 1 ∧
      ∃ r, (s.writeAll (START_ID_BYTE :: (p ++ [STOP_ID_BYTE]))).getDataFrame out = some r ∧
        r.byteCount = 7 ∧ r.outBuffer = p ∧ r.rpi.frameCount = p.count STOP_ID_BYTE := by
  have hl : (START_ID_BYTE :: (p ++ [STOP_ID_BYTE])).length ≤ 255 := by
    simp only [List.length_append, List.length_cons, List.length_nil, hp]
    omega
  have hm : p.count STOP_ID_BYTE ≤ 7 := hp ▸ List.count_le_length _ _
  obtain ⟨hc, hwf2, hfr⟩ := RPiIF.writeAll_empty s _ hwf he hl
  have hcount : (START_ID_BYTE :: (p ++ [STOP_ID_BYTE])).count STOP_ID_BYTE
      = p.count STOP_ID_BYTE + 1 := by
    simp [List.count_cons, START_ID_BYTE, STOP_ID_BYTE]
  rw [h0, hcount, Nat.zero_add, Nat.mod_eq_of_lt (by omega)] at hfr
  refine ⟨hfr, ?_⟩
  obtain ⟨r, hr, h7, -, hp2, -, -, -, hfr2⟩ := RPiIF.getDataFrame_scan _ out hwf2
  have hscan := scanFrame_frame [] p out (by simp) hp hout
  rw [List.nil_append] at hscan
  rw [hc, hscan] at h7 hp2
  refine ⟨r, hr, h7, hp2, ?_⟩
  unfold RPiIF.frameCount
  rw [hfr2, hfr, if_neg (by omega)]
  omega

/-- C6 on a payload with three STOP-valued bytes: the counter reads 4, then 3. -/
theorem C6_frame_counter_witness :
    (RPiIF.init.writeAll (START_ID_BYTE ::
        ([0x7D, 1, 0x7D, 2, 3, 0x7D, 4] ++ [STOP_ID_BYTE]))).frameCount
        = [0x7D, 1, 0x7D, 2, 3, 0x7D, 4].count STOP_ID_BYTE + 1 ∧
      ∃ r, (RPiIF.init.writeAll (START_ID_BYTE ::
          ([0x7D, 1, 0x7D, 2, 3, 0x7D, 4] ++ [STOP_ID_BYTE]))).getDataFrame
            [0, 0, 0, 0, 0, 0, 0] = some r ∧
        r.byteCount = 7 ∧ r.outBuffer = [0x7D, 1, 0x7D, 2, 3, 0x7D, 4] ∧
        r.rpi.frameCount = [0x7D, 1, 0x7D, 2, 3, 0x7D, 4].count STOP_ID_BYTE :=
  C6_frame_counter RPiIF.init [0x7D, 1, 0x7D, 2, 3, 0x7D, 4] [0, 0, 0, 0, 0, 0, 0]
    (by unfold RPiIF.WF; decide) (by decide) (by decide) (by decide) (by decide)

/-! ## Lemmas on the orchestrator -/

/-- Frames that set `isNewDataAvailable` are the only ones that write the
snapshot: a loop that ends with the flag down has left it alone. -/
theorem processFrames_not_decoded (n : Nat) :
    ∀ d d2 : DecodeState, processFrames n d = some d2 → d2.isNewDataAvailable = false →
      d2.sys = d.sys ∧ d.isNewDataAvailable = false := by
  induction n with
  | zero =>
    intro d d2 h hn
    simp only [processFrames, Option.some.injEq] at h
    subst h
    exact ⟨rfl, hn⟩
  | succ n ih =>
    intro d d2 h hn
    simp only [processFrames] at h
    cases hg : d.rpi.getDataFrame d.frameBuffer with
    | none => simp [hg] at h
    | some r =>
      simp only [hg, Option.pure_def, Option.bind_eq_bind, Option.some_bind] at h
      split at h
      · cases hp : r.outBuffer[(findMarkers r.outBuffer (r.byteCount % 256)
            (d.systemPowerIndex, d.setPointIndex)).1]? with
        | none => simp [hp] at h
        | some power =>
          simp only [hp, Option.some_bind] at h
          cases hf : readFloat r.outBuffer (findMarkers r.outBuffer (r.byteCount % 256)
              (d.systemPowerIndex, d.setPointIndex)).2 with
          | none => simp [hf] at h
          | some sp =>
            simp only [hf, Option.some_bind] at h
            have hi := ih _ _ h hn
            simp at hi
      · have hi := ih _ _ h hn
        exact hi

/-- The stale counter and the power flag after one call of `updateSystemData`. -/
theorem DataManager.updateSystemData_counter (dm : DataManager) (switch7 : Bool)
    (temp : RawFloat) (r : CycleResult) (h : dm.updateSystemData switch7 temp = some r) :
    (r.decoded = true → r.dm.noDataCounter = 0) ∧
    (r.decoded = false →
      r.dm.noDataCounter = (if dm.noDataCounter < 255 then dm.noDataCounter + 1 else 20) ∧
      r.dm.systemData.systemPower =
        (if r.dm.noDataCounter ≥ 20 then false else dm.systemData.systemPower)) := by
  unfold DataManager.updateSystemData at h
  simp only [Option.map_eq_some'] at h
  obtain ⟨d, hd, hr⟩ := h
  subst hr
  refine ⟨fun hdec => ?_, fun hdec => ?_⟩
  · simp only at hdec
    simp [hdec]
  · simp only at hdec
    have hsys : d.sys.systemPower = dm.systemData.systemPower := by
      split at hd
      · have := (processFrames_not_decoded _ _ _ hd hdec).1
        rw [this]
        rfl
      · simp only [Option.some.injEq] at hd
        subst hd
        rfl
    simp only [hdec, Bool.false_eq_true, if_false, true_and]
    by_cases hu : dm.rangeInterface.sendTriggerPulse.2.hasUnreadDistance = true <;>
      split <;> split <;>
      simp [SystemData.setSystemPower, SystemData.setCurrentRange, SystemData.setLastRange,
        hsys, hu]

theorem runCycles_cons (i : CycleInput) (rest : List CycleInput) (dm dm2 : DataManager)
    (fl : List Bool) (h : runCycles (i :: rest) dm = some (dm2, fl)) :
    ∃ r fl2, runCycle dm i = some r ∧ runCycles rest r.dm = some (dm2, fl2) ∧
      fl = r.decoded :: fl2 := by
  simp only [runCycles, Option.pure_def, Option.bind_eq_bind, Option.bind_eq_some,
    Option.some.injEq, Prod.mk.injEq] at h
  obtain ⟨r, hr, t, ht, h1, h2⟩ := h
  exact ⟨r, t.2, hr, by rw [ht, ← h1], h2.symm⟩

/-- One cycle without a decoded frame: the counter steps, saturating back to
20 at 255, and the power flag goes down once the counter is at 20 or more. -/
theorem runCycle_not_decoded (dm : DataManager) (i : CycleInput) (r : CycleResult)
    (h : runCycle dm i = some r) (hd : r.decoded = false) :
    r.dm.noDataCounter = (if dm.noDataCounter < 255 then dm.noDataCounter + 1 else 20) ∧
    r.dm.systemData.systemPower =
      (if r.dm.noDataCounter ≥ 20 then false else dm.systemData.systemPower) :=
  (DataManager.updateSystemData_counter _ _ _ r h).2 hd

/-- A run of cycles without a decoded frame, from a counter `c ≤ 255`: below
20 the counter counts the cycles and the power flag stays; from 20 on the
counter stays within 20..255 and the flag is down. -/
theorem runCycles_not_decoded (ins : List CycleInput) :
    ∀ (dm dm2 : DataManager) (fl : List Bool), runCycles ins dm = some (dm2, fl) →
      (∀ f ∈ fl, f = false) → dm.noDataCounter ≤ 255 →
      (dm.noDataCounter + ins.length ≤ 19 →
        dm2.noDataCounter = dm.noDataCounter + ins.length ∧
        dm2.systemData.systemPower = dm.systemData.systemPower) ∧
      (20 ≤ dm.noDataCounter + ins.length → ins ≠ [] →
        20 ≤ dm2.noDataCounter ∧ dm2.noDataCounter ≤ 255 ∧
        dm2.systemData.systemPower = false) := by
  induction ins with
  | nil =>
    intro dm dm2 fl h _ _
    simp only [runCycles, Option.some.injEq, Prod.mk.injEq] at h
    obtain ⟨h1, -⟩ := h
    subst h1
    exact ⟨fun _ => ⟨rfl, rfl⟩, fun _ hne => absurd rfl hne⟩
  | cons i rest ih =>
    intro dm dm2 fl h hfl hc
    obtain ⟨r, fl2, hr, hrest, hfleq⟩ := runCycles_cons i rest dm dm2 fl h
    subst hfleq
    have hd : r.decoded = false := hfl _ (List.mem_cons_self _ _)
    have hfl2 : ∀ f ∈ fl2, f = false := fun f hf => hfl f (List.mem_cons_of_mem _ hf)
    obtain ⟨hcnt, hpow⟩ := runCycle_not_decoded dm i r hr hd
    have hc1 : r.dm.noDataCounter ≤ 255 := by
      rw [hcnt]
      split <;> omega
    obtain ⟨ih1, ih2⟩ := ih r.dm dm2 fl2 hrest hfl2 hc1
    simp only [List.length_cons]
    refine ⟨fun hle => ?_, fun hge _ => ?_⟩
    · have hlt : dm.noDataCounter < 255 := by omega
      rw [if_pos hlt] at hcnt
      obtain ⟨a, b⟩ := ih1 (by omega)
      refine ⟨by omega, ?_⟩
      rw [b, hpow, if_neg (by omega)]
    · by_cases hnil : rest = []
      · subst hnil
        simp only [runCycles, Option.some.injEq, Prod.mk.injEq] at hrest
        obtain ⟨h1, -⟩ := hrest
        subst h1
        simp only [List.length_nil] at hge
        have h20 : 20 ≤ r.dm.noDataCounter := by
          rw [hcnt]
          split <;> omega
        exact ⟨h20, hc1, by rw [hpow, if_pos h20]⟩
      · refine ih2 ?_ hnil
        rw [hcnt]
        split <;> omega

/-- The first `k` cycles of a run that returns form a run that returns. -/
theorem runCycles_take (ins : List CycleInput) :
    ∀ (k : Nat) (dm dm2 : DataManager) (fl : List Bool),
      runCycles ins dm = some (dm2, fl) →
      ∃ dmk, runCycles (ins.take k) dm = some (dmk, fl.take k) := by
  induction ins with
  | nil =>
    intro k dm dm2 fl h
    simp only [runCycles, Option.some.injEq, Prod.mk.injEq] at h
    obtain ⟨-, h2⟩ := h
    subst h2
    exact ⟨dm, by simp [runCycles]⟩
  | cons i rest ih =>
    intro k dm dm2 fl h
    obtain ⟨r, fl2, hr, hrest, hfleq⟩ := runCycles_cons i rest dm dm2 fl h
    subst hfleq
    cases k with
    | zero => exact ⟨dm, by simp [runCycles]⟩
    | succ k =>
      obtain ⟨dmk, hk⟩ := ih k r.dm dm2 fl2 hrest
      exact ⟨dmk, by simp [runCycles, hr, hk]⟩

/-- A run whose decoded flags are known returns a final state. -/
theorem runCycles_of_flags (ins : List CycleInput) (dm : DataManager) (fl : List Bool)
    (h : (runCycles ins dm).map Prod.snd = some fl) :
    ∃ dm2, runCycles ins dm = some (dm2, fl) := by
  cases hr : runCycles ins dm with
  | none => simp [hr] at h
  | some t =>
    rw [hr] at h
    simp only [Option.map_some', Option.some.injEq] at h
    exact ⟨t.1, by rw [← h]⟩

/-! ## Claims on the stale-host fail-safe -/

/-- C7: starting with `noDataCounter = 0`, a run of at most 19 consecutive
`updateSystemData` cycles in which no frame is decoded returns with the
system-power flag as it was; a run of 20 such cycles returns with the flag
false; and any cycle in which a 7-byte frame is decoded leaves the counter
at 0. -/
theorem C7_stale_threshold (dm : DataManager) (ins : List CycleInput)
    (h0 : dm.noDataCounter = 0)
    (hrun : (runCycles ins dm).map Prod.snd = some (List.replicate ins.length false)) :
    (∃ dm2, runCycles ins dm = some (dm2, List.replicate ins.length false) ∧
      (ins.length ≤ 19 → dm2.noDataCounter = ins.length ∧
        dm2.systemData.systemPower = dm.systemData.systemPower) ∧
      (ins.length = 20 → dm2.systemData.systemPower = false)) ∧
    ∀ (d : DataManager) (i : CycleInput) (r : CycleResult),
      runCycle d i = some r → r.decoded = true → r.dm.noDataCounter = 0 := by
  refine ⟨?_, fun d i r hr hd => (DataManager.updateSystemData_counter _ _ _ r hr).1 hd⟩
  obtain ⟨dm2, h2⟩ := runCycles_of_flags ins dm _ hrun
  have hfl : ∀ f ∈ List.replicate ins.length false, f = false :=
    fun f hf => (List.mem_replicate.1 hf).2
  obtain ⟨a, b⟩ := runCycles_not_decoded ins dm dm2 _ h2 hfl (by omega)
  refine ⟨dm2, h2, fun hle => ?_, fun heq => ?_⟩
  · have := a (by omega)
    rw [h0, Nat.zero_add] at this
    exact this
  · have hne : ins ≠ [] := by
      intro hnil
      rw [hnil] at heq
      simp at heq
    exact (b (by omega) hne).2.2

/-- C7 on the running system: 19 idle cycles leave the power flag up with the
counter at 19, the 20th takes it down, and a cycle that decodes a host frame
at counter 7 leaves the counter at 0. -/
theorem C7_stale_threshold_witness :
    (∃ dm2, runCycles (List.replicate 19 CycleInput.idle) DataManager.running
        = some (dm2, List.replicate 19 false) ∧
      dm2.noDataCounter = 19 ∧ dm2.systemData.systemPower = true) ∧
    (∃ dm2, runCycles (List.replicate 20 CycleInput.idle) DataManager.running
        = some (dm2, List.replicate 20 false) ∧
      dm2.systemData.systemPower = false) ∧
    (∃ r, runCycle { DataManager.running with noDataCounter := 7 } CycleInput.hostFrame
        = some r ∧ r.decoded = true ∧ r.dm.noDataCounter = 0) := by
  refine ⟨?_, ?_, ?_⟩
  · obtain ⟨dm2, h, h19, -⟩ := (C7_stale_threshold DataManager.running
      (List.replicate 19 CycleInput.idle) rfl (by decide)).1
    exact ⟨dm2, h, h19 (by decide)⟩
  · obtain ⟨dm2, h, -, h20⟩ := (C7_stale_threshold DataManager.running
      (List.replicate 20 CycleInput.idle) rfl (by decide)).1
    exact ⟨dm2, h, h20 (by decide)⟩
  · have hd : (runCycle { DataManager.running with noDataCounter := 7 }
        CycleInput.hostFrame).map CycleResult.decoded = some true := by decide
    cases hr : runCycle { DataManager.running with noDataCounter := 7 }
        CycleInput.hostFrame with
    | none => simp [hr] at hd
    | some r =>
      rw [hr] at hd
      have hdec : r.decoded = true := by simpa using hd
      exact ⟨r, rfl, hdec, (C7_stale_threshold DataManager.running [] rfl (by decide)).2
        _ _ r hr hdec⟩

/-- C8: starting with `noDataCounter = 0`, in a run of consecutive cycles
without a decoded frame, after each cycle from the 20th on the counter is at
least 20 (and at most 255: at 255 it goes back to 20, not to 0) and the
system-power flag is false. -/
theorem C8_stale_counter_stays (dm : DataManager) (ins : List CycleInput)
    (h0 : dm.noDataCounter = 0)
    (hrun : (runCycles ins dm).map Prod.snd = some (List.replicate ins.length false)) :
    ∀ k, 20 ≤ k → k ≤ ins.length →
      ∃ dmk, runCycles (ins.take k) dm = some (dmk, List.replicate k false) ∧
        20 ≤ dmk.noDataCounter ∧ dmk.noDataCounter ≤ 255 ∧
        dmk.systemData.systemPower = false := by
  intro k hk hkl
  obtain ⟨dm2, h2⟩ := runCycles_of_flags ins dm _ hrun
  obtain ⟨dmk, hdmk⟩ := runCycles_take ins k dm dm2 _ h2
  rw [List.take_replicate, Nat.min_eq_left hkl] at hdmk
  have hfl : ∀ f ∈ List.replicate k false, f = false :=
    fun f hf => (List.mem_replicate.1 hf).2
  have hlen : (ins.take k).length = k := by
    rw [List.length_take, Nat.min_eq_left hkl]
  have hne : ins.take k ≠ [] := by
    intro hnil
    rw [hnil] at hlen
    simp at hlen
    omega
  obtain ⟨-, b⟩ := runCycles_not_decoded (ins.take k) dm dmk _ hdmk hfl (by omega)
  exact ⟨dmk, hdmk, b (by omega) hne⟩

set_option maxRecDepth 100000 in
/-- C8 on 300 idle cycles of the running system, read after cycle 256, where
an 8-bit counter that wrapped would stand at 0. -/
theorem C8_stale_counter_stays_witness :
    ∃ dmk, runCycles ((List.replicate 300 CycleInput.idle).take 256) DataManager.running
        = some (dmk, List.replicate 256 false) ∧
      20 ≤ dmk.noDataCounter ∧ dmk.noDataCounter ≤ 255 ∧
      dmk.systemData.systemPower = false :=
  C8_stale_counter_stays DataManager.running (List.replicate 300 CycleInput.idle) rfl
    (by decide) 256 (by decide) (by decide)

/-! ## Claims on the refill control -/

/-- The two trend tests exclude each other: a difference above the threshold
is not below it in absolute value. -/
theorem not_decreasing_and_stable (cur last : Nat)
    (hd : isDistanceDecreasing cur last = true) : isDistanceStable cur last = false := by
  unfold isDistanceDecreasing at hd
  unfold isDistanceStable
  simp only [stabilityThreshold, decide_eq_true_eq, decide_eq_false_iff_not] at hd ⊢
  omega

/-- Where the two distances are less than 32768 apart the 16-bit difference
is the integer difference, and the rising test is `cur - last > 2`. -/
theorem isDistanceDecreasing_iff (cur last : Nat) (hc : cur < 65536) (hl : last < 65536)
    (h1 : (cur : Int) - last < 32768) (h2 : (last : Int) - cur ≤ 32768) :
    isDistanceDecreasing cur last = true ↔ (cur : Int) - last > 2 := by
  unfold isDistanceDecreasing toInt16 sub16
  simp only [stabilityThreshold, decide_eq_true_eq]
  split <;> omega

/-- Where the two distances are less than 32768 apart the stable test is
`|cur - last| < 2`. -/
theorem isDistanceStable_iff (cur last : Nat) (hc : cur < 65536) (hl : last < 65536)
    (h1 : (cur : Int) - last < 32768) (h2 : (last : Int) - cur ≤ 32768) :
    isDistanceStable cur last = true ↔ ((cur : Int) - last).natAbs < 2 := by
  unfold isDistanceStable toInt16 sub16
  simp only [stabilityThreshold, decide_eq_true_eq]
  split <;> omega

/-- One `checkDistance` step in state `TimerRunning`, in terms of the two
trend tests of the code. -/
theorem checkDistance_timer_step (b : BrugVarmtVand) (sysData : SystemData)
    (hs : b.currentState = State.TimerRunning) :
    (b.overflowCount ≥ debounceThreshold →
      isDistanceStable sysData.range sysData.lastRange = true →
      (b.checkDistance sysData).currentState = State.ForceRefill) ∧
    (isDistanceDecreasing sysData.range sysData.lastRange = true →
      (b.checkDistance sysData).currentState = State.CheckDistance) ∧
    (¬ (b.overflowCount ≥ debounceThreshold ∧
        isDistanceStable sysData.range sysData.lastRange = true) →
      isDistanceDecreasing sysData.range sysData.lastRange = false →
      (b.checkDistance sysData).currentState = State.TimerRunning) ∧
    b.checkDistance sysData =
      { b with currentState := (b.checkDistance sysData).currentState } ∧
    (b.checkDistance sysData).pumpOn = b.pumpOn ∧
    (b.checkDistance sysData).overflowCount = b.overflowCount ∧
    debounceThreshold = 3 := by
  simp only [BrugVarmtVand.checkDistance, hs]
  refine ⟨?_, ?_, ?_, ?_, ?_, ?_, rfl⟩
  · intro h1 h2
    have h3 : isDistanceDecreasing sysData.range sysData.lastRange = false := by
      cases hd : isDistanceDecreasing sysData.range sysData.lastRange with
      | false => rfl
      | true => rw [not_decreasing_and_stable _ _ hd] at h2; exact absurd h2 (by decide)
    simp [h1, h2, h3]
  · intro h1
    simp [h1]
  · intro h1 h2
    rw [not_and] at h1
    by_cases h3 : b.overflowCount ≥ debounceThreshold
    · have h4 : isDistanceStable sysData.range sysData.lastRange = false := by
        simpa using h1 h3
      simp [h2, h4, hs]
    · simp [h2, h3, hs]
  · split_ifs <;> rfl
  · split_ifs <;> rfl
  · split_ifs <;> rfl

/-- Claim C10 as stated fails for `cur = 40`, `last = 65535`: the distance is
not rising (`cur - last = -65495`) and not stable, so the claim has the step
stay in `TimerRunning`; the 16-bit difference is 41, the rising test of the
code holds and the step goes back to `CheckDistance`. -/
theorem C10_counterexample :
    (BrugVarmtVand.inState State.TimerRunning 0 false).currentState = State.TimerRunning ∧
    ¬ ((SystemData.atLevel 40 65535).range : Int)
        - ((SystemData.atLevel 40 65535).lastRange : Int) > 2 ∧
    ¬ (((SystemData.atLevel 40 65535).range : Int)
        - ((SystemData.atLevel 40 65535).lastRange : Int)).natAbs < 2 ∧
    ((BrugVarmtVand.inState State.TimerRunning 0 false).checkDistance
      (SystemData.atLevel 40 65535)).currentState = State.CheckDistance := by
  decide

/-- Claim C10, amended: for 16-bit `cur` and `last` less than 32768 apart,
with `cur - last` their difference as integers, and every debounce overflow
count `n`, one `checkDistance` step in state `TimerRunning` goes to
`ForceRefill` if `n` has reached the threshold (3) and `|cur - last| < 2`
(stable), goes to `CheckDistance` if `cur - last > 2` (rising), and otherwise
stays in `TimerRunning`.  For every `cur` and `last` it changes nothing but
the state: the pump, the overflow count and the timer are as before. -/
theorem C10_timer_running_step (b : BrugVarmtVand) (sysData : SystemData)
    (hs : b.currentState = State.TimerRunning) :
    (sysData.range < 65536 → sysData.lastRange < 65536 →
      ((sysData.range : Int) - (sysData.lastRange : Int)).natAbs < 32768 →
      (b.overflowCount ≥ debounceThreshold →
        ((sysData.range : Int) - (sysData.lastRange : Int)).natAbs < 2 →
        (b.checkDistance sysData).currentState = State.ForceRefill) ∧
      ((sysData.range : Int) - (sysData.lastRange : Int) > 2 →
        (b.checkDistance sysData).currentState = State.CheckDistance) ∧
      (¬ (b.overflowCount ≥ debounceThreshold ∧
          ((sysData.range : Int) - (sysData.lastRange : Int)).natAbs < 2) →
        ¬ (sysData.range : Int) - (sysData.lastRange : Int) > 2 →
        (b.checkDistance sysData).currentState = State.TimerRunning)) ∧
    b.checkDistance sysData =
      { b with currentState := (b.checkDistance sysData).currentState } ∧
    (b.checkDistance sysData).pumpOn = b.pumpOn ∧
    (b.checkDistance sysData).overflowCount = b.overflowCount ∧
    debounceThreshold = 3 := by
  obtain ⟨h1, h2, h3, h4, h5, h6, h7⟩ := checkDistance_timer_step b sysData hs
  refine ⟨fun hc hl hd => ?_, h4, h5, h6, h7⟩
  have hdec := isDistanceDecreasing_iff sysData.range sysData.lastRange hc hl
    (by omega) (by omega)
  have hstab := isDistanceStable_iff sysData.range sysData.lastRange hc hl
    (by omega) (by omega)
  refine ⟨fun hn hst => h1 hn (hstab.2 hst), fun hr => h2 (hdec.2 hr), fun hns hr => ?_⟩
  exact h3 (fun h => hns ⟨h.1, hstab.1 h.2⟩) (by simpa using mt hdec.1 hr)

/-- The amended claim C10 with bounds 33 and 133 and the pump on: stable at
count 3 goes to `ForceRefill`, rising at count 5 goes back to `CheckDistance`,
stable at count 2 stays in `TimerRunning`; pump and count are as before. -/
theorem C10_timer_running_step_witness :
    ((BrugVarmtVand.inState State.TimerRunning 3 true).checkDistance
        (SystemData.atLevel 80 80)).currentState = State.ForceRefill ∧
    ((BrugVarmtVand.inState State.TimerRunning 5 true).checkDistance
        (SystemData.atLevel 80 70)).currentState = State.CheckDistance ∧
    ((BrugVarmtVand.inState State.TimerRunning 2 true).checkDistance
        (SystemData.atLevel 80 80)).currentState = State.TimerRunning ∧
    ((BrugVarmtVand.inState State.TimerRunning 3 true).checkDistance
        (SystemData.atLevel 80 80)).pumpOn = true ∧
    ((BrugVarmtVand.inState State.TimerRunning 3 true).checkDistance
        (SystemData.atLevel 80 80)).overflowCount = 3 :=
  ⟨((C10_timer_running_step (BrugVarmtVand.inState State.TimerRunning 3 true)
      (SystemData.atLevel 80 80) rfl).1 (by decide) (by decide) (by decide)).1
      (by decide) (by decide),
    ((C10_timer_running_step (BrugVarmtVand.inState State.TimerRunning 5 true)
      (SystemData.atLevel 80 70) rfl).1 (by decide) (by decide) (by decide)).2.1 (by decide),
    ((C10_timer_running_step (BrugVarmtVand.inState State.TimerRunning 2 true)
      (SystemData.atLevel 80 80) rfl).1 (by decide) (by decide) (by decide)).2.2
      (by decide) (by decide),
    (C10_timer_running_step (BrugVarmtVand.inState State.TimerRunning 3 true)
      (SystemData.atLevel 80 80) rfl).2.2.1,
    (C10_timer_running_step (BrugVarmtVand.inState State.TimerRunning 3 true)
      (SystemData.atLevel 80 80) rfl).2.2.2.1⟩

/-- C11, as stated, fails: in state `ForceRefill` with bounds 33 and 133 and
the pump running, at distance 20 `levelFull` holds and the step does not start
the pump and stay: it stops the pump and goes to `CheckDistance`; at distance
140 (`withinBounds` and `levelFull` fail, `levelEmpty` holds, pump off) it
does not stop the pump and leave: it starts the pump and stays. -/
theorem C11_counterexample :
    ((SystemData.atLevel 20 20).range
        ≤ (BrugVarmtVand.inState State.ForceRefill 0 true).minDistance ∧
      ¬ (((BrugVarmtVand.inState State.ForceRefill 0 true).checkDistance
            (SystemData.atLevel 20 20)).pumpOn = true ∧
          ((BrugVarmtVand.inState State.ForceRefill 0 true).checkDistance
            (SystemData.atLevel 20 20)).currentState = State.ForceRefill) ∧
      ((BrugVarmtVand.inState State.ForceRefill 0 true).checkDistance
        (SystemData.atLevel 20 20)).pumpOn = false ∧
      ((BrugVarmtVand.inState State.ForceRefill 0 true).checkDistance
        (SystemData.atLevel 20 20)).currentState = State.CheckDistance) ∧
    ((SystemData.atLevel 140 140).range
        ≥ (BrugVarmtVand.inState State.ForceRefill 0 false).maxDistance ∧
      ¬ (((BrugVarmtVand.inState State.ForceRefill 0 false).checkDistance
            (SystemData.atLevel 140 140)).pumpOn = false ∧
          ((BrugVarmtVand.inState State.ForceRefill 0 false).checkDistance
            (SystemData.atLevel 140 140)).currentState = State.CheckDistance) ∧
      ((BrugVarmtVand.inState State.ForceRefill 0 false).checkDistance
        (SystemData.atLevel 140 140)).pumpOn = true ∧
      ((BrugVarmtVand.inState State.ForceRefill 0 false).checkDistance
        (SystemData.atLevel 140 140)).currentState = State.ForceRefill) := by
  decide

/-- C11, amended: with `levelFull = (cur <= minDist)`, `levelEmpty =
(cur >= maxDist)` and `withinBounds = (minDist < cur < maxDist)`, one
`checkDistance` step in state `ForceRefill` stops the debounce timer and
clears its count, starts the pump and stays in `ForceRefill` if `withinBounds`
or `levelEmpty` holds, and otherwise `levelFull` holds and the step stops the
pump and returns to `CheckDistance`. -/
theorem C11_force_refill_step (b : BrugVarmtVand) (sysData : SystemData)
    (hs : b.currentState = State.ForceRefill) :
    (b.checkDistance sysData).overflowCount = 0 ∧
    (b.checkDistance sysData).timerIntEnabled = false ∧
    ((b.minDistance < sysData.range ∧ sysData.range < b.maxDistance) ∨
        sysData.range ≥ b.maxDistance →
      (b.checkDistance sysData).pumpOn = true ∧
      (b.checkDistance sysData).currentState = State.ForceRefill) ∧
    (¬ ((b.minDistance < sysData.range ∧ sysData.range < b.maxDistance) ∨
        sysData.range ≥ b.maxDistance) →
      sysData.range ≤ b.minDistance ∧
      (b.checkDistance sysData).pumpOn = false ∧
      (b.checkDistance sysData).currentState = State.CheckDistance) := by
  simp only [BrugVarmtVand.checkDistance, hs, BrugVarmtVand.isLevelMax,
    BrugVarmtVand.isLevelMin, BrugVarmtVand.isWithinLimits, BrugVarmtVand.stopTimer,
    BrugVarmtVand.pumpStart, BrugVarmtVand.pumpStop, Bool.or_eq_true, Bool.and_eq_true,
    decide_eq_true_eq]
  refine ⟨?_, ?_, ?_, ?_⟩
  · split_ifs <;> rfl
  · split_ifs <;> rfl
  · intro h
    have hc : (sysData.range < b.maxDistance ∧ sysData.range > b.minDistance) ∨
        sysData.range ≥ b.maxDistance := by omega
    simp [hc, hs]
  · intro h
    have hc : ¬ ((sysData.range < b.maxDistance ∧ sysData.range > b.minDistance) ∨
        sysData.range ≥ b.maxDistance) := by omega
    have hf : sysData.range ≤ b.minDistance := by omega
    simp [hc, hf]

/-- C11 amended, with bounds 33 and 133: at distance 80 and at distance 140
the pump is started and the state stays; at distance 20 the pump is stopped
and the state is `CheckDistance`. -/
theorem C11_force_refill_step_witness :
    (((BrugVarmtVand.inState State.ForceRefill 4 false).checkDistance
        (SystemData.atLevel 80 80)).pumpOn = true ∧
      ((BrugVarmtVand.inState State.ForceRefill 4 false).checkDistance
        (SystemData.atLevel 80 80)).currentState = State.ForceRefill) ∧
    (((BrugVarmtVand.inState State.ForceRefill 4 false).checkDistance
        (SystemData.atLevel 140 140)).pumpOn = true ∧
      ((BrugVarmtVand.inState State.ForceRefill 4 false).checkDistance
        (SystemData.atLevel 140 140)).currentState = State.ForceRefill) ∧
    ((SystemData.atLevel 20 20).range ≤
        (BrugVarmtVand.inState State.ForceRefill 4 true).minDistance ∧
      ((BrugVarmtVand.inState State.ForceRefill 4 true).checkDistance
        (SystemData.atLevel 20 20)).pumpOn = false ∧
      ((BrugVarmtVand.inState State.ForceRefill 4 true).checkDistance
        (SystemData.atLevel 20 20)).currentState = State.CheckDistance) :=
  ⟨(C11_force_refill_step (BrugVarmtVand.inState State.ForceRefill 4 false)
      (SystemData.atLevel 80 80) rfl).2.2.1 (by decide),
    (C11_force_refill_step (BrugVarmtVand.inState State.ForceRefill 4 false)
      (SystemData.atLevel 140 140) rfl).2.2.1 (by decide),
    (C11_force_refill_step (BrugVarmtVand.inState State.ForceRefill 4 true)
      (SystemData.atLevel 20 20) rfl).2.2.2 (by decide)⟩

/-- C12: for `minDist < maxDist`, one `checkDistance` step in state
`ForceRefill` with `minDist < cur < maxDist` turns the pump on and stays in
`ForceRefill`; with `cur <= minDist` it stops the pump and returns to
`CheckDistance`; and for every `cur` exactly one of the two outcomes, pump on
and `ForceRefill` or pump off and `CheckDistance`, occurs. -/
theorem C12_force_refill_outcomes (b : BrugVarmtVand) (sysData : SystemData)
    (hs : b.currentState = State.ForceRefill) (hb : b.minDistance < b.maxDistance) :
    (b.minDistance < sysData.range ∧ sysData.range < b.maxDistance →
      (b.checkDistance sysData).pumpOn = true ∧
      (b.checkDistance sysData).currentState = State.ForceRefill) ∧
    (sysData.range ≤ b.minDistance →
      (b.checkDistance sysData).pumpOn = false ∧
      (b.checkDistance sysData).currentState = State.CheckDistance) ∧
    (((b.checkDistance sysData).pumpOn = true ∧
        (b.checkDistance sysData).currentState = State.ForceRefill) ∧
      ¬ ((b.checkDistance sysData).pumpOn = false ∧
        (b.checkDistance sysData).currentState = State.CheckDistance) ∨
     ¬ ((b.checkDistance sysData).pumpOn = true ∧
        (b.checkDistance sysData).currentState = State.ForceRefill) ∧
      ((b.checkDistance sysData).pumpOn = false ∧
        (b.checkDistance sysData).currentState = State.CheckDistance)) := by
  simp only [BrugVarmtVand.checkDistance, hs, BrugVarmtVand.isLevelMax,
    BrugVarmtVand.isLevelMin, BrugVarmtVand.isWithinLimits, BrugVarmtVand.stopTimer,
    BrugVarmtVand.pumpStart, BrugVarmtVand.pumpStop, Bool.or_eq_true, Bool.and_eq_true,
    decide_eq_true_eq]
  refine ⟨?_, ?_, ?_⟩
  · intro h
    have hc : (sysData.range < b.maxDistance ∧ sysData.range > b.minDistance) ∨
        sysData.range ≥ b.maxDistance := by omega
    simp [hc, hs]
  · intro h
    have hc : ¬ ((sysData.range < b.maxDistance ∧ sysData.range > b.minDistance) ∨
        sysData.range ≥ b.maxDistance) := by omega
    simp [hc, h]
  · by_cases hc : (sysData.range < b.maxDistance ∧ sysData.range > b.minDistance) ∨
        sysData.range ≥ b.maxDistance
    · simp [hc, hs]
    · have hf : sysData.range ≤ b.minDistance := by omega
      simp [hc, hf]

/-- C12 with bounds 33 and 133: at distance 80 the pump goes on and the state
stays, at distance 33 the pump goes off and the state is `CheckDistance`. -/
theorem C12_force_refill_outcomes_witness :
    (((BrugVarmtVand.inState State.ForceRefill 0 false).checkDistance
        (SystemData.atLevel 80 80)).pumpOn = true ∧
      ((BrugVarmtVand.inState State.ForceRefill 0 false).checkDistance
        (SystemData.atLevel 80 80)).currentState = State.ForceRefill) ∧
    (((BrugVarmtVand.inState State.ForceRefill 0 true).checkDistance
        (SystemData.atLevel 33 33)).pumpOn = false ∧
      ((BrugVarmtVand.inState State.ForceRefill 0 true).checkDistance
        (SystemData.atLevel 33 33)).currentState = State.CheckDistance) :=
  ⟨(C12_force_refill_outcomes (BrugVarmtVand.inState State.ForceRefill 0 false)
      (SystemData.atLevel 80 80) rfl (by decide)).1 (by decide),
    (C12_force_refill_outcomes (BrugVarmtVand.inState State.ForceRefill 0 true)
      (SystemData.atLevel 33 33) rfl (by decide)).2.1 (by decide)⟩

/-! ## Claims on the ranging subsystem: trigger gate -/

/-- C13: `sendTriggerPulse` returns the value `readingAllowed` had on entry;
if that was false the call changes no state; if it was true, afterwards the
gate is false, the tick counter is 0, the overflow interrupt is enabled and
nothing else has changed. -/
theorem C13_trigger_gate (m : RangingModuleIF) :
    m.sendTriggerPulse.1 = m.readingAllowed ∧
    (m.readingAllowed = false → m.sendTriggerPulse.2 = m) ∧
    (m.readingAllowed = true →
      m.sendTriggerPulse.2 =
        { m with readingAllowed := false, tcnt5 := 0, overflowIntEnabled := true } ∧
      m.sendTriggerPulse.2.readingAllowed = false ∧
      m.sendTriggerPulse.2.tcnt5 = 0 ∧
      m.sendTriggerPulse.2.overflowIntEnabled = true) := by
  refine ⟨?_, ?_, ?_⟩
  · unfold RangingModuleIF.sendTriggerPulse
    cases h : m.readingAllowed <;> simp
  · intro h
    unfold RangingModuleIF.sendTriggerPulse
    cases m
    simp_all
  · intro h
    unfold RangingModuleIF.sendTriggerPulse
    simp [h]

/-- C13 on a closed gate with the timer at 1234 (nothing changes) and on the
open gate of the start-up state. -/
theorem C13_trigger_gate_witness :
    ({ RangingModuleIF.init with readingAllowed := false, tcnt5 := 1234 } :
        RangingModuleIF).sendTriggerPulse.2 =
      { RangingModuleIF.init with readingAllowed := false, tcnt5 := 1234 } ∧
    RangingModuleIF.init.sendTriggerPulse.2.readingAllowed = false ∧
    RangingModuleIF.init.sendTriggerPulse.2.overflowIntEnabled = true :=
  ⟨(C13_trigger_gate _).2.1 rfl,
    ((C13_trigger_gate RangingModuleIF.init).2.2 rfl).2.1,
    ((C13_trigger_gate RangingModuleIF.init).2.2 rfl).2.2.2⟩

/-- C14: what the code does after a successful trigger with the overflow
counter at 0: the first two overflow interrupts only count (gate still
closed, interrupt still enabled, counter at 2), and it is the third that
disables the interrupt, re-opens the gate and clears the counter. -/
theorem C14_reopens_on_third_overflow (m : RangingModuleIF)
    (ha : m.readingAllowed = true) (h0 : m.overflows = 0) :
    (m.sendTriggerPulse.2.readingAllowed = false ∧
      m.sendTriggerPulse.2.overflowIntEnabled = true ∧
      m.sendTriggerPulse.2.overflows = 0) ∧
    (m.sendTriggerPulse.2.timer5Overflow.timer5Overflow.readingAllowed = false ∧
      m.sendTriggerPulse.2.timer5Overflow.timer5Overflow.overflowIntEnabled = true ∧
      m.sendTriggerPulse.2.timer5Overflow.timer5Overflow.overflows = 2) ∧
    (m.sendTriggerPulse.2.timer5Overflow.timer5Overflow.timer5Overflow.readingAllowed
        = true ∧
      m.sendTriggerPulse.2.timer5Overflow.timer5Overflow.timer5Overflow.overflowIntEnabled
        = false ∧
      m.sendTriggerPulse.2.timer5Overflow.timer5Overflow.timer5Overflow.overflows = 0) := by
  simp [RangingModuleIF.sendTriggerPulse, RangingModuleIF.timer5Overflow, ha, h0]

/-- C14 from the start-up state: after the trigger and two overflows the gate
is closed, after the third it is open. -/
theorem C14_reopens_on_third_overflow_witness :
    RangingModuleIF.init.sendTriggerPulse.2.timer5Overflow.timer5Overflow.readingAllowed
        = false ∧
    RangingModuleIF.init.sendTriggerPulse.2.timer5Overflow.timer5Overflow.overflowIntEnabled
        = true ∧
    RangingModuleIF.init.sendTriggerPulse.2.timer5Overflow.timer5Overflow.timer5Overflow.readingAllowed
        = true :=
  ⟨(C14_reopens_on_third_overflow RangingModuleIF.init rfl rfl).2.1.1,
    (C14_reopens_on_third_overflow RangingModuleIF.init rfl rfl).2.1.2.1,
    (C14_reopens_on_third_overflow RangingModuleIF.init rfl rfl).2.2.1⟩

theorem RangingModuleIF.sendTriggerPulse_fst (m : RangingModuleIF) :
    m.sendTriggerPulse.1 = m.readingAllowed := by
  unfold RangingModuleIF.sendTriggerPulse
  cases h : m.readingAllowed <;> simp

theorem RangingModuleIF.sendTriggerPulse_open (m : RangingModuleIF)
    (h : m.readingAllowed = true) :
    m.sendTriggerPulse.2.readingAllowed = false ∧
      m.sendTriggerPulse.2.overflowIntEnabled = true ∧
      m.sendTriggerPulse.2.overflows = m.overflows := by
  simp [RangingModuleIF.sendTriggerPulse, h]

theorem RangingModuleIF.gateInv_deliver (m : RangingModuleIF) (e : GateEvent)
    (h : m.GateInv) : (m.deliver e).GateInv := by
  unfold RangingModuleIF.GateInv at h ⊢
  cases e with
  | trigger =>
    intro hr
    simp only [RangingModuleIF.deliver, RangingModuleIF.sendTriggerPulse] at hr
    split at hr <;> simp at hr
  | overflow =>
    simp only [RangingModuleIF.deliver, RangingModuleIF.timer5Overflow]
    by_cases hen : m.overflowIntEnabled = true
    · by_cases h2 : m.overflows ≥ 2
      · simp [hen, h2]
      · simp only [hen, if_true, h2, if_false]
        intro hr
        have := (h hr).2
        rw [hen] at this
        exact absurd this (by decide)
    · simpa [hen] using h

theorem RangingModuleIF.gateInv_run (events : List GateEvent) :
    ∀ m : RangingModuleIF, m.GateInv → (m.run events).GateInv := by
  induction events with
  | nil => intro m h; exact h
  | cons e rest ih =>
    intro m h
    exact ih _ (RangingModuleIF.gateInv_deliver m e h)

/-- A closed gate with the interrupt on stays closed as long as the counter
and the overflows handled since add up to at most 2. -/
theorem RangingModuleIF.closed_stays (events : List GateEvent) :
    ∀ m : RangingModuleIF, m.readingAllowed = false → m.overflowIntEnabled = true →
      m.overflows + m.handledOverflows events ≤ 2 →
      (m.run events).readingAllowed = false ∧ (m.run events).overflowIntEnabled = true ∧
        (m.run events).overflows = m.overflows + m.handledOverflows events := by
  induction events with
  | nil =>
    intro m hr he _
    exact ⟨hr, he, rfl⟩
  | cons e rest ih =>
    intro m hr he hle
    cases e with
    | trigger =>
      have hd : m.deliver GateEvent.trigger = m := by
        simp only [RangingModuleIF.deliver, RangingModuleIF.sendTriggerPulse, hr]
        cases m
        simp_all
      have hh : m.handledOverflows (GateEvent.trigger :: rest) = m.handledOverflows rest := by
        simp [RangingModuleIF.handledOverflows, hd]
      rw [hh] at hle ⊢
      have := ih m hr he hle
      simpa [RangingModuleIF.run, hd] using this
    | overflow =>
      have hh : m.handledOverflows (GateEvent.overflow :: rest)
          = 1 + (m.deliver GateEvent.overflow).handledOverflows rest := by
        simp [RangingModuleIF.handledOverflows, he]
      rw [hh] at hle ⊢
      have hlt : ¬ m.overflows ≥ 2 := by omega
      have hd : m.deliver GateEvent.overflow
          = { m with overflows := (m.overflows + 1) % 256 } := by
        simp [RangingModuleIF.deliver, RangingModuleIF.timer5Overflow, he, hlt]
      have hov : (m.deliver GateEvent.overflow).overflows = m.overflows + 1 := by
        rw [hd]
        simp only
        omega
      have := ih (m.deliver GateEvent.overflow) (by rw [hd]; exact hr) (by rw [hd]; exact he)
        (by rw [hov]; omega)
      rw [hov] at this
      refine ⟨this.1, this.2.1, ?_⟩
      have h3 := this.2.2
      simp only [RangingModuleIF.run, List.foldl_cons] at h3 ⊢
      omega

/-- C15: in every interleaving of `sendTriggerPulse` calls and timer-overflow
interrupts from the start-up state, a call made after a call that returned
true and before two overflow interrupts have been handled since then returns
false; hence at least two handled overflows separate two calls that return
true. -/
theorem C15_one_trigger_per_window (before between : List GateEvent)
    (htrue : (RangingModuleIF.init.run before).sendTriggerPulse.1 = true) :
    ((RangingModuleIF.init.run before).sendTriggerPulse.2.handledOverflows between < 2 →
      ((RangingModuleIF.init.run before).sendTriggerPulse.2.run between).sendTriggerPulse.1
        = false) ∧
    (((RangingModuleIF.init.run before).sendTriggerPulse.2.run between).sendTriggerPulse.1
        = true →
      2 ≤ (RangingModuleIF.init.run before).sendTriggerPulse.2.handledOverflows between) := by
  have hinv : (RangingModuleIF.init.run before).GateInv :=
    RangingModuleIF.gateInv_run before _ (by
      unfold RangingModuleIF.GateInv
      intro _
      exact ⟨rfl, rfl⟩)
  have hopen : (RangingModuleIF.init.run before).readingAllowed = true := by
    rw [← RangingModuleIF.sendTriggerPulse_fst]
    exact htrue
  have hov := (hinv hopen).1
  obtain ⟨g1, g2, g3⟩ := RangingModuleIF.sendTriggerPulse_open _ hopen
  have hclosed : ∀ k, (RangingModuleIF.init.run before).sendTriggerPulse.2.handledOverflows
      between = k → k ≤ 2 →
      ((RangingModuleIF.init.run before).sendTriggerPulse.2.run between).sendTriggerPulse.1
        = false := by
    intro k hk hk2
    have h := RangingModuleIF.closed_stays between
      (RangingModuleIF.init.run before).sendTriggerPulse.2 g1 g2
      (by rw [g3, hov, hk]; omega)
    rw [RangingModuleIF.sendTriggerPulse_fst]
    exact h.1
  refine ⟨fun hlt => hclosed _ rfl (by omega), fun ht => ?_⟩
  by_contra hlt
  have := hclosed _ rfl (by omega)
  rw [this] at ht
  exact absurd ht (by decide)

/-- C15 on an interleaving: a trigger, three overflows (the gate re-opens), a
call that returns true, then a call, one overflow and a call: the next call
returns false. -/
theorem C15_one_trigger_per_window_witness :
    ((RangingModuleIF.init.run [GateEvent.trigger, GateEvent.overflow, GateEvent.overflow,
        GateEvent.overflow]).sendTriggerPulse.2.run
      [GateEvent.trigger, GateEvent.overflow, GateEvent.trigger]).sendTriggerPulse.1
      = false :=
  (C15_one_trigger_per_window
    [GateEvent.trigger, GateEvent.overflow, GateEvent.overflow, GateEvent.overflow]
    [GateEvent.trigger, GateEvent.overflow, GateEvent.trigger] (by decide)).1 (by decide)

/-! ## Claims on the ranging subsystem: distance computation -/

/-- C16: for 16-bit timestamps the local `elapsed` of `calcDistance` is
`endTime - startTime` when `endTime >= startTime` and
`(65535 - startTime) + endTime + 1` when `endTime < startTime`; either way it
is `(endTime - startTime) mod 65536`, and no step of the computation leaves
the 16-bit range; for `startTime = 65000`, `endTime = 100` it is 636. -/
theorem C16_elapsed_ticks (startTime endTime : Nat) (hs : startTime < 65536)
    (he : endTime < 65536) :
    (endTime ≥ startTime → elapsedTicks startTime endTime = endTime - startTime) ∧
    (endTime < startTime →
      elapsedTicks startTime endTime = (65535 - startTime) + endTime + 1 ∧
      (65535 - startTime) + endTime + 1 < 65536) ∧
    ((elapsedTicks startTime endTime : Nat) : Int)
      = ((endTime : Int) - (startTime : Int)) % 65536 ∧
    elapsedTicks startTime endTime < 65536 ∧
    elapsedTicks 65000 100 = 636 := by
  unfold elapsedTicks
  refine ⟨?_, ?_, ?_, ?_, by decide⟩
  · intro h
    rw [if_pos h]
    omega
  · intro h
    rw [if_neg (by omega)]
    omega
  · split <;> omega
  · split <;> omega

/-- C16 at the timestamps of the example: 65000 and 100 give 636 ticks. -/
theorem C16_elapsed_ticks_witness :
    elapsedTicks 65000 100 = (65535 - 65000) + 100 + 1 ∧
      (65535 - 65000) + 100 + 1 < 65536 :=
  (C16_elapsed_ticks 65000 100 (by decide) (by decide)).2.1 (by decide)

/-- Up to 13107 ticks the product `elapsed * 5` fits 16 bits and the raw
distance is `5 * elapsed / 58`. -/
theorem rawDistance_small (e : Nat) (h : e ≤ 13107) : rawDistance e = 5 * e / 58 := by
  unfold rawDistance
  rw [Nat.mod_eq_of_lt (by omega), Nat.mul_comm]

/-- C17: what the code feeds to the filter at 13108 elapsed ticks: the 16-bit
product `13108 * 5` wraps to 4 and the raw distance is 0, where
`5 * 13108 / 58` is 1130 and the raw distance at 13107 ticks is 1129; an echo
captured at ticks 0 and 13108 leaves the filter at 0. -/
theorem C17_scale_wraps :
    rawDistance 13108 = 0 ∧ 5 * 13108 / 58 = 1130 ∧ rawDistance 13107 = 1129 ∧
    ¬ rawDistance 13107 ≤ rawDistance 13108 ∧
    ((RangingModuleIF.init.ISRHandler 0).ISRHandler 13108).currentDistance = 0 := by
  decide

/-! ## Lemmas on the moving average -/

/-- The filter statics after one call of `updateMovingAverage`. -/
theorem RangingModuleIF.updateMovingAverage_sma (m : RangingModuleIF) (d : Nat) :
    (m.updateMovingAverage d).smaIndex = (m.smaIndex + 1) % 5 ∧
    (m.updateMovingAverage d).smaBuffer =
      (if (m.smaTotal == 0 && m.smaIndex == 0) = true then
        (List.range 5).foldl (fun buf i => buf.set i d) m.smaBuffer
      else m.smaBuffer).set m.smaIndex d ∧
    (m.updateMovingAverage d).smaTotal =
      (((if (m.smaTotal == 0 && m.smaIndex == 0) = true then (d * 5) % 65536
          else m.smaTotal) + 4294967296 -
        (if (m.smaTotal == 0 && m.smaIndex == 0) = true then
          (List.range 5).foldl (fun buf i => buf.set i d) m.smaBuffer
        else m.smaBuffer).getD m.smaIndex 0) % 4294967296 + d) % 4294967296 ∧
    (m.updateMovingAverage d).currentDistance =
      ((m.updateMovingAverage d).smaTotal / 5) % 65536 := by
  unfold RangingModuleIF.updateMovingAverage kSMAWindowSize
  split <;> exact ⟨rfl, rfl, rfl, rfl⟩

/-- The first update of a filter whose total and index are 0 fills the window
with the sample. -/
theorem RangingModuleIF.holdsWindow_first (m : RangingModuleIF) (d : Nat)
    (ht : m.smaTotal = 0) (hi : m.smaIndex = 0) (hl : m.smaBuffer.length = 5)
    (hd : d ≤ 13107) :
    (m.updateMovingAverage d).HoldsWindow [d, d, d, d, d] ∧
      (m.updateMovingAverage d).currentDistance = d ∧
      (m.updateMovingAverage d).smaIndex = 1 := by
  obtain ⟨h1, h2, h3, h4⟩ := RangingModuleIF.updateMovingAverage_sma m d
  rcases hb : m.smaBuffer with _ | ⟨b0, _ | ⟨b1, _ | ⟨b2, _ | ⟨b3, _ | ⟨b4, _ | ⟨b5, bs⟩⟩⟩⟩⟩⟩ <;>
    rw [hb] at hl <;> simp at hl
  have hbuf : (m.updateMovingAverage d).smaBuffer = [d, d, d, d, d] := by
    rw [h2, hb, ht, hi]
    simp [List.range, List.range.loop]
  have htot : (m.updateMovingAverage d).smaTotal = 5 * d := by
    rw [h3, hb, ht, hi]
    simp only [beq_self_eq_true, Bool.and_self, if_true, List.range, List.range.loop,
      List.foldl, List.set, List.getD_cons_zero]
    clear h1 h2 h3 h4
    have e1 : d * 5 % 65536 = d * 5 := Nat.mod_eq_of_lt (by omega)
    have e2 : (d * 5 + 4294967296 - d) % 4294967296 = 4 * d := by omega
    rw [e1, e2]
    omega
  have hidx : (m.updateMovingAverage d).smaIndex = 1 := by rw [h1, hi]
  refine ⟨⟨rfl, by rw [hbuf]; rfl, by rw [hidx]; decide, ?_, ?_, ?_⟩, ?_, hidx⟩
  · intro x hx
    simp only [List.mem_cons, List.mem_singleton, List.not_mem_nil, or_false, or_self] at hx
    omega
  · rw [htot]
    simp only [List.sum_cons, List.sum_nil]
    omega
  · intro i hi5
    rw [hbuf, hidx]
    interval_cases i <;> rfl
  · rw [h4, htot]
    clear h1 h2 h3 h4
    omega

/-- A later update drops the oldest sample of the window and takes in the
new one. -/
theorem RangingModuleIF.holdsWindow_next (m : RangingModuleIF) (w : List Nat) (d : Nat)
    (hw : m.HoldsWindow w) (hnf : ¬ (m.smaTotal = 0 ∧ m.smaIndex = 0)) (hd : d < 65536) :
    (m.updateMovingAverage d).HoldsWindow (w.tail ++ [d]) ∧
      (m.updateMovingAverage d).currentDistance = (w.tail ++ [d]).sum / 5 ∧
      (m.updateMovingAverage d).smaIndex = (m.smaIndex + 1) % 5 := by
  obtain ⟨hwl, hbl, hidx, hwb, htot, hget⟩ := hw
  obtain ⟨h1, h2, h3, h4⟩ := RangingModuleIF.updateMovingAverage_sma m d
  have hfirst : ((m.smaTotal == 0 && m.smaIndex == 0) = true) = False := by
    simpa using hnf
  simp only [hfirst, if_false] at h2 h3
  rcases w with _ | ⟨w0, _ | ⟨w1, _ | ⟨w2, _ | ⟨w3, _ | ⟨w4, _ | ⟨w5, ws⟩⟩⟩⟩⟩⟩ <;>
    simp at hwl
  rcases hb : m.smaBuffer with _ | ⟨b0, _ | ⟨b1, _ | ⟨b2, _ | ⟨b3, _ | ⟨b4, _ | ⟨b5, bs⟩⟩⟩⟩⟩⟩ <;>
    rw [hb] at hbl <;> simp at hbl
  rw [hb] at hget h2 h3
  have h1o := h1
  obtain ⟨k, hk⟩ : ∃ k, m.smaIndex = k := ⟨_, rfl⟩
  rw [hk] at hget h1 h2 h3 hidx
  have g0 := hget 0 (by decide)
  have g1 := hget 1 (by decide)
  have g2 := hget 2 (by decide)
  have g3 := hget 3 (by decide)
  have g4 := hget 4 (by decide)
  have b0w := hwb w0 (by simp)
  have b1w := hwb w1 (by simp)
  have b2w := hwb w2 (by simp)
  have b3w := hwb w3 (by simp)
  have b4w := hwb w4 (by simp)
  simp only [List.sum_cons, List.sum_nil] at htot
  have hsum : ([w0, w1, w2, w3, w4].tail ++ [d]).sum = w1 + w2 + w3 + w4 + d := by
    simp only [List.tail_cons, List.cons_append, List.nil_append, List.sum_cons, List.sum_nil]
    omega
  have hold : [b0, b1, b2, b3, b4].getD k 0 = w0 := by
    interval_cases k <;> simpa using g0
  have htot2 : (m.updateMovingAverage d).smaTotal = w1 + w2 + w3 + w4 + d := by
    rw [h3, htot, hold]
    clear h1 h2 h3 h4 hget g0 g1 g2 g3 g4 hold
    have e2 : (w0 + (w1 + (w2 + (w3 + (w4 + 0)))) + 4294967296 - w0) % 4294967296
        = w1 + w2 + w3 + w4 := by omega
    rw [e2]
    omega
  refine ⟨⟨by simp, ?_, ?_, ?_, ?_, ?_⟩, ?_, h1o⟩
  · rw [h2]
    simp
  · rw [h1]
    omega
  · intro x hx
    simp only [List.tail_cons, List.cons_append, List.nil_append, List.mem_cons,
      List.mem_singleton, List.not_mem_nil, or_false] at hx
    rcases hx with rfl | rfl | rfl | rfl | rfl <;> assumption
  · rw [htot2, hsum]
  · intro i hi5
    rw [h1, h2]
    interval_cases k <;> simp at g0 g1 g2 g3 g4 <;> interval_cases i <;> simp [*]
  · rw [h4, htot2, hsum]
    clear h1 h2 h3 h4 hget g0 g1 g2 g3 g4 hold
    omega

theorem RangingModuleIF.updateAll_snoc (m : RangingModuleIF) (samples : List Nat) (d : Nat) :
    m.updateAll (samples ++ [d]) = (m.updateAll samples).updateMovingAverage d := by
  simp [RangingModuleIF.updateAll, List.foldl_append]

theorem smaWindow_snoc (first : Nat) (rest : List Nat) (d : Nat) :
    smaWindow first (rest ++ [d]) = (smaWindow first rest).tail ++ [d] := by
  unfold smaWindow
  have hlen : rest.length + 1 ≤ (List.replicate 4 first ++ first :: rest).length := by
    simp only [List.length_append, List.length_replicate, List.length_cons]
    omega
  have happ : List.replicate 4 first ++ first :: (rest ++ [d])
      = (List.replicate 4 first ++ first :: rest) ++ [d] := by simp
  rw [List.length_append, List.length_singleton, happ, List.drop_append_of_le_length hlen,
    List.tail_drop]

theorem smaWindow_last_five (first : Nat) (rest : List Nat) (h : 4 ≤ rest.length) :
    smaWindow first rest = (first :: rest).drop ((first :: rest).length - 5) := by
  unfold smaWindow
  obtain ⟨k, hk⟩ : ∃ k, rest.length = 4 + k := ⟨rest.length - 4, by omega⟩
  have h4 : (List.replicate 4 first).length = 4 := List.length_replicate _ _
  rw [List.length_cons, hk]
  have : 4 + k + 1 - 5 = k := by omega
  rw [this]
  have hd := @List.drop_append Nat (List.replicate 4 first) (first :: rest) k
  rw [h4] at hd
  exact hd

/-- On samples that are all positive the filter holds the window of the last
five samples after every call, and `currentDistance` is its average. -/
theorem RangingModuleIF.updateAll_window (first : Nat) (hf : 0 < first ∧ first ≤ 13107)
    (rest : List Nat) :
    (∀ x ∈ rest, 0 < x ∧ x < 65536) →
      (RangingModuleIF.init.updateAll (first :: rest)).HoldsWindow (smaWindow first rest) ∧
      (RangingModuleIF.init.updateAll (first :: rest)).currentDistance
        = (smaWindow first rest).sum / 5 ∧
      ∀ x ∈ smaWindow first rest, 0 < x := by
  induction rest using List.reverseRecOn with
  | nil =>
    intro _
    obtain ⟨a, b, -⟩ := RangingModuleIF.holdsWindow_first RangingModuleIF.init first
      rfl rfl rfl hf.2
    have hw : smaWindow first [] = [first, first, first, first, first] := rfl
    have hu : RangingModuleIF.init.updateAll [first]
        = RangingModuleIF.init.updateMovingAverage first := rfl
    rw [hw, hu]
    refine ⟨a, ?_, ?_⟩
    · rw [b]
      simp only [List.sum_cons, List.sum_nil]
      omega
    · intro x hx
      simp only [List.mem_cons, List.mem_singleton, List.not_mem_nil, or_false, or_self] at hx
      rw [hx]
      exact hf.1
  | append_singleton rest d ih =>
    intro hr
    have hr1 : ∀ x ∈ rest, 0 < x ∧ x < 65536 :=
      fun x hx => hr x (List.mem_append_left _ hx)
    have hd : 0 < d ∧ d < 65536 := hr d (by simp)
    obtain ⟨hw, -, hpos⟩ := ih hr1
    have hstep : RangingModuleIF.init.updateAll (first :: (rest ++ [d]))
        = (RangingModuleIF.init.updateAll (first :: rest)).updateMovingAverage d := by
      rw [← List.cons_append, RangingModuleIF.updateAll_snoc]
    have hnf : ¬ ((RangingModuleIF.init.updateAll (first :: rest)).smaTotal = 0 ∧
        (RangingModuleIF.init.updateAll (first :: rest)).smaIndex = 0) := by
      intro h0
      have hsum := hw.2.2.2.2.1
      have hl := hw.1
      rcases hwin : smaWindow first rest with _ | ⟨w0, ws⟩
      · rw [hwin] at hl
        simp at hl
      · have hw0 : 0 < w0 := hpos w0 (by rw [hwin]; simp)
        rw [hwin, List.sum_cons] at hsum
        omega
    obtain ⟨a, b, -⟩ := RangingModuleIF.holdsWindow_next _ _ d hw hnf hd.2
    rw [hstep, smaWindow_snoc]
    refine ⟨a, b, ?_⟩
    intro x hx
    rcases List.mem_append.1 hx with h | h
    · exact hpos x (List.mem_of_mem_tail h)
    · simp only [List.mem_singleton] at h
      rw [h]
      exact hd.1

/-- On five or more positive samples, none above 13107, `currentDistance` is
the floor of the sum of the last five divided by 5. -/
theorem RangingModuleIF.updateAll_last_five (samples : List Nat) (hn : 5 ≤ samples.length)
    (hpos : ∀ x ∈ samples, 0 < x ∧ x ≤ 13107) :
    (RangingModuleIF.init.updateAll samples).currentDistance
      = (samples.drop (samples.length - 5)).sum / 5 := by
  rcases samples with _ | ⟨first, rest⟩
  · simp at hn
  · have hf := hpos first (by simp)
    have hr : ∀ x ∈ rest, 0 < x ∧ x < 65536 := by
      intro x hx
      have := hpos x (List.mem_cons_of_mem _ hx)
      omega
    have h4 : 4 ≤ rest.length := by
      simp only [List.length_cons] at hn
      omega
    rw [(RangingModuleIF.updateAll_window first hf rest hr).2.1,
      smaWindow_last_five first rest h4]

/-! ## Claims on the ranging subsystem: moving average -/

/-- C18: on a fresh filter, after the first `updateMovingAverage(d)` with
`d <= 13107`, `currentDistance == d`; after the first five updates with
samples `s1..s5` (`s1 <= 13107`, the others 16-bit), `currentDistance` is
the floor of `(s1+s2+s3+s4+s5)/5`; the samples 10, 20, 30, 40, 50 give 30. -/
theorem C18_moving_average_startup (d s1 s2 s3 s4 s5 : Nat) (hd : d ≤ 13107)
    (h1 : s1 ≤ 13107) (h2 : s2 < 65536) (h3 : s3 < 65536) (h4 : s4 < 65536)
    (h5 : s5 < 65536) :
    (RangingModuleIF.init.updateMovingAverage d).currentDistance = d ∧
    (RangingModuleIF.init.updateAll [s1, s2, s3, s4, s5]).currentDistance
      = (s1 + s2 + s3 + s4 + s5) / 5 ∧
    (RangingModuleIF.init.updateAll [10, 20, 30, 40, 50]).currentDistance = 30 := by
  refine ⟨(RangingModuleIF.holdsWindow_first RangingModuleIF.init d rfl rfl rfl hd).2.1, ?_,
    by decide⟩
  obtain ⟨w1, -, i1⟩ := RangingModuleIF.holdsWindow_first RangingModuleIF.init s1
    rfl rfl rfl h1
  obtain ⟨w2, -, i2⟩ := RangingModuleIF.holdsWindow_next _ _ s2 w1
    (fun h => by rw [i1] at h; exact absurd h.2 (by decide)) h2
  rw [i1] at i2
  obtain ⟨w3, -, i3⟩ := RangingModuleIF.holdsWindow_next _ _ s3 w2
    (fun h => by rw [i2] at h; exact absurd h.2 (by decide)) h3
  rw [i2] at i3
  obtain ⟨w4, -, i4⟩ := RangingModuleIF.holdsWindow_next _ _ s4 w3
    (fun h => by rw [i3] at h; exact absurd h.2 (by decide)) h4
  rw [i3] at i4
  obtain ⟨-, c5, -⟩ := RangingModuleIF.holdsWindow_next _ _ s5 w4
    (fun h => by rw [i4] at h; exact absurd h.2 (by decide)) h5
  have hu : RangingModuleIF.init.updateAll [s1, s2, s3, s4, s5]
      = ((((RangingModuleIF.init.updateMovingAverage s1).updateMovingAverage
          s2).updateMovingAverage s3).updateMovingAverage s4).updateMovingAverage s5 := rfl
  rw [hu, c5]
  simp only [List.tail_cons, List.cons_append, List.nil_append, List.sum_cons, List.sum_nil]
  congr 1
  omega

/-- C18 on the sample 1129 and on the samples 0, 7, 13107, 65535, 1. -/
theorem C18_moving_average_startup_witness :
    (RangingModuleIF.init.updateMovingAverage 1129).currentDistance = 1129 ∧
    (RangingModuleIF.init.updateAll [0, 7, 13107, 65535, 1]).currentDistance
      = (0 + 7 + 13107 + 65535 + 1) / 5 :=
  ⟨(C18_moving_average_startup 1129 0 7 13107 65535 1 (by decide) (by decide) (by decide)
      (by decide) (by decide) (by decide)).1,
    (C18_moving_average_startup 1129 0 7 13107 65535 1 (by decide) (by decide) (by decide)
      (by decide) (by decide) (by decide)).2.1⟩

/-- C19: what the code does on the samples 0, 0, 0, 0, 0, 10 fed to a fresh
filter: with total and index both back at 0 after the fifth call, the sixth
call takes the test for the first update again, fills all five slots with 10
and leaves `currentDistance` at 10, where the last five samples 0, 0, 0, 0, 10
average to 2. -/
theorem C19_zero_window_restarts :
    (RangingModuleIF.init.updateAll [0, 0, 0, 0, 0]).smaTotal = 0 ∧
    (RangingModuleIF.init.updateAll [0, 0, 0, 0, 0]).smaIndex = 0 ∧
    (RangingModuleIF.init.updateAll [0, 0, 0, 0, 0, 10]).smaBuffer = [10, 10, 10, 10, 10] ∧
    (RangingModuleIF.init.updateAll [0, 0, 0, 0, 0, 10]).currentDistance = 10 ∧
    ([0, 0, 0, 0, 0, 10].drop 1).sum / 5 = 2 := by
  decide

/-- The call counter and the trend snapshot after one call of
`updateMovingAverage`. -/
theorem RangingModuleIF.updateMovingAverage_snapshot (m : RangingModuleIF) (d : Nat) :
    (m.updateMovingAverage d).callCounter
      = (if m.callCounter ≥ 25 then 0 else (m.callCounter + 1) % 256) ∧
    (m.updateMovingAverage d).lastDistance
      = (if m.callCounter ≥ 25 then (m.updateMovingAverage d).currentDistance
          else m.lastDistance) := by
  unfold RangingModuleIF.updateMovingAverage
  split <;> exact ⟨rfl, rfl⟩

/-- As long as the counter and the calls add up to at most 25, the calls only
count: none of them takes a snapshot. -/
theorem RangingModuleIF.updateAll_no_snapshot (samples : List Nat) :
    ∀ m : RangingModuleIF, m.callCounter + samples.length ≤ 25 →
      (m.updateAll samples).callCounter = m.callCounter + samples.length ∧
      (m.updateAll samples).lastDistance = m.lastDistance := by
  induction samples with
  | nil => intro m _; exact ⟨rfl, rfl⟩
  | cons d rest ih =>
    intro m h
    simp only [List.length_cons] at h
    obtain ⟨hc, hl⟩ := RangingModuleIF.updateMovingAverage_snapshot m d
    have hlt : ¬ m.callCounter ≥ 25 := by omega
    rw [if_neg hlt] at hc hl
    have hc2 : (m.updateMovingAverage d).callCounter = m.callCounter + 1 := by
      rw [hc]
      omega
    obtain ⟨a, b⟩ := ih (m.updateMovingAverage d) (by rw [hc2]; omega)
    have hstep : m.updateAll (d :: rest) = (m.updateMovingAverage d).updateAll rest := rfl
    rw [hstep, a, b, hc2, hl, List.length_cons]
    exact ⟨by omega, rfl⟩

/-- C20: what the code does on a fresh filter: none of the calls 1 to 25 of
`updateMovingAverage` writes `lastDistance` (it keeps its start-up value 0
while the call counter goes up to 25); it is call 26 that sets `lastDistance`
to the just-computed `currentDistance` and clears the counter. -/
theorem C20_snapshot_on_call_26 (samples : List Nat) (d : Nat)
    (hn : samples.length ≤ 25) :
    (RangingModuleIF.init.updateAll samples).lastDistance = 0 ∧
    (RangingModuleIF.init.updateAll samples).callCounter = samples.length ∧
    (samples.length = 25 →
      ((RangingModuleIF.init.updateAll samples).updateMovingAverage d).lastDistance
        = ((RangingModuleIF.init.updateAll samples).updateMovingAverage d).currentDistance ∧
      ((RangingModuleIF.init.updateAll samples).updateMovingAverage d).callCounter = 0) := by
  obtain ⟨a, b⟩ := RangingModuleIF.updateAll_no_snapshot samples RangingModuleIF.init
    (by
      have : RangingModuleIF.init.callCounter = 0 := rfl
      omega)
  have ha : (RangingModuleIF.init.updateAll samples).callCounter = samples.length := by
    rw [a]
    have : RangingModuleIF.init.callCounter = 0 := rfl
    omega
  refine ⟨b, ha, fun h25 => ?_⟩
  obtain ⟨hc, hl⟩ := RangingModuleIF.updateMovingAverage_snapshot
    (RangingModuleIF.init.updateAll samples) d
  have hge : (RangingModuleIF.init.updateAll samples).callCounter ≥ 25 := by omega
  rw [if_pos hge] at hc hl
  exact ⟨hl, hc⟩

set_option maxRecDepth 100000 in
/-- C20 on 25 samples of 100: after call 25 `currentDistance` is 100 and
`lastDistance` is still 0; call 26 sets it to 100. -/
theorem C20_snapshot_on_call_26_witness :
    (RangingModuleIF.init.updateAll (List.replicate 25 100)).lastDistance = 0 ∧
    (RangingModuleIF.init.updateAll (List.replicate 25 100)).currentDistance = 100 ∧
    ((RangingModuleIF.init.updateAll (List.replicate 25 100)).updateMovingAverage
      100).lastDistance = 100 := by
  obtain ⟨a, -, c⟩ := C20_snapshot_on_call_26 (List.replicate 25 100) 100 (by decide)
  have hcur : (RangingModuleIF.init.updateAll (List.replicate 25 100)).currentDistance
      = 100 := by decide
  have hcur2 : ((RangingModuleIF.init.updateAll (List.replicate 25 100)).updateMovingAverage
      100).currentDistance = 100 := by decide
  exact ⟨a, hcur, by rw [(c (by decide)).1, hcur2]⟩

/-! ## Soundness of the scan -/

theorem take_set_succ (out : List Nat) (bc b : Nat) (hl : out.length = 7) (hbc : bc < 7) :
    (out.set bc b).take (bc + 1) = out.take bc ++ [b] := by
  rcases out with _ | ⟨o0, _ | ⟨o1, _ | ⟨o2, _ | ⟨o3, _ | ⟨o4, _ | ⟨o5, _ | ⟨o6, _ | ⟨o7, o⟩⟩⟩⟩⟩⟩⟩⟩ <;>
    simp at hl
  interval_cases bc <;> rfl

/-- Whatever is buffered, the scan returns 0 with nothing left unread, or it
returns 7 and what it has read ends with START, the seven bytes it hands
back, and STOP; when it starts inside a frame with `bc` bytes stored, the
frame may be the open one, completed by `7 - bc` bytes and STOP. -/
theorem scanFrame_sound (l : List Nat) :
    ∀ (out : List Nat) (st : Bool) (bc : Nat), out.length = 7 → (st = true → bc ≤ 7) →
      ((scanFrame l out st bc).1 = 0 ∧ (scanFrame l out st bc).2.1 = []) ∨
      ((scanFrame l out st bc).1 = 7 ∧
        ((∃ pre p, l = pre ++ START_ID_BYTE ::
              (p ++ STOP_ID_BYTE :: (scanFrame l out st bc).2.1) ∧
            p.length = 7 ∧ (scanFrame l out st bc).2.2 = p) ∨
          (st = true ∧ ∃ q, l = q ++ STOP_ID_BYTE :: (scanFrame l out st bc).2.1 ∧
            q.length + bc = 7 ∧ (scanFrame l out st bc).2.2 = out.take bc ++ q))) := by
  induction l with
  | nil =>
    intro out st bc _ _
    exact Or.inl ⟨rfl, rfl⟩
  | cons b l ih =>
    intro out st bc hl hbc
    cases st with
    | true =>
      have hbc7 := hbc rfl
      by_cases hstop : (b == STOP_ID_BYTE && bc == kFrameSize) = true
      · have hs : scanFrame (b :: l) out true bc = (bc, l, out) := by
          simp only [scanFrame, if_true, hstop]
        simp only [Bool.and_eq_true, beq_iff_eq, kFrameSize] at hstop
        rw [hs]
        refine Or.inr ⟨hstop.2, Or.inr ⟨rfl, [], ?_, ?_, ?_⟩⟩
        · simp [hstop.1]
        · simp [hstop.2]
        · simp only [List.append_nil]
          rw [List.take_of_length_le (by omega)]
      · by_cases hlt : bc < kFrameSize
        · have hs : scanFrame (b :: l) out true bc
              = scanFrame l (out.set bc b) true (bc + 1) := by
            simp only [scanFrame, if_true, hstop, Bool.false_eq_true, if_false, hlt]
          simp only [kFrameSize] at hlt
          rw [hs]
          rcases ih (out.set bc b) true (bc + 1) (by simp [hl]) (fun _ => by omega) with
            h0 | ⟨h7, hf⟩
          · exact Or.inl h0
          · refine Or.inr ⟨h7, ?_⟩
            rcases hf with ⟨pre, p, hp1, hp2, hp3⟩ | ⟨-, q, hq1, hq2, hq3⟩
            · exact Or.inl ⟨b :: pre, p, congrArg (List.cons b) hp1, hp2, hp3⟩
            · refine Or.inr ⟨rfl, b :: q, congrArg (List.cons b) hq1, ?_, ?_⟩
              · simp only [List.length_cons]
                omega
              · rw [hq3, take_set_succ out bc b hl hlt]
                simp
        · have hs : scanFrame (b :: l) out true bc = scanFrame l out false 0 := by
            simp only [scanFrame, if_true, hstop, Bool.false_eq_true, if_false, hlt]
          rw [hs]
          rcases ih out false 0 hl (by simp) with h0 | ⟨h7, hf⟩
          · exact Or.inl h0
          · refine Or.inr ⟨h7, ?_⟩
            rcases hf with ⟨pre, p, hp1, hp2, hp3⟩ | ⟨hc, -⟩
            · exact Or.inl ⟨b :: pre, p, congrArg (List.cons b) hp1, hp2, hp3⟩
            · exact absurd hc (by decide)
    | false =>
      by_cases hstart : (b == START_ID_BYTE) = true
      · have hs : scanFrame (b :: l) out false bc = scanFrame l out true 0 := by
          simp only [scanFrame, Bool.false_eq_true, if_false, hstart, if_true]
        have hb : b = START_ID_BYTE := by simpa using hstart
        rw [hs]
        subst hb
        rcases ih out true 0 hl (fun _ => by omega) with h0 | ⟨h7, hf⟩
        · exact Or.inl h0
        · refine Or.inr ⟨h7, Or.inl ?_⟩
          rcases hf with ⟨pre, p, hp1, hp2, hp3⟩ | ⟨-, q, hq1, hq2, hq3⟩
          · exact ⟨START_ID_BYTE :: pre, p, congrArg (List.cons START_ID_BYTE) hp1, hp2, hp3⟩
          · refine ⟨[], q, congrArg (List.cons START_ID_BYTE) hq1, by omega, ?_⟩
            rw [hq3]
            simp
      · have hs : scanFrame (b :: l) out false bc = scanFrame l out false bc := by
          simp only [scanFrame, Bool.false_eq_true, if_false, hstart]
        rw [hs]
        rcases ih out false bc hl (by simp) with h0 | ⟨h7, hf⟩
        · exact Or.inl h0
        · refine Or.inr ⟨h7, Or.inl ?_⟩
          rcases hf with ⟨pre, p, hp1, hp2, hp3⟩ | ⟨hc, -⟩
          · exact ⟨b :: pre, p, congrArg (List.cons b) hp1, hp2, hp3⟩
          · exact absurd hc (by decide)

/-- The loop of `getDataFrame` returns 0 or `kFrameSize`, on every state. -/
theorem getDataFrameLoop_count (fuel : Nat) :
    ∀ (s : RPiIF) (out : List Nat) (st : Bool) (bc : Nat) (r : FrameResult),
      getDataFrameLoop fuel s out st bc = some r → r.byteCount = 0 ∨ r.byteCount = 7 := by
  induction fuel with
  | zero =>
    intro s out st bc r h
    by_cases he : s.isEmpty = true
    · simp only [getDataFrameLoop, he, if_true, Option.some.injEq] at h
      subst h
      exact Or.inl rfl
    · simp [getDataFrameLoop, he] at h
  | succ fuel ih =>
    intro s out st bc r h
    by_cases he : s.isEmpty = true
    · simp only [getDataFrameLoop, he, if_true, Option.some.injEq] at h
      subst h
      exact Or.inl rfl
    · have he2 : s.isEmpty = false := by simpa using he
      simp only [getDataFrameLoop, he2, Bool.false_eq_true, if_false] at h
      split at h
      · split at h
        · rename_i hstop
          simp only [Option.some.injEq] at h
          subst h
          simp only [Bool.and_eq_true, beq_iff_eq, kFrameSize] at hstop
          exact Or.inr hstop.2
        · split at h
          · exact ih _ _ _ _ r h
          · exact ih _ _ _ _ r h
      · split at h
        · exact ih _ _ _ _ r h
        · exact ih _ _ _ _ r h

/-- C26: on every buffer state a call of `getDataFrame` that returns, returns
0 or 7; on every state with indices in range (and a 7-byte `outBuffer`) it
returns, and when it returns 7 the bytes it has consumed end with START, seven
bytes `p`, STOP, with `outBuffer = p`, and the bytes stored after that STOP
are the ones still between tail and head. -/
theorem C26_extraction_sound (s : RPiIF) (out : List Nat) :
    (∀ r, s.getDataFrame out = some r → r.byteCount = 0 ∨ r.byteCount = 7) ∧
    (s.WF → out.length = kFrameSize →
      ∃ r, s.getDataFrame out = some r ∧
        (r.byteCount = 7 →
          ∃ pre p, s.contents = pre ++ START_ID_BYTE ::
              (p ++ STOP_ID_BYTE :: r.rpi.contents) ∧
            p.length = 7 ∧ r.outBuffer = p)) := by
  refine ⟨fun r hr => getDataFrameLoop_count kBufferSize s out false 0 r hr, ?_⟩
  intro hwf hl
  obtain ⟨r, hr, h1, h2, h3, -⟩ := RPiIF.getDataFrame_scan s out hwf
  refine ⟨r, hr, fun h7 => ?_⟩
  rcases scanFrame_sound s.contents out false 0 hl (by simp) with ⟨h0, -⟩ | ⟨-, hf⟩
  · rw [← h1, h7] at h0
    exact absurd h0 (by decide)
  · rcases hf with ⟨pre, p, hp1, hp2, hp3⟩ | ⟨hc, -⟩
    · exact ⟨pre, p, by rw [h2]; exact hp1, hp2, by rw [h3]; exact hp3⟩
    · exact absurd hc (by decide)

/-- C26 on a buffer that holds two stray bytes, a frame and the start of the
next one: the call returns 7, and the buffer still holds START, 9. -/
theorem C26_extraction_sound_witness :
    ∃ r, (RPiIF.init.writeAll [5, 6, 0x7E, 1, 2, 3, 4, 5, 6, 7, 0x7D, 0x7E, 9]).getDataFrame
        [0, 0, 0, 0, 0, 0, 0] = some r ∧
      ∃ pre p, (RPiIF.init.writeAll [5, 6, 0x7E, 1, 2, 3, 4, 5, 6, 7, 0x7D, 0x7E, 9]).contents
          = pre ++ START_ID_BYTE :: (p ++ STOP_ID_BYTE :: r.rpi.contents) ∧
        p.length = 7 ∧ r.outBuffer = p := by
  have hwf : (RPiIF.init.writeAll [5, 6, 0x7E, 1, 2, 3, 4, 5, 6, 7, 0x7D, 0x7E, 9]).WF := by
    unfold RPiIF.WF
    decide
  obtain ⟨r, hr, h⟩ := (C26_extraction_sound
    (RPiIF.init.writeAll [5, 6, 0x7E, 1, 2, 3, 4, 5, 6, 7, 0x7D, 0x7E, 9])
    [0, 0, 0, 0, 0, 0, 0]).2 hwf (by decide)
  have h7 : ((RPiIF.init.writeAll
      [5, 6, 0x7E, 1, 2, 3, 4, 5, 6, 7, 0x7D, 0x7E, 9]).getDataFrame
        [0, 0, 0, 0, 0, 0, 0]).map FrameResult.byteCount = some 7 := by decide
  rw [hr] at h7
  exact ⟨r, hr, h (by simpa using h7)⟩

/-! ## The frame counter against the stored stop bytes -/

/-- A write keeps the counter at or above the number of stored stop bytes, as
long as it does not wrap. -/
theorem RPiIF.write_count (s : RPiIF) (b : Nat) (hwf : s.WF)
    (hinv : s.contents.count STOP_ID_BYTE ≤ s.framesInBuffer)
    (hnw : b = STOP_ID_BYTE → s.isFull = false → s.framesInBuffer < 255) :
    (s.writeToRxBuffer b).WF ∧
      (s.writeToRxBuffer b).contents.count STOP_ID_BYTE
        ≤ (s.writeToRxBuffer b).framesInBuffer := by
  by_cases hf : s.isFull = true
  · rw [RPiIF.writeToRxBuffer_full s b hf]
    exact ⟨hwf, hinv⟩
  · have hnf : s.isFull = false := by simpa using hf
    obtain ⟨hc, hwf2⟩ := RPiIF.contents_write s b hwf hnf
    obtain ⟨-, -, -, hfr⟩ := RPiIF.writeToRxBuffer_fields s b hnf
    refine ⟨hwf2, ?_⟩
    rw [hc, hfr, List.count_append]
    by_cases hb : b = STOP_ID_BYTE
    · have := hnw hb hnf
      simp only [hb, if_true, List.count_singleton_self]
      omega
    · have hb2 : (b == STOP_ID_BYTE) = false := by simpa using hb
      simp only [hb, if_false, List.count_cons, List.count_nil, hb2, Bool.false_eq_true]
      omega

/-- An extraction keeps the counter at or above the number of stored stop
bytes, and when it returns a frame it decrements a counter that is at least
1. -/
theorem RPiIF.extract_count (s : RPiIF) (out : List Nat) (hwf : s.WF)
    (hinv : s.contents.count STOP_ID_BYTE ≤ s.framesInBuffer)
    (hl : out.length = kFrameSize) :
    ∃ r, s.getDataFrame out = some r ∧ r.rpi.WF ∧
      r.rpi.contents.count STOP_ID_BYTE ≤ r.rpi.framesInBuffer ∧
      (r.byteCount = 7 → 1 ≤ s.framesInBuffer ∧ r.rpi.framesInBuffer + 1 = s.framesInBuffer) := by
  obtain ⟨r, hr, h1, h2, -, hwf2, -, -, hfr⟩ := RPiIF.getDataFrame_scan s out hwf
  have hf256 : s.framesInBuffer < 256 := hwf.2.2
  refine ⟨r, hr, hwf2, ?_⟩
  rcases scanFrame_sound s.contents out false 0 hl (by simp) with ⟨h0, hrest⟩ | ⟨h7, hf⟩
  · rw [← h1] at h0
    rw [← h2] at hrest
    refine ⟨by rw [hrest]; simp, fun h => ?_⟩
    rw [h0] at h
    exact absurd h (by decide)
  · rw [← h1] at h7
    rw [← h2] at hf
    rcases hf with ⟨pre, p, hp1, -, -⟩ | ⟨hc, -⟩
    · have hcount : s.contents.count STOP_ID_BYTE
          ≥ 1 + r.rpi.contents.count STOP_ID_BYTE := by
        rw [hp1]
        simp only [List.count_append, List.count_cons, beq_self_eq_true, if_true]
        omega
      rw [if_neg (by omega)] at hfr
      refine ⟨by omega, fun _ => ⟨by omega, by omega⟩⟩
    · exact absurd hc (by decide)

/-- Along every sequence of writes and extractions without a wrap of the
counter, the counter stays at or above the number of stored stop bytes. -/
theorem RPiIF.runEvents_count (events : List ChannelEvent) :
    ∀ s : RPiIF, s.WF → s.contents.count STOP_ID_BYTE ≤ s.framesInBuffer →
      outBuffersFit events = true → s.noWrap events = true →
      ∃ s2, s.runEvents events = some s2 ∧ s2.WF ∧
        s2.contents.count STOP_ID_BYTE ≤ s2.framesInBuffer := by
  induction events with
  | nil =>
    intro s hwf hinv _ _
    exact ⟨s, rfl, hwf, hinv⟩
  | cons e rest ih =>
    intro s hwf hinv hfit hnw
    simp only [outBuffersFit, List.all_cons, Bool.and_eq_true] at hfit
    simp only [RPiIF.noWrap, Bool.and_eq_true] at hnw
    cases e with
    | write b =>
      have hstep : s.apply (ChannelEvent.write b) = some (s.writeToRxBuffer b) := rfl
      have hnw1 : b = STOP_ID_BYTE → s.isFull = false → s.framesInBuffer < 255 := by
        intro hb hf
        have := hnw.1
        simpa [hb, hf] using this
      obtain ⟨hwf2, hinv2⟩ := RPiIF.write_count s b hwf hinv hnw1
      have hnw2 : (s.writeToRxBuffer b).noWrap rest = true := by
        have := hnw.2
        rw [hstep] at this
        exact this
      obtain ⟨s2, hs2, h⟩ := ih _ hwf2 hinv2 hfit.2 hnw2
      exact ⟨s2, by simp [RPiIF.runEvents, hstep, hs2], h⟩
    | extract out =>
      have hl : out.length = kFrameSize := by simpa using hfit.1
      obtain ⟨r, hr, hwf2, hinv2, -⟩ := RPiIF.extract_count s out hwf hinv hl
      have hstep : s.apply (ChannelEvent.extract out) = some r.rpi := by
        simp [RPiIF.apply, hr]
      have hnw2 : r.rpi.noWrap rest = true := by
        have := hnw.2
        rw [hstep] at this
        exact this
      obtain ⟨s2, hs2, h⟩ := ih _ hwf2 hinv2 hfit.2 hnw2
      exact ⟨s2, by simp [RPiIF.runEvents, hstep, hs2], h⟩

/-- C30: in every state reached from the empty buffer by `writeToRxBuffer` and
`getDataFrame` calls in which the counter has not wrapped past 255,
`frameCount()` is at least the number of STOP-valued bytes stored between tail
and head; and a `getDataFrame` call that returns a frame there decrements a
counter that is at least 1. -/
theorem C30_counter_no_underflow (events : List ChannelEvent)
    (hfit : outBuffersFit events = true) (hnw : RPiIF.init.noWrap events = true) :
    ∃ s, RPiIF.init.runEvents events = some s ∧
      s.contents.count STOP_ID_BYTE ≤ s.frameCount ∧
      ∀ out, out.length = kFrameSize →
        ∃ r, s.getDataFrame out = some r ∧
          (r.byteCount = 7 → 1 ≤ s.frameCount ∧ r.rpi.frameCount + 1 = s.frameCount) := by
  have hwf0 : RPiIF.init.WF := by
    unfold RPiIF.WF
    decide
  have hinv0 : RPiIF.init.contents.count STOP_ID_BYTE ≤ RPiIF.init.framesInBuffer := by
    decide
  obtain ⟨s, hs, hwf, hinv⟩ := RPiIF.runEvents_count events _ hwf0 hinv0 hfit hnw
  refine ⟨s, hs, hinv, fun out hl => ?_⟩
  obtain ⟨r, hr, -, -, h⟩ := RPiIF.extract_count s out hwf hinv hl
  exact ⟨r, hr, h⟩

/-- C30 on a run: a frame with a STOP-valued payload byte is written, a call
extracts it, a stray STOP and a second frame follow; the counter then reads 3
against 2 stored STOP bytes, and the next call takes it to 2. -/
theorem C30_counter_no_underflow_witness :
    ∃ s, RPiIF.init.runEvents
        ((([0x7E, 1, 0x7D, 3, 4, 5, 6, 7, 0x7D].map ChannelEvent.write) ++
          [ChannelEvent.extract [0, 0, 0, 0, 0, 0, 0]]) ++
          ([0x7D, 0x7E, 1, 2, 3, 4, 5, 6, 7, 0x7D].map ChannelEvent.write)) = some s ∧
      s.contents.count STOP_ID_BYTE ≤ s.frameCount ∧
      ∃ r, s.getDataFrame [0, 0, 0, 0, 0, 0, 0] = some r ∧
        (r.byteCount = 7 → 1 ≤ s.frameCount ∧ r.rpi.frameCount + 1 = s.frameCount) := by
  obtain ⟨s, hs, hc, h⟩ := C30_counter_no_underflow
    ((([0x7E, 1, 0x7D, 3, 4, 5, 6, 7, 0x7D].map ChannelEvent.write) ++
      [ChannelEvent.extract [0, 0, 0, 0, 0, 0, 0]]) ++
      ([0x7D, 0x7E, 1, 2, 3, 4, 5, 6, 7, 0x7D].map ChannelEvent.write))
    (by decide) (by decide)
  exact ⟨s, hs, hc, h [0, 0, 0, 0, 0, 0, 0] (by decide)⟩

/-! ## Lemmas on the decoding of host frames -/

/-- One turn of the frames loop is a call of `getDataFrame` followed by the
decoding of what it returned. -/
theorem processFrames_succ (n : Nat) (d : DecodeState) :
    processFrames (n + 1) d =
      (d.rpi.getDataFrame d.frameBuffer).bind fun r =>
        (decodeFrame d r).bind (processFrames n) := by
  simp only [processFrames, decodeFrame]
  cases d.rpi.getDataFrame d.frameBuffer with
  | none => rfl
  | some r =>
    simp only [Option.pure_def, Option.bind_eq_bind, Option.some_bind]
    split
    · cases r.outBuffer[(findMarkers r.outBuffer (r.byteCount % 256)
          (d.systemPowerIndex, d.setPointIndex)).1]? with
      | none => rfl
      | some power =>
        cases readFloat r.outBuffer (findMarkers r.outBuffer (r.byteCount % 256)
            (d.systemPowerIndex, d.setPointIndex)).2 with
        | none => rfl
        | some sp => rfl
    · rfl

theorem getDataFrame_of_isEmpty (s : RPiIF) (out : List Nat) (he : s.isEmpty = true) :
    s.getDataFrame out = some ⟨0, s, out⟩ := by
  unfold RPiIF.getDataFrame
  cases kBufferSize <;> simp [getDataFrameLoop, he]

theorem decodeFrame_rpi (d d1 : DecodeState) (r : FrameResult)
    (h : decodeFrame d r = some d1) : d1.rpi = r.rpi := by
  unfold decodeFrame at h
  split at h
  · simp only [Option.bind_eq_some, Option.map_eq_some'] at h
    obtain ⟨power, -, sp, -, h⟩ := h
    rw [← h]
  · simp only [Option.some.injEq] at h
    rw [← h]

/-- With an empty channel the frames loop changes nothing. -/
theorem processFrames_of_isEmpty (n : Nat) :
    ∀ d : DecodeState, d.rpi.isEmpty = true → processFrames n d = some d := by
  induction n with
  | zero => intro d _; rfl
  | succ n ih =>
    intro d he
    rw [processFrames_succ, getDataFrame_of_isEmpty d.rpi d.frameBuffer he]
    have hd : decodeFrame d ⟨0, d.rpi, d.frameBuffer⟩ = some d := by
      simp [decodeFrame, kFrameSize]
    simp only [Option.some_bind, hd]
    exact ih d he

/-- When the first call drains the channel, the frames loop is the decoding of
that one result. -/
theorem processFrames_single (n : Nat) (d : DecodeState) (r : FrameResult)
    (hget : d.rpi.getDataFrame d.frameBuffer = some r) (he : r.rpi.isEmpty = true) :
    processFrames (n + 1) d = decodeFrame d r := by
  rw [processFrames_succ, hget]
  simp only [Option.some_bind]
  cases hd : decodeFrame d r with
  | none => rfl
  | some d1 =>
    simp only [Option.some_bind]
    exact processFrames_of_isEmpty n d1 (by rw [decodeFrame_rpi d d1 r hd]; exact he)

/-- The channel after START, seven bytes and STOP have come in: the counter is
not 0, and the first call hands back the seven bytes and drains the channel. -/
theorem host_frame_extract (payload : List Nat) (hp : payload.length = 7) :
    (RPiIF.init.writeAll (START_ID_BYTE :: (payload ++ [STOP_ID_BYTE]))).frameCount ≠ 0 ∧
    ∃ r, (RPiIF.init.writeAll (START_ID_BYTE :: (payload ++ [STOP_ID_BYTE]))).getDataFrame
        (List.replicate kFrameSize 0) = some r ∧
      r.byteCount = 7 ∧ r.outBuffer = payload ∧ r.rpi.isEmpty = true := by
  have hwf0 : RPiIF.init.WF := by
    unfold RPiIF.WF
    decide
  have hl : (START_ID_BYTE :: (payload ++ [STOP_ID_BYTE])).length ≤ 255 := by
    simp only [List.length_append, List.length_cons, List.length_nil, hp]
    omega
  obtain ⟨hc, hwf, hfr⟩ := RPiIF.writeAll_empty RPiIF.init _ hwf0 (by decide) hl
  have hm : payload.count STOP_ID_BYTE ≤ 7 := hp ▸ List.count_le_length _ _
  have hcount : (START_ID_BYTE :: (payload ++ [STOP_ID_BYTE])).count STOP_ID_BYTE
      = payload.count STOP_ID_BYTE + 1 := by
    simp [List.count_cons, START_ID_BYTE, STOP_ID_BYTE]
  have h0 : RPiIF.init.framesInBuffer = 0 := rfl
  rw [h0, hcount, Nat.zero_add, Nat.mod_eq_of_lt (by omega)] at hfr
  refine ⟨by unfold RPiIF.frameCount; omega, ?_⟩
  obtain ⟨r, hr, h1, h2, h3, hwf2, -⟩ := RPiIF.getDataFrame_scan _
    (List.replicate kFrameSize 0) hwf
  have hscan := scanFrame_frame [] payload (List.replicate kFrameSize 0) (by simp) hp
    (by simp [kFrameSize])
  rw [List.nil_append] at hscan
  rw [hc, hscan] at h1 h2 h3
  refine ⟨r, hr, h1, h3, (RPiIF.isEmpty_iff_used _ hwf2).2 ?_⟩
  rw [← RPiIF.contents_length, h2]
  rfl

/-- A cycle that finds one frame in the channel: it decodes with the indices
the marker scan gives from 0 and 0, and it does not return when one of the
reads leaves the payload. -/
theorem runCycle_host (dm : DataManager) (i : CycleInput) (payload : List Nat)
    (hp : payload.length = 7) :
    (∀ power sp, payload[(findMarkers payload 7 (0, 0)).1]? = some power →
      readFloat payload (findMarkers payload 7 (0, 0)).2 = some sp →
      ∃ r, runCycle dm
          { i with rpi := RPiIF.init.writeAll (START_ID_BYTE :: (payload ++ [STOP_ID_BYTE])) }
          = some r ∧ r.decoded = true ∧
        r.dm.systemData.systemPower = (power != 0) ∧ r.dm.systemData.setPoint = sp) ∧
    (payload[(findMarkers payload 7 (0, 0)).1]? = none ∨
        readFloat payload (findMarkers payload 7 (0, 0)).2 = none →
      runCycle dm
        { i with rpi := RPiIF.init.writeAll (START_ID_BYTE :: (payload ++ [STOP_ID_BYTE])) }
        = none) := by
  obtain ⟨hfc, r0, hget, h7, hout, hemp⟩ := host_frame_extract payload hp
  obtain ⟨n, hn⟩ : ∃ n, (RPiIF.init.writeAll
      (START_ID_BYTE :: (payload ++ [STOP_ID_BYTE]))).frameCount = n + 1 :=
    ⟨_, (Nat.succ_pred_eq_of_ne_zero hfc).symm⟩
  have hpf : ∀ sys : SystemData,
      processFrames (n + 1)
        { rpi := RPiIF.init.writeAll (START_ID_BYTE :: (payload ++ [STOP_ID_BYTE])),
          sys := sys, frameBuffer := List.replicate kFrameSize 0, systemPowerIndex := 0,
          setPointIndex := 0, isNewDataAvailable := false } =
      decodeFrame
        { rpi := RPiIF.init.writeAll (START_ID_BYTE :: (payload ++ [STOP_ID_BYTE])),
          sys := sys, frameBuffer := List.replicate kFrameSize 0, systemPowerIndex := 0,
          setPointIndex := 0, isNewDataAvailable := false } r0 := by
    intro sys
    exact processFrames_single n _ r0 hget hemp
  have hk : (7 % 256 == kFrameSize) = true := by decide
  have h7m : (7 : Nat) % 256 = 7 := by decide
  have hne : (n + 1 != 0) = true := by simp
  refine ⟨fun power sp hpow hsp => ?_, fun hnone => ?_⟩
  · unfold runCycle DataManager.updateSystemData
    simp only [hn, hne, if_true, hpf]
    simp only [decodeFrame, h7, hout, hk, if_true, h7m, hpow, hsp, Option.some_bind,
      Option.map_some']
    refine ⟨_, rfl, rfl, ?_, ?_⟩
    · by_cases hu : i.range.sendTriggerPulse.2.hasUnreadDistance = true <;>
        simp [SystemData.setSystemPower, SystemData.setSetPoint, SystemData.setCurrentRange,
          SystemData.setLastRange, hu]
    · by_cases hu : i.range.sendTriggerPulse.2.hasUnreadDistance = true <;>
        simp [SystemData.setSystemPower, SystemData.setSetPoint, SystemData.setCurrentRange,
          SystemData.setLastRange, hu]
  · unfold runCycle DataManager.updateSystemData
    simp only [hn, hne, if_true, hpf]
    simp only [decodeFrame, h7, hout, hk, if_true, h7m]
    rcases hnone with h | h
    · rw [h]
      rfl
    · rw [h]
      cases payload[(findMarkers payload 7 (0, 0)).1]? <;> rfl

/-- Markers that do not occur leave the incoming indices as they are. -/
theorem findMarkers_absent (fb : List Nat) (indices : List Nat) :
    ∀ acc : Nat × Nat,
      ((∀ i ∈ indices, fb.getD i 0 ≠ SYSTEM_POWER_ID_BYTE) →
        (indices.foldl
          (fun (acc : Nat × Nat) i =>
            if fb.getD i 0 == SYSTEM_POWER_ID_BYTE then (i + 1, acc.2)
            else if fb.getD i 0 == SETPOINT_ID_BYTE then (acc.1, i + 1)
            else acc) acc).1 = acc.1) ∧
      ((∀ i ∈ indices, fb.getD i 0 ≠ SETPOINT_ID_BYTE) →
        (indices.foldl
          (fun (acc : Nat × Nat) i =>
            if fb.getD i 0 == SYSTEM_POWER_ID_BYTE then (i + 1, acc.2)
            else if fb.getD i 0 == SETPOINT_ID_BYTE then (acc.1, i + 1)
            else acc) acc).2 = acc.2) := by
  induction indices with
  | nil => intro acc; exact ⟨fun _ => rfl, fun _ => rfl⟩
  | cons j rest ih =>
    intro acc
    simp only [List.foldl_cons]
    refine ⟨fun h => ?_, fun h => ?_⟩
    · have hj : (fb.getD j 0 == SYSTEM_POWER_ID_BYTE) = false := by
        simpa using h j (List.mem_cons_self _ _)
      rw [(ih _).1 (fun i hi => h i (List.mem_cons_of_mem _ hi)), hj]
      simp only [Bool.false_eq_true, if_false]
      split <;> rfl
    · have hj : (fb.getD j 0 == SETPOINT_ID_BYTE) = false := by
        simpa using h j (List.mem_cons_self _ _)
      rw [(ih _).2 (fun i hi => h i (List.mem_cons_of_mem _ hi)), hj]
      simp only [Bool.false_eq_true, if_false]
      split <;> rfl

set_option maxRecDepth 100000 in
/-- Claim C27 fails: the marker scan gives the index after the last marker, so
a marker in the last payload byte gives the power index 7, and a setpoint
marker in one of the last four bytes makes the four-byte read run past byte 6.
In the payload `0 0 0 0 0 0 0x88` the power value is read at index 7; in the
payload power marker, 1, setpoint marker, `0 0 0x5C 0x42` (the setpoint 55.0)
the setpoint is read at the indices 6 to 9.  In both the read leaves the
7-byte frame buffer and the cycle has no result. -/
theorem C27_reads_past_frame :
    findMarkers [0, 0, 0, 0, 0, 0, SYSTEM_POWER_ID_BYTE] 7 (0, 0) = (7, 0) ∧
    [0, 0, 0, 0, 0, 0, SYSTEM_POWER_ID_BYTE][7]? = none ∧
    (runCycle DataManager.running
      (CycleInput.host
        [START_ID_BYTE, 0, 0, 0, 0, 0, 0, SYSTEM_POWER_ID_BYTE, STOP_ID_BYTE])).isNone = true ∧
    findMarkers [SYSTEM_POWER_ID_BYTE, 1, SETPOINT_ID_BYTE, 0, 0, 0x5C, 0x42] 7 (0, 0)
      = (1, 6) ∧
    readFloat [SYSTEM_POWER_ID_BYTE, 1, SETPOINT_ID_BYTE, 0, 0, 0x5C, 0x42] 6 = none ∧
    (runCycle DataManager.running
      (CycleInput.host
        [START_ID_BYTE, SYSTEM_POWER_ID_BYTE, 1, SETPOINT_ID_BYTE, 0, 0, 0x5C, 0x42,
          STOP_ID_BYTE])).isNone = true := by
  refine ⟨by decide, by decide, by decide, by decide, by decide, by decide⟩

/-! ## Frames without a marker (C22) -/

/-- The marker scan over the seven payload bytes keeps an incoming index whose
marker does not occur. -/
theorem findMarkers_keep (fb : List Nat) (indices : Nat × Nat) :
    ((∀ k, k < kFrameSize → fb.getD k 0 ≠ SYSTEM_POWER_ID_BYTE) →
      (findMarkers fb kFrameSize indices).1 = indices.1) ∧
    ((∀ k, k < kFrameSize → fb.getD k 0 ≠ SETPOINT_ID_BYTE) →
      (findMarkers fb kFrameSize indices).2 = indices.2) := by
  unfold findMarkers
  exact ⟨fun h => (findMarkers_absent fb _ indices).1
      (fun k hk => h k (List.mem_range.1 hk)),
    fun h => (findMarkers_absent fb _ indices).2
      (fun k hk => h k (List.mem_range.1 hk))⟩

/-- A byte that is not in the list is not read from it. -/
theorem getD_ne_of_not_mem (l : List Nat) (b : Nat) (hb : b ∉ l) (hb0 : b ≠ 0) (k : Nat) :
    l.getD k 0 ≠ b := by
  intro h
  by_cases hk : k < l.length
  · rw [List.getD_eq_getElem l 0 hk] at h
    exact hb (h ▸ List.getElem_mem hk)
  · rw [List.getD_eq_default l 0 (Nat.le_of_not_lt hk)] at h
    exact hb0 h.symm

/-- What the decoding of one 7-byte frame does with an index whose marker does
not occur in the payload. -/
theorem decodeFrame_absent (d : DecodeState) (r : FrameResult) (d1 : DecodeState)
    (hsize : r.byteCount % 256 = kFrameSize) (hdec : decodeFrame d r = some d1) :
    ((∀ k, k < kFrameSize → r.outBuffer.getD k 0 ≠ SYSTEM_POWER_ID_BYTE) →
      d1.systemPowerIndex = d.systemPowerIndex ∧
      ∃ power, r.outBuffer[d.systemPowerIndex]? = some power ∧
        d1.sys.systemPower = (power != 0)) ∧
    ((∀ k, k < kFrameSize → r.outBuffer.getD k 0 ≠ SETPOINT_ID_BYTE) →
      d1.setPointIndex = d.setPointIndex ∧
      readFloat r.outBuffer d.setPointIndex = some d1.sys.setPoint) := by
  unfold decodeFrame at hdec
  rw [hsize] at hdec
  simp only [beq_self_eq_true, if_true, Option.bind_eq_some, Option.map_eq_some'] at hdec
  obtain ⟨power, hpow, sp, hsp, hd1⟩ := hdec
  subst hd1
  refine ⟨fun h => ?_, fun h => ?_⟩
  · have hk := (findMarkers_keep r.outBuffer (d.systemPowerIndex, d.setPointIndex)).1 h
    simp only at hk
    rw [hk] at hpow
    exact ⟨hk, power, hpow, rfl⟩
  · have hk := (findMarkers_keep r.outBuffer (d.systemPowerIndex, d.setPointIndex)).2 h
    simp only at hk
    rw [hk] at hsp
    exact ⟨hk, hsp⟩

/-- A list of length 7 is its seven members. -/
theorem length_seven (l : List Nat) (h : l.length = 7) :
    ∃ a b c d e f g, l = [a, b, c, d, e, f, g] := by
  match l, h with
  | [a, b, c, d, e, f, g], _ => exact ⟨a, b, c, d, e, f, g, rfl⟩

/-- A cycle over a single frame, as far as it returns: an absent power marker
makes byte 0 the power value and an absent setpoint marker makes bytes 0 to 3
the setpoint. -/
theorem runCycle_host_absent (dm : DataManager) (i : CycleInput) (payload : List Nat)
    (hp : payload.length = 7) (r : CycleResult)
    (hr : runCycle dm
      { i with rpi := RPiIF.init.writeAll (START_ID_BYTE :: (payload ++ [STOP_ID_BYTE])) }
      = some r) :
    r.decoded = true ∧
    (SYSTEM_POWER_ID_BYTE ∉ payload →
      r.dm.systemData.systemPower = (payload.getD 0 0 != 0)) ∧
    (SETPOINT_ID_BYTE ∉ payload →
      r.dm.systemData.setPoint
        = ⟨payload.getD 0 0, payload.getD 1 0, payload.getD 2 0, payload.getD 3 0⟩) := by
  obtain ⟨hsome, hnone⟩ := runCycle_host dm i payload hp
  cases hpow : payload[(findMarkers payload 7 (0, 0)).1]? with
  | none => rw [hnone (Or.inl hpow)] at hr; exact absurd hr (by simp)
  | some power =>
    cases hsp : readFloat payload (findMarkers payload 7 (0, 0)).2 with
    | none => rw [hnone (Or.inr hsp)] at hr; exact absurd hr (by simp)
    | some sp =>
      obtain ⟨r1, hr1, hd, hpw, hst⟩ := hsome power sp hpow hsp
      rw [hr1] at hr
      cases hr
      refine ⟨hd, fun h => ?_, fun h => ?_⟩
      · have hk : (findMarkers payload 7 (0, 0)).1 = 0 :=
          (findMarkers_keep payload (0, 0)).1
            (fun k _ => getD_ne_of_not_mem payload _ h (by decide) k)
        rw [hk] at hpow
        obtain ⟨a, b, c, d, e, f, g, rfl⟩ := length_seven payload hp
        rw [hpw]
        simp only [List.getElem?_cons_zero, Option.some.injEq] at hpow
        rw [← hpow]
        rfl
      · have hk : (findMarkers payload 7 (0, 0)).2 = 0 :=
          (findMarkers_keep payload (0, 0)).2
            (fun k _ => getD_ne_of_not_mem payload _ h (by decide) k)
        rw [hk] at hsp
        obtain ⟨a, b, c, d, e, f, g, rfl⟩ := length_seven payload hp
        rw [hst]
        have h4 : readFloat [a, b, c, d, e, f, g] 0 = some ⟨a, b, c, d⟩ := rfl
        rw [h4] at hsp
        exact (Option.some.inj hsp).symm

/-- A cycle over a single frame with neither marker returns. -/
theorem runCycle_host_no_marker (dm : DataManager) (i : CycleInput) (payload : List Nat)
    (hp : payload.length = 7) (hpm : SYSTEM_POWER_ID_BYTE ∉ payload)
    (hsm : SETPOINT_ID_BYTE ∉ payload) :
    ∃ r, runCycle dm
      { i with rpi := RPiIF.init.writeAll (START_ID_BYTE :: (payload ++ [STOP_ID_BYTE])) }
      = some r := by
  have hk1 : (findMarkers payload 7 (0, 0)).1 = 0 :=
    (findMarkers_keep payload (0, 0)).1
      (fun k _ => getD_ne_of_not_mem payload _ hpm (by decide) k)
  have hk2 : (findMarkers payload 7 (0, 0)).2 = 0 :=
    (findMarkers_keep payload (0, 0)).2
      (fun k _ => getD_ne_of_not_mem payload _ hsm (by decide) k)
  obtain ⟨hsome, -⟩ := runCycle_host dm i payload hp
  rw [hk1, hk2] at hsome
  obtain ⟨a, b, c, d, e, f, g, rfl⟩ := length_seven payload hp
  obtain ⟨r, hr, -⟩ := hsome a ⟨a, b, c, d⟩ rfl rfl
  exact ⟨r, hr⟩

set_option maxRecDepth 100000 in
/-- Claim C22 as stated fails for a later frame of a cycle: after the frame
`0x5C 0 0 0 0 0x88 1`, which leaves the power index 6 and the setpoint index
1, the frame `0 9 9 9 9 9 9` has no marker and is decoded at these indices:
the power comes from byte 6 (true, where byte 0 gives false) and the setpoint
from bytes 1 to 4 (`9 9 9 9`, where bytes 0 to 3 are `0 9 9 9`). -/
theorem C22_counterexample :
    (runCycle (DataManager.init 133 33)
        (CycleInput.host
          [START_ID_BYTE, 0x5C, 0, 0, 0, 0, 0x88, 1, STOP_ID_BYTE,
            START_ID_BYTE, 0, 9, 9, 9, 9, 9, 9, STOP_ID_BYTE])).map
      (fun r => (r.decoded, r.dm.systemData.systemPower, r.dm.systemData.setPoint))
      = some (true, true, ⟨9, 9, 9, 9⟩) ∧
    SYSTEM_POWER_ID_BYTE ∉ [0, 9, 9, 9, 9, 9, 9] ∧
    SETPOINT_ID_BYTE ∉ [0, 9, 9, 9, 9, 9, 9] := by
  refine ⟨by decide, by decide, by decide⟩

/-- Claim C22, amended: a marker that is absent from a decoded 7-byte frame
leaves the index as the earlier frames of the cycle have set it, 0 in the
first frame.  The frames loop decodes each extracted frame by `decodeFrame`;
that step, when the payload has no power marker, keeps the power index and
sets the system power from the payload byte at that index, and when it has no
setpoint marker, keeps the setpoint index and sets the setpoint from the four
bytes from that index on.  In a cycle over a single frame the indices are 0:
as far as the cycle returns, an absent power marker sets the power from byte 0
and an absent setpoint marker sets the setpoint from bytes 0 to 3, and with
both markers absent the cycle returns. -/
theorem C22_absent_markers_keep_index :
    (∀ (n : Nat) (d : DecodeState),
      processFrames (n + 1) d =
        (d.rpi.getDataFrame d.frameBuffer).bind fun r =>
          (decodeFrame d r).bind (processFrames n)) ∧
    (∀ (d : DecodeState) (r : FrameResult) (d1 : DecodeState),
      r.byteCount % 256 = kFrameSize → decodeFrame d r = some d1 →
      ((∀ k, k < kFrameSize → r.outBuffer.getD k 0 ≠ SYSTEM_POWER_ID_BYTE) →
        d1.systemPowerIndex = d.systemPowerIndex ∧
        ∃ power, r.outBuffer[d.systemPowerIndex]? = some power ∧
          d1.sys.systemPower = (power != 0)) ∧
      ((∀ k, k < kFrameSize → r.outBuffer.getD k 0 ≠ SETPOINT_ID_BYTE) →
        d1.setPointIndex = d.setPointIndex ∧
        readFloat r.outBuffer d.setPointIndex = some d1.sys.setPoint)) ∧
    (∀ (dm : DataManager) (i : CycleInput) (payload : List Nat) (r : CycleResult),
      payload.length = 7 →
      runCycle dm
        { i with rpi := RPiIF.init.writeAll (START_ID_BYTE :: (payload ++ [STOP_ID_BYTE])) }
        = some r →
      r.decoded = true ∧
      (SYSTEM_POWER_ID_BYTE ∉ payload →
        r.dm.systemData.systemPower = (payload.getD 0 0 != 0)) ∧
      (SETPOINT_ID_BYTE ∉ payload →
        r.dm.systemData.setPoint
          = ⟨payload.getD 0 0, payload.getD 1 0, payload.getD 2 0, payload.getD 3 0⟩)) ∧
    (∀ (dm : DataManager) (i : CycleInput) (payload : List Nat),
      payload.length = 7 → SYSTEM_POWER_ID_BYTE ∉ payload → SETPOINT_ID_BYTE ∉ payload →
      ∃ r, runCycle dm
        { i with rpi := RPiIF.init.writeAll (START_ID_BYTE :: (payload ++ [STOP_ID_BYTE])) }
        = some r) :=
  ⟨processFrames_succ, decodeFrame_absent,
    fun dm i payload r hp hr => runCycle_host_absent dm i payload hp r hr,
    runCycle_host_no_marker⟩

/-- The amended claim C22 on the frame `0 9 9 9 9 9 9`: decoded after a frame
that left the indices 6 and 1 it gives the power from byte 6 and the setpoint
from bytes 1 to 4; alone in a cycle it gives a result. -/
theorem C22_absent_markers_keep_index_witness :
    (decodeFrame
        { rpi := RPiIF.init, sys := SystemData.init 133 33,
          frameBuffer := [0x5C, 0, 0, 0, 0, 0x88, 1], systemPowerIndex := 6,
          setPointIndex := 1, isNewDataAvailable := true }
        ⟨7, RPiIF.init, [0, 9, 9, 9, 9, 9, 9]⟩).isSome = true ∧
    (∀ d1, decodeFrame
        { rpi := RPiIF.init, sys := SystemData.init 133 33,
          frameBuffer := [0x5C, 0, 0, 0, 0, 0x88, 1], systemPowerIndex := 6,
          setPointIndex := 1, isNewDataAvailable := true }
        ⟨7, RPiIF.init, [0, 9, 9, 9, 9, 9, 9]⟩ = some d1 →
      d1.systemPowerIndex = 6 ∧ d1.setPointIndex = 1 ∧
      readFloat [0, 9, 9, 9, 9, 9, 9] 1 = some d1.sys.setPoint) ∧
    ∃ r, runCycle (DataManager.init 133 33)
      { CycleInput.idle with
        rpi := RPiIF.init.writeAll (START_ID_BYTE :: ([0, 9, 9, 9, 9, 9, 9] ++ [STOP_ID_BYTE])) }
      = some r :=
  ⟨by decide,
    fun d1 h =>
      ⟨((C22_absent_markers_keep_index.2.1 _ _ d1 (by decide) h).1 (by decide)).1,
        ((C22_absent_markers_keep_index.2.1 _ _ d1 (by decide) h).2 (by decide)).1,
        ((C22_absent_markers_keep_index.2.1 _ _ d1 (by decide) h).2 (by decide)).2⟩,
    C22_absent_markers_keep_index.2.2.2 (DataManager.init 133 33) CycleInput.idle
      [0, 9, 9, 9, 9, 9, 9] (by decide) (by decide) (by decide)⟩

/-! ## The telemetry frame (C23) -/

/-- The decoding of a frame writes the power and the setpoint only, and sets
the flag exactly when the frame has seven bytes. -/
theorem decodeFrame_sys (d : DecodeState) (r : FrameResult) (d1 : DecodeState)
    (h : decodeFrame d r = some d1) :
    d1.sys.waterTemp = d.sys.waterTemp ∧ d1.sys.maxDistance = d.sys.maxDistance ∧
    d1.sys.minDistance = d.sys.minDistance ∧ d1.sys.range = d.sys.range ∧
    d1.sys.lastRange = d.sys.lastRange ∧
    d1.isNewDataAvailable = (d.isNewDataAvailable || r.byteCount % 256 == kFrameSize) := by
  unfold decodeFrame at h
  split at h
  · rename_i h7
    simp only [Option.bind_eq_some, Option.map_eq_some'] at h
    obtain ⟨power, -, sp, -, h⟩ := h
    subst h
    simp [SystemData.setSystemPower, SystemData.setSetPoint, h7]
  · rename_i h7
    cases h
    simp [h7]

/-- The frames loop writes the power and the setpoint only. -/
theorem processFrames_sys : ∀ (n : Nat) (d d2 : DecodeState), processFrames n d = some d2 →
    d2.sys.waterTemp = d.sys.waterTemp ∧ d2.sys.maxDistance = d.sys.maxDistance ∧
    d2.sys.minDistance = d.sys.minDistance ∧ d2.sys.range = d.sys.range ∧
    d2.sys.lastRange = d.sys.lastRange
  | 0, d, d2, h => by
    simp only [processFrames, Option.some.injEq] at h
    subst h
    exact ⟨rfl, rfl, rfl, rfl, rfl⟩
  | n + 1, d, d2, h => by
    rw [processFrames_succ] at h
    simp only [Option.bind_eq_some] at h
    obtain ⟨r, -, d1, hd1, h2⟩ := h
    obtain ⟨a1, a2, a3, a4, a5, -⟩ := decodeFrame_sys d r d1 hd1
    obtain ⟨b1, b2, b3, b4, b5⟩ := processFrames_sys n d1 d2 h2
    exact ⟨b1.trans a1, b2.trans a2, b3.trans a3, b4.trans a4, b5.trans a5⟩

/-- What a cycle sends, in terms of what it leaves behind. -/
theorem updateSystemData_sent (dm : DataManager) (switch7 : Bool) (temp : RawFloat)
    (r : CycleResult) (h : dm.updateSystemData switch7 temp = some r) :
    r.sent = (if r.decoded then
        telemetryFrame r.dm.systemData
          (if r.dm.simulateExtremeTemp then RawFloat.ninetyOne else temp)
      else []) ∧
    r.dm.systemData.waterTemp =
      (if r.dm.simulateExtremeTemp then RawFloat.ninetyOne else temp) ∧
    r.dm.simulateExtremeTemp =
      (if switch7 then !dm.simulateExtremeTemp else dm.simulateExtremeTemp) := by
  unfold DataManager.updateSystemData at h
  simp only [Option.map_eq_some'] at h
  obtain ⟨d, hd, hr⟩ := h
  have hsys : d.sys.waterTemp =
      (if (if switch7 then !dm.simulateExtremeTemp else dm.simulateExtremeTemp) = true
        then RawFloat.ninetyOne else temp) := by
    split at hd
    · exact (processFrames_sys _ _ _ hd).1
    · cases hd
      rfl
  subst hr
  refine ⟨?_, ?_, rfl⟩
  · by_cases hn : d.isNewDataAvailable = true
    · by_cases hu : dm.rangeInterface.sendTriggerPulse.2.hasUnreadDistance = true <;>
        simp [hn, hu, telemetryFrame, SystemData.setCurrentRange, SystemData.setLastRange]
    · simp [hn]
  · simp only
    rw [← hsys]
    by_cases hu : dm.rangeInterface.sendTriggerPulse.2.hasUnreadDistance = true <;>
      by_cases hn : d.isNewDataAvailable = true <;>
      by_cases hc : dm.noDataCounter < 255 <;>
      by_cases h20 : 20 ≤ dm.noDataCounter + 1 <;>
      simp [hu, hn, hc, h20, SystemData.setCurrentRange, SystemData.setLastRange,
        SystemData.setSystemPower]

set_option maxRecDepth 100000 in
/-- Claim C23 as stated fails while the simulation of switch 7 is on: the
cycle in which the switch is pressed decodes a frame with the probe at the
bytes `1 2 3 4` and sends the bytes `0x00 0x00 0xB6 0x42` of the constant 91.0
in the temperature field. -/
theorem C23_counterexample :
    (runCycle DataManager.running
        { CycleInput.hostFrame with switch7 := true, temp := ⟨1, 2, 3, 4⟩ }).map
      (fun r => (r.decoded, r.sent))
      = some (true, [0x7E, 0x2F, 133, 0x3A, 0x00, 0x00, 0xB6, 0x42, 0x7D]) := by
  decide

/-- Claim C23, amended: a call of `updateSystemData` that returns sends a
telemetry frame if and only if it has decoded a 7-byte frame (the flag that a
decoding step sets exactly for a frame of seven bytes), and the frame sent is
the nine bytes START, WATER_LEVEL_ID, the percentage byte of the snapshot,
TEMPERATURE_ID, the four raw bytes of the temperature stored in the snapshot
this cycle, STOP.  That temperature is the value read from the probe in this
call, or the constant 91.0 while the simulation toggled by switch 7 is on. -/
theorem C23_telemetry_frame (dm : DataManager) (switch7 : Bool) (temp : RawFloat)
    (r : CycleResult) (h : dm.updateSystemData switch7 temp = some r) :
    (r.sent ≠ [] ↔ r.decoded = true) ∧
    (r.decoded = true →
      r.sent = [START_ID_BYTE, WATER_LEVEL_ID_BYTE,
        waterLevelPercentage r.dm.systemData.maxDistance r.dm.systemData.minDistance
          r.dm.systemData.range,
        TEMPERATURE_ID_BYTE, r.dm.systemData.waterTemp.b0, r.dm.systemData.waterTemp.b1,
        r.dm.systemData.waterTemp.b2, r.dm.systemData.waterTemp.b3, STOP_ID_BYTE] ∧
      r.sent.length = 9) ∧
    r.dm.systemData.waterTemp =
      (if r.dm.simulateExtremeTemp then RawFloat.ninetyOne else temp) ∧
    r.dm.simulateExtremeTemp =
      (if switch7 then !dm.simulateExtremeTemp else dm.simulateExtremeTemp) ∧
    (∀ (d : DecodeState) (fr : FrameResult) (d1 : DecodeState), decodeFrame d fr = some d1 →
      d1.isNewDataAvailable = (d.isNewDataAvailable || fr.byteCount % 256 == kFrameSize)) := by
  obtain ⟨hsent, htemp, hsim⟩ := updateSystemData_sent dm switch7 temp r h
  rw [← htemp] at hsent
  refine ⟨?_, fun hd => ?_, htemp, hsim, fun d fr d1 hd => (decodeFrame_sys d fr d1 hd).2.2.2.2.2⟩
  · rw [hsent]
    cases r.decoded <;> simp [telemetryFrame]
  · rw [hsent, hd]
    exact ⟨rfl, rfl⟩

set_option maxRecDepth 100000 in
/-- The amended claim C23 on a cycle that finds one host frame in the channel,
with the simulation off. -/
theorem C23_telemetry_frame_witness :
    ∃ r, ({ DataManager.running with rpiInterface := CycleInput.hostFrame.rpi }
        : DataManager).updateSystemData false ⟨1, 2, 3, 4⟩ = some r ∧
      (r.sent ≠ [] ↔ r.decoded = true) ∧
      (r.decoded = true →
        r.sent = [START_ID_BYTE, WATER_LEVEL_ID_BYTE,
          waterLevelPercentage r.dm.systemData.maxDistance r.dm.systemData.minDistance
            r.dm.systemData.range,
          TEMPERATURE_ID_BYTE, r.dm.systemData.waterTemp.b0, r.dm.systemData.waterTemp.b1,
          r.dm.systemData.waterTemp.b2, r.dm.systemData.waterTemp.b3, STOP_ID_BYTE] ∧
        r.sent.length = 9) ∧
      r.dm.systemData.waterTemp =
        (if r.dm.simulateExtremeTemp then RawFloat.ninetyOne else ⟨1, 2, 3, 4⟩) := by
  have hs : (({ DataManager.running with rpiInterface := CycleInput.hostFrame.rpi }
      : DataManager).updateSystemData false ⟨1, 2, 3, 4⟩).isSome = true := by decide
  obtain ⟨r, hr⟩ := Option.isSome_iff_exists.1 hs
  have h := C23_telemetry_frame _ false ⟨1, 2, 3, 4⟩ r hr
  exact ⟨r, hr, h.1, h.2.1, h.2.2.1⟩

/-! ## The water-level percentage (C24) -/

/-- Inside the bounds the exact value is a quotient of natural numbers. -/
theorem waterLevelExact_inside (minDist c a : Nat) :
    waterLevelExact (minDist + c + a) minDist (minDist + c)
      = (((200 * a + (c + a)) / (2 * (c + a)) : Nat) : Int) := by
  have hnum : ((↑(minDist + c + a) : Int) - ↑(minDist + c)) * 100
      = ((a * 100 : Nat) : Int) := by
    push_cast
    ring
  have hden : (↑(minDist + c + a) : Int) - ↑minDist = ((c + a : Nat) : Int) := by
    push_cast
    ring
  have h1 : ¬ ((a * 100 : Nat) : Int) < 0 := by omega
  have h2 : ¬ ((c + a : Nat) : Int) < 0 := by omega
  simp only [waterLevelExact, hnum, hden, Int.natAbs_ofNat, h1, h2, decide_False,
    bne_self_eq_false, Bool.false_eq_true, if_false]
  congr 2
  omega

/-- Rounding of a non-negative quotient, halves upwards, as a division of
natural numbers. -/
theorem round_quotient (a b : Nat) (hb : 0 < b) :
    round ((100 * (a : ℚ)) / (b : ℚ)) = (((200 * a + b) / (2 * b) : Nat) : Int) := by
  rw [round_eq]
  have hb0 : (b : ℚ) ≠ 0 := by exact_mod_cast hb.ne'
  have h : (100 * (a : ℚ)) / (b : ℚ) + 1 / 2
      = (((200 * a + b : Nat) : Int) : ℚ) / ((2 * b : Nat) : ℚ) := by
    push_cast
    field_simp
    ring
  rw [h, Rat.floor_intCast_div_natCast]
  push_cast
  rfl

/-- Rounding to nearest does not pass a natural number above the quotient. -/
theorem roundHalfEven_le (n d k : Nat) (hd : 0 < d) (h : n ≤ k * d) :
    roundHalfEven n d ≤ k := by
  have hq : n / d ≤ k := Nat.div_le_of_le_mul (by rw [Nat.mul_comm]; exact h)
  have hdm := Nat.div_add_mod n d
  have hml := Nat.mod_lt n hd
  by_cases hk : n / d = k
  · have hr : n % d = 0 := by
      rw [hk, Nat.mul_comm] at hdm
      omega
    unfold roundHalfEven
    rw [hr, if_pos (by omega)]
    exact hq
  · have hlt : n / d + 1 ≤ k := by omega
    unfold roundHalfEven
    split_ifs <;> omega

/-- The scaled numerator is the numerator times the factor, and a quotient
below `2^24` stays below it. -/
theorem scaleUp_spec : ∀ (fuel p q w : Nat), 0 < w →
    (scaleUp fuel p q w).1 * w = p * (scaleUp fuel p q w).2 ∧
    0 < (scaleUp fuel p q w).2 ∧
    (p < 16777216 * q → (scaleUp fuel p q w).1 < 16777216 * q)
  | 0, p, q, w, hw => ⟨rfl, hw, fun h => h⟩
  | fuel + 1, p, q, w, hw => by
    unfold scaleUp
    split
    · rename_i hlt
      obtain ⟨h1, h2, h3⟩ := scaleUp_spec fuel (2 * p) q (2 * w) (by omega)
      refine ⟨?_, h2, fun _ => h3 (by omega)⟩
      have h : (scaleUp fuel (2 * p) q (2 * w)).1 * w * 2
          = p * (scaleUp fuel (2 * p) q (2 * w)).2 * 2 := by
        calc (scaleUp fuel (2 * p) q (2 * w)).1 * w * 2
            = (scaleUp fuel (2 * p) q (2 * w)).1 * (2 * w) := by ring
          _ = 2 * p * (scaleUp fuel (2 * p) q (2 * w)).2 := h1
          _ = p * (scaleUp fuel (2 * p) q (2 * w)).2 * 2 := by ring
      exact Nat.eq_of_mul_eq_mul_right (by decide) h
    · exact ⟨rfl, hw, fun h => h⟩

/-- A quotient below `2^24` is not scaled down. -/
theorem scaleDown_small (fuel p q w : Nat) (h : p < 16777216 * q) :
    scaleDown fuel p q w = (q, w) := by
  cases fuel with
  | zero => rfl
  | succ fuel =>
    unfold scaleDown
    rw [if_neg (by omega)]

/-- The rounding to `float` does not pass a natural number `c < 2^24` above
the quotient. -/
theorem f32Round_le (p q c : Nat) (hq : 0 < q) (hc : c < 16777216) (h : p ≤ c * q) :
    (f32Round p q).1 ≤ c * (f32Round p q).2 ∧ 0 < (f32Round p q).2 := by
  unfold f32Round
  by_cases hp : p = 0
  · rw [if_pos hp]
    exact ⟨Nat.zero_le _, Nat.one_pos⟩
  · rw [if_neg hp]
    have hlt : p < 16777216 * q := by
      calc p ≤ c * q := h
        _ < 16777216 * q := Nat.mul_lt_mul_of_pos_right hc hq
    obtain ⟨h1, h2, h3⟩ := scaleUp_spec (q + 24) p q 1 Nat.one_pos
    have hd := scaleDown_small (scaleUp (q + 24) p q 1).1 (scaleUp (q + 24) p q 1).1 q 1
      (h3 hlt)
    simp only [hd, Nat.mul_one]
    refine ⟨roundHalfEven_le _ _ _ hq ?_, h2⟩
    rw [Nat.mul_one] at h1
    rw [h1]
    calc p * (scaleUp (q + 24) p q 1).2 ≤ c * q * (scaleUp (q + 24) p q 1).2 :=
          Nat.mul_le_mul_right _ h
      _ = c * (scaleUp (q + 24) p q 1).2 * q := by ring

/-- Inside the bounds the single-precision value is a natural number of at
most 100. -/
theorem waterLevelFloat_inside (minDist c a : Nat) (hpos : 0 < c + a) :
    ∃ v : Nat, waterLevelFloat (minDist + c + a) minDist (minDist + c) = some (v : Int) ∧
      v ≤ 100 := by
  have hnum : ((↑(minDist + c + a) : Int) - ↑(minDist + c)) = ((a : Nat) : Int) := by
    push_cast
    ring
  have hden : (↑(minDist + c + a) : Int) - ↑minDist = ((c + a : Nat) : Int) := by
    push_cast
    ring
  have h1 : ¬ ((a : Nat) : Int) < 0 := by omega
  have h2 : ¬ ((c + a : Nat) : Int) < 0 := by omega
  have h3 : ¬ ((c + a : Nat) : Int) = 0 := by omega
  obtain ⟨hq1, hq2⟩ := f32Round_le a (c + a) 1 hpos (by decide) (by omega)
  obtain ⟨hy1, hy2⟩ := f32Round_le ((f32Round a (c + a)).1 * 100) (f32Round a (c + a)).2 100
    hq2 (by decide) (by omega)
  refine ⟨(2 * (f32Round ((f32Round a (c + a)).1 * 100) (f32Round a (c + a)).2).1
      + (f32Round ((f32Round a (c + a)).1 * 100) (f32Round a (c + a)).2).2)
      / (2 * (f32Round ((f32Round a (c + a)).1 * 100) (f32Round a (c + a)).2).2), ?_, ?_⟩
  · simp only [waterLevelFloat, hnum, hden, Int.natAbs_ofNat, h1, h2, h3, decide_False,
      bne_self_eq_false, Bool.false_eq_true, if_false]
  · apply Nat.le_of_lt_succ
    rw [Nat.div_lt_iff_lt_mul (by omega)]
    omega

/-- Rounding to nearest does not go below the quotient rounded down. -/
theorem roundHalfEven_ge (n d : Nat) : n / d ≤ roundHalfEven n d := by
  unfold roundHalfEven
  split_ifs <;> omega

/-- With enough steps the scaled numerator reaches `2^23` times the
denominator. -/
theorem scaleUp_reach : ∀ (fuel p q w : Nat), 8388608 * q ≤ p * 2 ^ fuel →
    8388608 * q ≤ (scaleUp fuel p q w).1
  | 0, p, q, w, h => by simpa [scaleUp] using h
  | fuel + 1, p, q, w, h => by
    unfold scaleUp
    split
    · exact scaleUp_reach fuel (2 * p) q (2 * w) (by rw [pow_succ] at h; linarith)
    · rename_i hn
      exact Nat.le_of_not_lt hn

/-- The scaled denominator is the denominator times the factor, the quotient
stays at or above `2^23`, and with enough steps it comes below `2^24`. -/
theorem scaleDown_spec : ∀ (fuel p q w : Nat), 8388608 * q ≤ p →
    (scaleDown fuel p q w).1 * w = q * (scaleDown fuel p q w).2 ∧
    8388608 * (scaleDown fuel p q w).1 ≤ p ∧
    (p < 16777216 * q * 2 ^ fuel → p < 16777216 * (scaleDown fuel p q w).1)
  | 0, p, q, w, h => ⟨rfl, h, fun h2 => by simpa [scaleDown] using h2⟩
  | fuel + 1, p, q, w, h => by
    unfold scaleDown
    split
    · rename_i hge
      obtain ⟨h1, h2, h3⟩ := scaleDown_spec fuel p (2 * q) (2 * w) (by omega)
      refine ⟨?_, h2, fun hlt => h3 (by rw [pow_succ] at hlt; linarith)⟩
      have h : (scaleDown fuel p (2 * q) (2 * w)).1 * w * 2
          = q * (scaleDown fuel p (2 * q) (2 * w)).2 * 2 := by
        calc (scaleDown fuel p (2 * q) (2 * w)).1 * w * 2
            = (scaleDown fuel p (2 * q) (2 * w)).1 * (2 * w) := by ring
          _ = 2 * q * (scaleDown fuel p (2 * q) (2 * w)).2 := h1
          _ = q * (scaleDown fuel p (2 * q) (2 * w)).2 * 2 := by ring
      exact Nat.eq_of_mul_eq_mul_right (by decide) h
    · rename_i hn
      exact ⟨rfl, h, fun _ => Nat.lt_of_not_le hn⟩

/-- The factor of `scaleUp` is a power of two. -/
theorem scaleUp_pow : ∀ (fuel p q w : Nat), ∃ k, (scaleUp fuel p q w).2 = w * 2 ^ k
  | 0, _, _, _ => ⟨0, by simp [scaleUp]⟩
  | fuel + 1, p, q, w => by
    unfold scaleUp
    split
    · obtain ⟨k, hk⟩ := scaleUp_pow fuel (2 * p) q (2 * w)
      exact ⟨k + 1, by rw [hk, pow_succ]; ring⟩
    · exact ⟨0, by simp⟩

/-- The factor of `scaleDown` is a power of two. -/
theorem scaleDown_pow : ∀ (fuel p q w : Nat), ∃ k, (scaleDown fuel p q w).2 = w * 2 ^ k
  | 0, _, _, _ => ⟨0, by simp [scaleDown]⟩
  | fuel + 1, p, q, w => by
    unfold scaleDown
    split
    · obtain ⟨k, hk⟩ := scaleDown_pow fuel p (2 * q) (2 * w)
      exact ⟨k + 1, by rw [hk, pow_succ]; ring⟩
    · exact ⟨0, by simp⟩

/-- The bounds on the steps in `f32Round` are enough: for a positive quotient
`p / q` the result is `m * 2^j / 2^i` with `m` the rounding to nearest, ties
to even, of `p * 2^i / (q * 2^j)`, that scaled quotient lies in
`2^23 .. 2^24`, and so does the significand `m`. -/
theorem f32Round_normal (p q : Nat) (hp : 0 < p) (hq : 0 < q) :
    ∃ i j m, f32Round p q = (m * 2 ^ j, 2 ^ i) ∧
      m = roundHalfEven (p * 2 ^ i) (q * 2 ^ j) ∧
      8388608 * (q * 2 ^ j) ≤ p * 2 ^ i ∧ p * 2 ^ i < 16777216 * (q * 2 ^ j) ∧
      8388608 ≤ m ∧ m ≤ 16777216 := by
  obtain ⟨hu1, hu2, -⟩ := scaleUp_spec (q + 24) p q 1 Nat.one_pos
  rw [Nat.mul_one] at hu1
  have hq2 : q < 2 ^ q := Nat.lt_two_pow q
  have hreach : 8388608 * q ≤ (scaleUp (q + 24) p q 1).1 := by
    apply scaleUp_reach
    have h2 : 2 ^ (q + 24) = 2 ^ q * 16777216 := by
      rw [pow_add]
      norm_num
    rw [h2]
    calc 8388608 * q ≤ 1 * (2 ^ q * 16777216) := by omega
      _ ≤ p * (2 ^ q * 16777216) := Nat.mul_le_mul_right _ hp
  obtain ⟨hd1, hd2, hd3⟩ := scaleDown_spec (scaleUp (q + 24) p q 1).1
    (scaleUp (q + 24) p q 1).1 q 1 hreach
  rw [Nat.mul_one] at hd1
  have hlt : (scaleUp (q + 24) p q 1).1
      < 16777216 *
        (scaleDown (scaleUp (q + 24) p q 1).1 (scaleUp (q + 24) p q 1).1 q 1).1 := by
    apply hd3
    have hP := Nat.lt_two_pow (scaleUp (q + 24) p q 1).1
    calc (scaleUp (q + 24) p q 1).1 < 2 ^ (scaleUp (q + 24) p q 1).1 := hP
      _ = 1 * 2 ^ (scaleUp (q + 24) p q 1).1 := (Nat.one_mul _).symm
      _ ≤ 16777216 * q * 2 ^ (scaleUp (q + 24) p q 1).1 :=
          Nat.mul_le_mul_right _ (by omega)
  have hd0 :
      0 < (scaleDown (scaleUp (q + 24) p q 1).1 (scaleUp (q + 24) p q 1).1 q 1).1 := by
    omega
  obtain ⟨i, hi⟩ := scaleUp_pow (q + 24) p q 1
  obtain ⟨j, hj⟩ := scaleDown_pow (scaleUp (q + 24) p q 1).1 (scaleUp (q + 24) p q 1).1 q 1
  rw [Nat.one_mul] at hi hj
  refine ⟨i, j, roundHalfEven (scaleUp (q + 24) p q 1).1
      (scaleDown (scaleUp (q + 24) p q 1).1 (scaleUp (q + 24) p q 1).1 q 1).1,
    ?_, ?_, ?_, ?_, ?_, ?_⟩
  · unfold f32Round
    rw [if_neg (by omega), ← hi, ← hj]
  · rw [← hi, ← hj, ← hu1, ← hd1]
  · rw [← hi, ← hj, ← hu1, ← hd1]
    exact hd2
  · rw [← hi, ← hj, ← hu1, ← hd1]
    exact hlt
  · exact le_trans ((Nat.le_div_iff_mul_le hd0).2 hd2) (roundHalfEven_ge _ _)
  · exact roundHalfEven_le _ _ _ hd0 (by omega)

set_option maxRecDepth 100000 in
/-- Claim C24 as stated fails in two ways.  Outside the bounds the value is
not in 0..100: with the bounds 133 and 33 of `main`, the distance 0 that the
snapshot holds at start-up gives the byte 133, and the distance 140 gives -7,
for which the conversion to `uint8_t` is undefined.  Inside the bounds the
byte is not the exactly computed rounding: with the bounds 73 and 33 and the
distance 52 the exact value is 52.5 and rounds to 53, and the single-precision
product is just below 52.5 and rounds to 52. -/
theorem C24_counterexample :
    (33 : Nat) < 133 ∧ (0 : Nat) < 65536 ∧ (140 : Nat) < 65536 ∧
    waterLevelFloat 133 33 0 = some 133 ∧ waterLevelByte 133 33 0 = some 133 ∧
    waterLevelExact 133 33 0 = 133 ∧
    waterLevelFloat 133 33 140 = some (-7) ∧ waterLevelByte 133 33 140 = none ∧
    waterLevelExact 133 33 140 = -7 ∧
    (33 : Nat) < 73 ∧ (33 : Nat) ≤ 52 ∧ (52 : Nat) ≤ 73 ∧
    waterLevelByte 73 33 52 = some 52 ∧ waterLevelExact 73 33 52 = 53 := by
  decide

set_option maxRecDepth 1000000 in
/-- Claim C24, amended: for bounds `minDist < maxDist` and a current distance
between them, `minDist <= cur <= maxDist`, the value the code computes in
single precision is defined and is an integer in 0..100, and it is the byte
placed in the telemetry frame.  The exactly computed value
`round(100 * (maxDist - cur) / (maxDist - minDist))` lies in 0..100 as well;
with the bounds 133 and 33 of `main` the code's value is equal to it for every
distance from 33 to 133. -/
theorem C24_percentage_in_range (maxDist minDist cur : Nat) (hb : minDist < maxDist)
    (hlo : minDist ≤ cur) (hhi : cur ≤ maxDist) :
    (∃ v : Nat, waterLevelFloat maxDist minDist cur = some (v : Int) ∧
      waterLevelByte maxDist minDist cur = some v ∧
      waterLevelPercentage maxDist minDist cur = v ∧ v ≤ 100) ∧
    (waterLevelExact maxDist minDist cur
        = round ((100 * ((maxDist : ℚ) - (cur : ℚ))) / ((maxDist : ℚ) - (minDist : ℚ))) ∧
      0 ≤ waterLevelExact maxDist minDist cur ∧ waterLevelExact maxDist minDist cur ≤ 100) ∧
    (∀ k, k < 101 →
      waterLevelFloat 133 33 (33 + k) = some (waterLevelExact 133 33 (33 + k))) := by
  obtain ⟨c, rfl⟩ := Nat.exists_eq_add_of_le hlo
  obtain ⟨a, rfl⟩ := Nat.exists_eq_add_of_le hhi
  have hpos : 0 < c + a := by omega
  have hle : (200 * a + (c + a)) / (2 * (c + a)) ≤ 100 := by
    apply Nat.le_of_lt_succ
    rw [Nat.div_lt_iff_lt_mul (by omega)]
    omega
  have hq := waterLevelExact_inside minDist c a
  have hr := round_quotient a (c + a) hpos
  obtain ⟨v, hv, hv100⟩ := waterLevelFloat_inside minDist c a hpos
  have hbyte : waterLevelByte (minDist + c + a) minDist (minDist + c) = some v := by
    unfold waterLevelByte
    rw [hv]
    have h255 : (0 : Int) ≤ (v : Int) ∧ (v : Int) ≤ 255 := by omega
    simp [h255]
  refine ⟨⟨v, hv, hbyte, ?_, hv100⟩, ⟨?_, ?_, ?_⟩, by decide⟩
  · unfold waterLevelPercentage
    rw [hbyte]
    rfl
  · rw [hq, ← hr]
    congr 1
    push_cast
    ring
  · rw [hq]
    exact Int.natCast_nonneg _
  · rw [hq]
    exact_mod_cast hle

/-- The amended claim C24 at the bounds 73 and 33 and the distance 52, where
the code's value 52 and the exact value 53 differ. -/
theorem C24_percentage_in_range_witness :
    ((33 : Nat) < 73 ∧ (33 : Nat) ≤ 52 ∧ (52 : Nat) ≤ 73) ∧
    waterLevelByte 73 33 52 = some 52 ∧
    ∃ v : Nat, waterLevelFloat 73 33 52 = some (v : Int) ∧
      waterLevelByte 73 33 52 = some v ∧
      waterLevelPercentage 73 33 52 = v ∧ v ≤ 100 :=
  ⟨⟨by decide, by decide, by decide⟩, by decide,
    (C24_percentage_in_range 73 33 52 (by decide) (by decide) (by decide)).1⟩

/-! ## The trend predicates against the integer difference (C25) -/

/-- Claim C25 as stated fails where the 16-bit difference wraps: for
`cur = 0`, `last = 65535` the difference is 1 in 16 bits and the stable test
holds, though the two values are 65535 apart; for `cur = 2`, `last = 65535`
the difference is 3 in 16 bits and the rising test holds, though `cur - last`
is negative. -/
theorem C25_counterexample :
    isDistanceStable 0 65535 = true ∧ ¬ (((0 : Nat) : Int) - ((65535 : Nat) : Int)).natAbs < 2 ∧
    isDistanceDecreasing 2 65535 = true ∧ ¬ ((2 : Nat) : Int) - ((65535 : Nat) : Int) > 2 := by
  decide

/-- Claim C25, amended: for 16-bit `cur` and `last` that are less than 32768
apart, `isDistanceDecreasing(cur, last)` is true exactly when `cur - last > 2`
and `isDistanceStable(cur, last)` is true exactly when `|cur - last| < 2`,
with `cur - last` the difference of the two values as integers. -/
theorem C25_trend_predicates (cur last : Nat) (hc : cur < 65536) (hl : last < 65536)
    (hd : ((cur : Int) - (last : Int)).natAbs < 32768) :
    (isDistanceDecreasing cur last = true ↔ (cur : Int) - (last : Int) > 2) ∧
    (isDistanceStable cur last = true ↔ ((cur : Int) - (last : Int)).natAbs < 2) :=
  ⟨isDistanceDecreasing_iff cur last hc hl (by omega) (by omega),
    isDistanceStable_iff cur last hc hl (by omega) (by omega)⟩

/-- The amended claim C25 at `cur = 103`, `last = 100`. -/
theorem C25_trend_predicates_witness :
    (103 : Nat) < 65536 ∧ (100 : Nat) < 65536 ∧
    (((103 : Nat) : Int) - ((100 : Nat) : Int)).natAbs < 32768 ∧
    (isDistanceDecreasing 103 100 = true ↔ ((103 : Nat) : Int) - ((100 : Nat) : Int) > 2) ∧
    (isDistanceStable 103 100 = true ↔
      (((103 : Nat) : Int) - ((100 : Nat) : Int)).natAbs < 2) :=
  ⟨by decide, by decide, by decide, C25_trend_predicates 103 100 (by decide) (by decide)
    (by decide)⟩

/-! ## The pump against the refill state (C28, C29) -/

/-- A `checkDistance` step keeps the two bounds. -/
theorem checkDistance_bounds (b : BrugVarmtVand) (sysData : SystemData) :
    (b.checkDistance sysData).maxDistance = b.maxDistance ∧
    (b.checkDistance sysData).minDistance = b.minDistance := by
  unfold BrugVarmtVand.checkDistance
  cases b.currentState <;> simp only <;> split_ifs <;>
    simp [BrugVarmtVand.stopTimer, BrugVarmtVand.startTimer, BrugVarmtVand.pumpStart,
      BrugVarmtVand.pumpStop]

/-- A `checkDistance` step outside `ForceRefill` does not switch the pump on. -/
theorem checkDistance_starts_in_force_refill (b : BrugVarmtVand) (sysData : SystemData)
    (hs : b.currentState ≠ State.ForceRefill)
    (hon : (b.checkDistance sysData).pumpOn = true) : b.pumpOn = true := by
  unfold BrugVarmtVand.checkDistance at hon
  cases hc : b.currentState with
  | ForceRefill => exact absurd hc hs
  | CheckDistance =>
    rw [hc] at hon
    simp only at hon
    split_ifs at hon <;>
      first
        | exact hon
        | simp [BrugVarmtVand.stopTimer, BrugVarmtVand.pumpStop] at hon
  | TimerRunning =>
    rw [hc] at hon
    simp only at hon
    split_ifs at hon <;> exact hon

/-- A `checkDistance` step in `ForceRefill` either stays there or stops the
pump. -/
theorem checkDistance_leaves_force_refill (b : BrugVarmtVand) (sysData : SystemData)
    (hs : b.currentState = State.ForceRefill)
    (hl : (b.checkDistance sysData).currentState ≠ State.ForceRefill) :
    (b.checkDistance sysData).pumpOn = false := by
  unfold BrugVarmtVand.checkDistance at hl ⊢
  rw [hs] at hl ⊢
  simp only at hl ⊢
  split_ifs at hl ⊢ <;>
    simp_all [BrugVarmtVand.stopTimer, BrugVarmtVand.pumpStart, BrugVarmtVand.pumpStop]

/-- A `checkDistance` step in `ForceRefill` on a full tank stops the pump. -/
theorem checkDistance_full (b : BrugVarmtVand) (sysData : SystemData)
    (hs : b.currentState = State.ForceRefill) (hb : b.minDistance < b.maxDistance)
    (hfull : sysData.range ≤ b.minDistance) :
    (b.checkDistance sysData).pumpOn = false := by
  have h1 : ¬ sysData.range > b.minDistance := by omega
  have h2 : ¬ sysData.range ≥ b.maxDistance := by omega
  unfold BrugVarmtVand.checkDistance
  rw [hs]
  simp [BrugVarmtVand.isWithinLimits, BrugVarmtVand.isLevelMin, BrugVarmtVand.isLevelMax,
    BrugVarmtVand.stopTimer, BrugVarmtVand.pumpStop, h1, h2, hfull]

/-- An event keeps the bounds, and keeps the pump off outside `ForceRefill`. -/
theorem apply_pump (b : BrugVarmtVand) (e : RefillEvent)
    (hinv : b.pumpOn = true → b.currentState = State.ForceRefill) :
    (b.apply e).maxDistance = b.maxDistance ∧ (b.apply e).minDistance = b.minDistance ∧
    ((b.apply e).pumpOn = true → (b.apply e).currentState = State.ForceRefill) := by
  cases e with
  | externalStop =>
    exact ⟨rfl, rfl, fun h => by simp [BrugVarmtVand.apply, BrugVarmtVand.pumpStop] at h⟩
  | check sysData overflows =>
    simp only [BrugVarmtVand.apply]
    refine ⟨(checkDistance_bounds _ sysData).1, (checkDistance_bounds _ sysData).2,
      fun hon => ?_⟩
    by_contra hne
    by_cases hs : b.currentState = State.ForceRefill
    · have hoff := checkDistance_leaves_force_refill
        ({ b with overflowCount := overflows } : BrugVarmtVand) sysData hs hne
      rw [hoff] at hon
      exact absurd hon (by simp)
    · have hb := checkDistance_starts_in_force_refill
        ({ b with overflowCount := overflows } : BrugVarmtVand) sysData hs hon
      exact hs (hinv hb)

/-- A run of events keeps the bounds, and keeps the pump off outside
`ForceRefill`. -/
theorem runEvents_pump (events : List RefillEvent) :
    ∀ b : BrugVarmtVand, (b.pumpOn = true → b.currentState = State.ForceRefill) →
      (b.runEvents events).maxDistance = b.maxDistance ∧
      (b.runEvents events).minDistance = b.minDistance ∧
      ((b.runEvents events).pumpOn = true →
        (b.runEvents events).currentState = State.ForceRefill) := by
  induction events with
  | nil => intro b hinv; exact ⟨rfl, rfl, hinv⟩
  | cons e rest ih =>
    intro b hinv
    obtain ⟨h1, h2, h3⟩ := apply_pump b e hinv
    obtain ⟨g1, g2, g3⟩ := ih (b.apply e) h3
    simp only [BrugVarmtVand.runEvents, List.foldl_cons] at g1 g2 g3 ⊢
    exact ⟨g1.trans h1, g2.trans h2, g3⟩

/-- C28: with `minDist < maxDist`, from the state the constructor sets up
(`CheckDistance`, pump off) and after any sequence of `checkDistance` steps,
on arbitrary snapshots and overflow counts, and external pump stops, a
`checkDistance` step on a snapshot with `cur <= minDist` leaves the pump
off. -/
theorem C28_pump_off_on_full_tank (maxDist minDist : Nat) (hb : minDist < maxDist)
    (events : List RefillEvent) (sysData : SystemData) (overflows : Nat)
    (hfull : sysData.range ≤ minDist) :
    ((BrugVarmtVand.init (SystemData.init maxDist minDist)).runEvents
      (events ++ [RefillEvent.check sysData overflows])).pumpOn = false := by
  obtain ⟨hmax, hmin, hinv⟩ := runEvents_pump events
    (BrugVarmtVand.init (SystemData.init maxDist minDist)) (fun h => by cases h)
  simp only [BrugVarmtVand.runEvents, List.foldl_append, List.foldl_cons, List.foldl_nil,
    BrugVarmtVand.apply] at hmax hmin hinv ⊢
  generalize List.foldl BrugVarmtVand.apply
    (BrugVarmtVand.init (SystemData.init maxDist minDist)) events = b at hmax hmin hinv ⊢
  have hmax1 : b.maxDistance = maxDist := hmax
  have hmin1 : b.minDistance = minDist := hmin
  by_cases hs : b.currentState = State.ForceRefill
  · exact checkDistance_full ({ b with overflowCount := overflows } : BrugVarmtVand) sysData hs
      (by simp only [hmax1, hmin1]; exact hb) (by simp only [hmin1]; exact hfull)
  · cases hp : (({ b with overflowCount := overflows } : BrugVarmtVand).checkDistance
        sysData).pumpOn with
    | false => rfl
    | true =>
      exact absurd (hinv (checkDistance_starts_in_force_refill
        ({ b with overflowCount := overflows } : BrugVarmtVand) sysData hs hp)) hs

/-- C28 on a run that fills the tank: empty tank, level within the limits
(the pump starts), then a snapshot at the distance 30 below `minDist = 33`. -/
theorem C28_pump_off_on_full_tank_witness :
    (33 : Nat) < 133 ∧ (SystemData.atLevel 30 31).range ≤ 33 ∧
    ((BrugVarmtVand.init (SystemData.init 133 33)).runEvents
      [RefillEvent.check (SystemData.atLevel 140 140) 0,
        RefillEvent.check (SystemData.atLevel 100 140) 0]).pumpOn = true ∧
    ((BrugVarmtVand.init (SystemData.init 133 33)).runEvents
      ([RefillEvent.check (SystemData.atLevel 140 140) 0,
          RefillEvent.check (SystemData.atLevel 100 140) 0] ++
        [RefillEvent.check (SystemData.atLevel 30 31) 0])).pumpOn = false :=
  ⟨by decide, by decide, by decide,
    C28_pump_off_on_full_tank 133 33 (by decide)
      [RefillEvent.check (SystemData.atLevel 140 140) 0,
        RefillEvent.check (SystemData.atLevel 100 140) 0]
      (SystemData.atLevel 30 31) 0 (by decide)⟩

/-- C29: in every state reached from the state the constructor sets up
(`CheckDistance`, pump off) by `checkDistance` steps on arbitrary snapshots
and overflow counts and by external pump stops, a running pump implies the
state `ForceRefill`.  A `checkDistance` step that finds the pump off and
leaves it on starts in `ForceRefill`, and a step that starts in `ForceRefill`
and ends in another state leaves the pump off. -/
theorem C29_pump_on_implies_force_refill (sys0 : SystemData) (events : List RefillEvent) :
    (((BrugVarmtVand.init sys0).runEvents events).pumpOn = true →
      ((BrugVarmtVand.init sys0).runEvents events).currentState = State.ForceRefill) ∧
    (∀ (b : BrugVarmtVand) (sysData : SystemData),
      b.pumpOn = false → (b.checkDistance sysData).pumpOn = true →
      b.currentState = State.ForceRefill) ∧
    (∀ (b : BrugVarmtVand) (sysData : SystemData),
      b.currentState = State.ForceRefill →
      (b.checkDistance sysData).currentState ≠ State.ForceRefill →
      (b.checkDistance sysData).pumpOn = false) := by
  refine ⟨(runEvents_pump events (BrugVarmtVand.init sys0) (fun h => by cases h)).2.2,
    fun b sysData hoff hon => ?_, checkDistance_leaves_force_refill⟩
  by_contra hs
  rw [checkDistance_starts_in_force_refill b sysData hs hon] at hoff
  exact absurd hoff (by simp)

/-- C29 on a run that starts the pump: empty tank, then a level within the
limits; the pump is on and the state is `ForceRefill`. -/
theorem C29_pump_on_implies_force_refill_witness :
    ((BrugVarmtVand.init (SystemData.init 133 33)).runEvents
      [RefillEvent.check (SystemData.atLevel 140 140) 0,
        RefillEvent.check (SystemData.atLevel 100 140) 0]).pumpOn = true ∧
    ((BrugVarmtVand.init (SystemData.init 133 33)).runEvents
      [RefillEvent.check (SystemData.atLevel 140 140) 0,
        RefillEvent.check (SystemData.atLevel 100 140) 0]).currentState = State.ForceRefill :=
  ⟨by decide,
    (C29_pump_on_implies_force_refill (SystemData.init 133 33)
      [RefillEvent.check (SystemData.atLevel 140 140) 0,
        RefillEvent.check (SystemData.atLevel 100 140) 0]).1 (by decide)⟩

/-! ## Rising and stable exclude each other (C31) -/

/-- C31: for every `cur` and `last` (the 16-bit values among them),
`isDistanceDecreasing(cur, last)` and `isDistanceStable(cur, last)` are not
both true.  So in a `checkDistance` step in state `TimerRunning` the test that
leads to `ForceRefill` and the test that leads back to `CheckDistance` do not
both hold, the step ends in `CheckDistance` when the distance is rising, in
`ForceRefill` when the debounce count is reached and the distance is stable,
and in `TimerRunning` otherwise, and the step with the two tests in the
opposite order gives the same result. -/
theorem C31_rising_stable_exclusive (b : BrugVarmtVand) (sysData : SystemData)
    (hs : b.currentState = State.TimerRunning) :
    (∀ cur last : Nat,
      ¬ (isDistanceDecreasing cur last = true ∧ isDistanceStable cur last = true)) ∧
    ¬ ((b.overflowCount ≥ debounceThreshold ∧
          isDistanceStable sysData.range sysData.lastRange = true) ∧
        isDistanceDecreasing sysData.range sysData.lastRange = true) ∧
    (b.checkDistance sysData).currentState =
      (if isDistanceDecreasing sysData.range sysData.lastRange = true then State.CheckDistance
        else if b.overflowCount ≥ debounceThreshold ∧
            isDistanceStable sysData.range sysData.lastRange = true then State.ForceRefill
        else State.TimerRunning) ∧
    b.checkDistance sysData = b.timerRunningSwapped sysData := by
  have hex : ∀ cur last : Nat,
      ¬ (isDistanceDecreasing cur last = true ∧ isDistanceStable cur last = true) := by
    intro cur last h
    rw [not_decreasing_and_stable cur last h.1] at h
    exact absurd h.2 (by decide)
  refine ⟨hex, fun h => hex _ _ ⟨h.2, h.1.2⟩, ?_, ?_⟩
  · simp only [BrugVarmtVand.checkDistance, hs]
    cases hd : isDistanceDecreasing sysData.range sysData.lastRange with
    | true => simp
    | false =>
      by_cases hc : b.overflowCount ≥ debounceThreshold <;>
        cases hst : isDistanceStable sysData.range sysData.lastRange <;>
        simp [hc, hs]
  · simp only [BrugVarmtVand.checkDistance, BrugVarmtVand.timerRunningSwapped, hs]
    cases hd : isDistanceDecreasing sysData.range sysData.lastRange with
    | true =>
      have hst := not_decreasing_and_stable _ _ hd
      simp [hst]
    | false => simp

/-- C31 on a step in `TimerRunning` with the debounce count reached and a
stable distance: the step ends in `ForceRefill`, in either order of the two
tests. -/
theorem C31_rising_stable_exclusive_witness :
    (BrugVarmtVand.inState State.TimerRunning 3 false).currentState = State.TimerRunning ∧
    ((BrugVarmtVand.inState State.TimerRunning 3 false).checkDistance
      (SystemData.atLevel 80 80)).currentState = State.ForceRefill ∧
    (BrugVarmtVand.inState State.TimerRunning 3 false).timerRunningSwapped
      (SystemData.atLevel 80 80) =
      (BrugVarmtVand.inState State.TimerRunning 3 false).checkDistance
        (SystemData.atLevel 80 80) :=
  ⟨rfl, by decide,
    ((C31_rising_stable_exclusive (BrugVarmtVand.inState State.TimerRunning 3 false)
      (SystemData.atLevel 80 80) rfl).2.2.2).symm⟩

end EcoTank
